import Mathlib

/-!
# Landscaper validation: a shallow embedding

The definitions below follow `apis/core/validation/installation.go`,
`apis/core/validation/target.go`, `apis/deployer/manifest/v1alpha1/conversions.go` and
`pkg/utils/lock/config.go`.
Go strings are Lean strings, `len` of a string is its UTF-8 byte size, slices are lists,
nilable values are `Option`s, and the string set `sets.String` is a `Finset String`.  A
`field.Path` is kept as the chain of steps that built it; a `field.Error` records its type,
path, bad value and detail.  Library functions that live outside the repository (the
object-meta validator, the cron parser, the message helper `MaxLenError`) are parameters, and
so is the order in which the Go runtime visits the entries of a map.  The scope resolver, the
definition validator and the template validator of `blueprint.go`, of which only the tests
are at hand, are modelled from the spec.
-/

set_option autoImplicit false
set_option linter.dupNamespace false

namespace Landscaper

/-! ## Paths and errors (`k8s.io/apimachinery/pkg/util/validation/field`) -/

/-- Decimal digit of a number below ten. -/
def digitChar (d : Nat) : Char :=
  match d with
  | 0 => '0' | 1 => '1' | 2 => '2' | 3 => '3' | 4 => '4'
  | 5 => '5' | 6 => '6' | 7 => '7' | 8 => '8' | _ => '9'

/-- Decimal digits of `n`, least significant first; `fuel` bounds the recursion. -/
def lsDigits : Nat → Nat → List Char
  | 0, _ => []
  | fuel + 1, n =>
    if n < 10 then [digitChar n] else digitChar (n % 10) :: lsDigits fuel (n / 10)

/-- Embeds `strconv.Itoa` on a non-negative integer. -/
def Itoa (n : Nat) : String := ⟨(lsDigits (n + 1) n).reverse⟩

/-- One step of a `field.Path`.  Go keeps a `name` and an `index` string per node;
`Index` and `Key` both fill `index`. -/
inductive PathElem where
  | name (s : String)
  | index (s : String)
  deriving DecidableEq, Repr

/-- A `*field.Path`: the head is the innermost step, the tail is the parent chain
(`[]` is the nil path). -/
abbrev Path := List PathElem

/-- Embeds `field.NewPath(name)`. -/
def field.NewPath (name : String) : Path := [PathElem.name name]

/-- Embeds `p.Child(name)`. -/
def Path.Child (p : Path) (name : String) : Path := PathElem.name name :: p

/-- Embeds `p.Index(i)`. -/
def Path.Index (p : Path) (i : Nat) : Path := PathElem.index (Itoa i) :: p

/-- Embeds `p.Key(k)`. -/
def Path.Key (p : Path) (k : String) : Path := PathElem.index k :: p

/-- Embeds `field.ErrorType`. -/
inductive ErrorType where
  | NotFound | Required | Duplicate | Invalid | Forbidden
  deriving DecidableEq, Repr

/-- Embeds `LocalSecretReference`. -/
structure LocalSecretReference where
  Name : String
  Key : String
  deriving DecidableEq, Repr

/-- Embeds `LocalConfigMapReference`. -/
structure LocalConfigMapReference where
  Name : String
  Key : String
  deriving DecidableEq, Repr

/-- Embeds `DataImport`. -/
structure DataImport where
  Name : String
  DataRef : String
  Version : String
  SecretRef : Option LocalSecretReference
  ConfigMapRef : Option LocalConfigMapReference
  deriving DecidableEq, Repr

/-- Embeds `TargetImport`.  `Targets` is a nilable slice; `TargetMap` is a nilable map, kept
as the list of its entries.  The order in which a `range` loop visits the entries is not part
of the value: it is given to the loop separately (see `VisitOrder`). -/
structure TargetImport where
  Name : String
  Target : String
  Targets : Option (List String)
  TargetMap : Option (List (String × String))
  TargetMapReference : String
  TargetListReference : String
  deriving DecidableEq, Repr

/-- Embeds `DataExport`. -/
structure DataExport where
  Name : String
  DataRef : String
  deriving DecidableEq, Repr

/-- Embeds `TargetExport`. -/
structure TargetExport where
  Name : String
  Target : String
  deriving DecidableEq, Repr

/-- Embeds `InstallationImports`. -/
structure InstallationImports where
  Data : List DataImport
  Targets : List TargetImport
  deriving DecidableEq, Repr

/-- Embeds `InstallationExports`. -/
structure InstallationExports where
  Data : List DataExport
  Targets : List TargetExport
  deriving DecidableEq, Repr

/-- Embeds `lsv1alpha1.ObjectReference`. -/
structure ObjectReference where
  Name : String
  Namespace : String
  deriving DecidableEq, Repr

/-- Embeds `TargetSpec`: the configuration is a nilable raw JSON value. -/
structure TargetSpec where
  TargetType : String
  Configuration : Option String
  SecretRef : Option LocalSecretReference
  deriving DecidableEq, Repr

/-- Embeds `Target`, reduced to its spec. -/
structure Target where
  Spec : TargetSpec
  deriving DecidableEq, Repr

/-- Embeds `RemoteBlueprintReference`, reduced to the resource name. -/
structure RemoteBlueprintReference where
  ResourceName : String
  deriving DecidableEq, Repr

/-- Embeds `InlineBlueprint`, reduced to its file system as raw JSON. -/
structure InlineBlueprint where
  Filesystem : String
  deriving DecidableEq, Repr

/-- Embeds `BlueprintDefinition`: two nilable pointers. -/
structure BlueprintDefinition where
  Reference : Option RemoteBlueprintReference
  Inline : Option InlineBlueprint
  deriving DecidableEq, Repr

/-- Embeds `ComponentDescriptorReference`. -/
structure ComponentDescriptorReference where
  ComponentName : String
  Version : String
  deriving DecidableEq, Repr

/-- Embeds `ComponentDescriptorDefinition`: two nilable pointers, the inline descriptor kept
as raw JSON. -/
structure ComponentDescriptorDefinition where
  Reference : Option ComponentDescriptorReference
  Inline : Option String
  deriving DecidableEq, Repr

/-- The `BadValue interface{}` of a `field.Error`: the values this package passes. -/
inductive BadValue where
  | str (s : String)
  | dataImport (d : DataImport)
  | targetImport (t : TargetImport)
  | targetSpec (s : TargetSpec)
  | blueprintDefinition (b : BlueprintDefinition)
  | componentDescriptorDefinition (c : ComponentDescriptorDefinition)
  deriving DecidableEq, Repr

/-- Embeds `field.Error`. -/
structure Error where
  ErrType : ErrorType
  Field : Path
  BadValue : BadValue
  Detail : String
  deriving DecidableEq, Repr

/-- Embeds `field.ErrorList`. -/
abbrev ErrorList := List Error

/-- Embeds `field.Required(path, detail)`. -/
def field.Required (p : Path) (detail : String) : Error :=
  { ErrType := ErrorType.Required, Field := p, BadValue := BadValue.str "", Detail := detail }

/-- Embeds `field.Invalid(path, value, detail)`. -/
def field.Invalid (p : Path) (value : BadValue) (detail : String) : Error :=
  { ErrType := ErrorType.Invalid, Field := p, BadValue := value, Detail := detail }

/-- Embeds `field.Duplicate(path, value)`. -/
def field.Duplicate (p : Path) (value : BadValue) : Error :=
  { ErrType := ErrorType.Duplicate, Field := p, BadValue := value, Detail := "" }

/-! ## `target.go` -/

/-- Embeds `ValidateTargetSpec`. -/
def ValidateTargetSpec (spec : TargetSpec) (fldPath : Path) : ErrorList :=
  let allErrs : ErrorList := []
  let allErrs :=
    if spec.Configuration.isSome && spec.SecretRef.isSome then
      allErrs ++ [field.Invalid fldPath (BadValue.targetSpec spec)
        "either config or secretRef may be set, not both"]
    else allErrs
  allErrs

/-- Embeds `ValidateTarget`. -/
def ValidateTarget (target : Target) : ErrorList :=
  let allErrs : ErrorList := []
  let allErrs := allErrs ++ ValidateTargetSpec target.Spec (field.NewPath "spec")
  allErrs

/-! ## Regular expressions (`regexp`), as far as `targetMapKeyRegExp` needs them -/

/-- Syntax of the regular expressions used here: a character class, a concatenation,
an optional group `r?` and a bounded repetition `r{0,n}`. -/
inductive RegExp where
  | cls (p : Char → Bool)
  | seq (a b : RegExp)
  | opt (a : RegExp)
  | upTo (n : Nat) (a : RegExp)

/-- Every remainder left after `f` has consumed at most `n` consecutive matches. -/
def upToM (f : List Char → List (List Char)) : Nat → List Char → List (List Char)
  | 0, s => [s]
  | n + 1, s => (f s).flatMap (upToM f n) ++ [s]

/-- Every remainder of `s` left after a prefix of `s` matched the expression. -/
def RegExp.consume : RegExp → List Char → List (List Char)
  | RegExp.cls _, [] => []
  | RegExp.cls p, c :: cs => if p c then [cs] else []
  | RegExp.seq a b, s => (RegExp.consume a s).flatMap (RegExp.consume b)
  | RegExp.opt a, s => RegExp.consume a s ++ [s]
  | RegExp.upTo n a, s => upToM (RegExp.consume a) n s

/-- Embeds `MatchString` of an expression anchored as `^...$`: the whole text is consumed. -/
def RegExp.MatchString (r : RegExp) (s : String) : Bool :=
  decide ([] ∈ r.consume s.data)

/-- The class `[a-z0-9]`. -/
def lowerAlnum (c : Char) : Bool :=
  ('a' ≤ c && c ≤ 'z') || ('0' ≤ c && c ≤ '9')

/-- The class `[a-z0-9.-]`. -/
def lowerAlnumDotDash (c : Char) : Bool :=
  ('a' ≤ c && c ≤ 'z') || ('0' ≤ c && c ≤ '9') || c == '.' || c == '-'

/-- Embeds `targetMapKeyRegExp = "^[a-z0-9]([a-z0-9.-]{0,61}[a-z0-9])?$"`. -/
def targetMapKeyRegExp : RegExp :=
  RegExp.seq (RegExp.cls lowerAlnum)
    (RegExp.opt (RegExp.seq (RegExp.upTo 61 (RegExp.cls lowerAlnumDotDash)) (RegExp.cls lowerAlnum)))

/-! ## Helpers of the validation package -/

/-- Whether the named field of a value handed to `ValidateExactlyOneOf` is non-zero:
a non-empty string, a non-nil pointer, slice or map. -/
def BadValue.fieldIsSet : BadValue → String → Bool
  | BadValue.dataImport d, "DataRef" => d.DataRef != ""
  | BadValue.dataImport d, "SecretRef" => d.SecretRef.isSome
  | BadValue.dataImport d, "ConfigMapRef" => d.ConfigMapRef.isSome
  | BadValue.targetImport t, "Target" => t.Target != ""
  | BadValue.targetImport t, "Targets" => t.Targets.isSome
  | BadValue.targetImport t, "TargetMap" => t.TargetMap.isSome
  | BadValue.targetImport t, "TargetMapReference" => t.TargetMapReference != ""
  | BadValue.targetImport t, "TargetListReference" => t.TargetListReference != ""
  | BadValue.blueprintDefinition b, "Inline" => b.Inline.isSome
  | BadValue.blueprintDefinition b, "Reference" => b.Reference.isSome
  | BadValue.componentDescriptorDefinition c, "Inline" => c.Inline.isSome
  | BadValue.componentDescriptorDefinition c, "Reference" => c.Reference.isSome
  | _, _ => false

/-- Modelled from the spec: `ValidateExactlyOneOf` is declared in a file of the
package that is not at hand.  The spec (4.1, 8) has it inspect the named fields of
the object and report exactly one violation at the given path unless exactly one of
them is set; the package tests pin the kind: `Required` when none is set, `Invalid`
when more than one is.  The detail text is not specified and left empty. -/
def ValidateExactlyOneOf (fldPath : Path) (input : BadValue) (configs : List String) : ErrorList :=
  match (configs.filter input.fieldIsSet).length with
  | 0 => [field.Required fldPath ""]
  | 1 => []
  | _ => [field.Invalid fldPath input ""]

/-- Embeds `ValidateLocalSecretReference`. -/
def ValidateLocalSecretReference (sr : LocalSecretReference) (fldPath : Path) : ErrorList :=
  if sr.Name = "" then [field.Required (fldPath.Child "name") "name must not be empty"] else []

/-- Embeds `ValidateLocalConfigMapReference`. -/
def ValidateLocalConfigMapReference (cmr : LocalConfigMapReference) (fldPath : Path) : ErrorList :=
  if cmr.Name = "" then [field.Required (fldPath.Child "name") "name must not be empty"] else []

/-! ## `installation.go`: imports -/

/-- The loop `for idx, x := range xs` over a slice, from index `idx` on, threading the
state the loop updates (for the loops of `installation.go` the set of names seen so far):
`body idx x state` gives the violations one iteration appends and the state it leaves. -/
def rangeLoop {α σ : Type} (body : Nat → α → σ → ErrorList × σ) :
    List α → Nat → σ → ErrorList × σ
  | [], _, importNames => ([], importNames)
  | x :: rest, idx, importNames =>
    let r := body idx x importNames
    let rs := rangeLoop body rest (idx + 1) r.2
    (r.1 ++ rs.1, rs.2)

/-- One iteration of the loop of `ValidateInstallationDataImports`: the violations it
appends and the name set it leaves. -/
def ValidateInstallationDataImports.body (fldPath : Path) (idx : Nat) (imp : DataImport)
    (importNames : Finset String) : ErrorList × Finset String :=
  let impPath := fldPath.Index idx
  let allErrs := ValidateExactlyOneOf impPath (BadValue.dataImport imp)
    ["DataRef", "SecretRef", "ConfigMapRef"]
  let allErrs := match imp.SecretRef with
    | some sr => allErrs ++ ValidateLocalSecretReference sr (impPath.Child "secretRef")
    | none => allErrs
  let allErrs := match imp.ConfigMapRef with
    | some cmr => allErrs ++ ValidateLocalConfigMapReference cmr (impPath.Child "configMapRef")
    | none => allErrs
  if imp.Name = "" then
    (allErrs ++ [field.Required (impPath.Child "name") "name must not be empty"], importNames)
  else
    let allErrs :=
      if imp.Name ∈ importNames then allErrs ++ [field.Duplicate impPath (BadValue.str imp.Name)]
      else allErrs
    (allErrs, insert imp.Name importNames)

/-- Embeds `ValidateInstallationDataImports`. -/
def ValidateInstallationDataImports (imports : List DataImport) (fldPath : Path)
    (importNames : Finset String) : ErrorList × Finset String :=
  rangeLoop (ValidateInstallationDataImports.body fldPath) imports 0 importNames

/-- The loop over `imp.Targets`, from index `idx2` on; `len(tg) == 0` is `tg = ""`. -/
def ValidateInstallationTargetImports.targetsLoop (fldPathIdx : Path) :
    List String → Nat → ErrorList
  | [], _ => []
  | tg :: rest, idx2 =>
    (if tg = "" then
      [field.Required ((fldPathIdx.Child "targets").Index idx2) "target must not be empty"]
     else []) ++ ValidateInstallationTargetImports.targetsLoop fldPathIdx rest (idx2 + 1)

/-- The detail string of the violation reported for a bad `TargetMap` key. -/
def targetMapKeyDetail : String :=
  "key must contain only lower-case alphanumeric characters, dots, or dashes; " ++
    "it must begin and end with a lower-case alphanumeric character; " ++
    "it must not be empty, and not longer than 63 characters"

/-- The loop over the entries of `imp.TargetMap`, in visiting order. -/
def ValidateInstallationTargetImports.targetMapLoop (fldPathIdx : Path) :
    List (String × String) → ErrorList
  | [] => []
  | (key, tg) :: rest =>
    (if !targetMapKeyRegExp.MatchString key then
      [field.Invalid ((fldPathIdx.Child "targetMap").Key key) (BadValue.str key)
        targetMapKeyDetail]
     else []) ++
    (if tg = "" then
      [field.Required ((fldPathIdx.Child "targetMap").Key key) "target must not be empty"]
     else []) ++ ValidateInstallationTargetImports.targetMapLoop fldPathIdx rest

/-- The order in which `range` visits the entries of a map is chosen by the Go runtime.
`visit idx m` is the order in which the import at index `idx` has its `TargetMap` `m`
visited; a visiting order lists the entries of the map, each once. -/
def VisitOrder (visit : Nat → List (String × String) → List (String × String)) : Prop :=
  ∀ idx m, (visit idx m).Perm m

/-- One iteration of the loop of `ValidateInstallationTargetImports`.  The guard
`len(imp.Targets) > 0` around the inner loop is dropped: the loop over a nil or empty slice
appends nothing.  There is no `continue` after the empty-name check, so the duplicate check
and the insertion also run for an empty name. -/
def ValidateInstallationTargetImports.body
    (visit : Nat → List (String × String) → List (String × String))
    (fldPath : Path) (idx : Nat) (imp : TargetImport)
    (importNames : Finset String) : ErrorList × Finset String :=
  let fldPathIdx := fldPath.Index idx
  let allErrs : ErrorList :=
    if imp.Name = "" then [field.Required (fldPathIdx.Child "name") "name must not be empty"]
    else []
  let allErrs := allErrs ++ ValidateExactlyOneOf fldPathIdx (BadValue.targetImport imp)
    ["Target", "Targets", "TargetMap", "TargetMapReference", "TargetListReference"]
  let allErrs := match imp.Targets with
    | some tgs => allErrs ++ ValidateInstallationTargetImports.targetsLoop fldPathIdx tgs 0
    | none => allErrs
  let allErrs := match imp.TargetMap with
    | some m => allErrs ++ ValidateInstallationTargetImports.targetMapLoop fldPathIdx (visit idx m)
    | none => allErrs
  let allErrs :=
    if imp.Name ∈ importNames then allErrs ++ [field.Duplicate fldPathIdx (BadValue.str imp.Name)]
    else allErrs
  (allErrs, insert imp.Name importNames)

/-- Embeds `ValidateInstallationTargetImports`. -/
def ValidateInstallationTargetImports
    (visit : Nat → List (String × String) → List (String × String))
    (imports : List TargetImport) (fldPath : Path)
    (importNames : Finset String) : ErrorList × Finset String :=
  rangeLoop (ValidateInstallationTargetImports.body visit fldPath) imports 0 importNames

/-- Embeds `ValidateInstallationImports`. -/
def ValidateInstallationImports (visit : Nat → List (String × String) → List (String × String))
    (imports : InstallationImports) (fldPath : Path) : ErrorList :=
  let importNames : Finset String := ∅
  let r1 := ValidateInstallationDataImports imports.Data (fldPath.Child "data") importNames
  let r2 := ValidateInstallationTargetImports visit imports.Targets (fldPath.Child "targets") r1.2
  r1.1 ++ r2.1

/-! ## `installation.go`: exports -/

/-- One iteration of the loop of `ValidateInstallationDataExports`; `importNames` is
the `map[string]bool` of names seen so far. -/
def ValidateInstallationDataExports.body (fldPath : Path) (idx : Nat) (imp : DataExport)
    (importNames : Finset String) : ErrorList × Finset String :=
  let allErrs : ErrorList :=
    if imp.DataRef = "" then
      [field.Required ((fldPath.Index idx).Child "dataRef") "dataRef must not be empty"]
    else []
  if imp.Name = "" then
    (allErrs ++ [field.Required ((fldPath.Index idx).Child "name") "name must not be empty"],
      importNames)
  else
    let allErrs :=
      if imp.Name ∈ importNames then
        allErrs ++ [field.Duplicate (fldPath.Index idx) (BadValue.str imp.Name)]
      else allErrs
    (allErrs, insert imp.Name importNames)

/-- Embeds `ValidateInstallationDataExports`. -/
def ValidateInstallationDataExports (exports : List DataExport) (fldPath : Path) : ErrorList :=
  (rangeLoop (ValidateInstallationDataExports.body fldPath) exports 0 ∅).1

/-- One iteration of the loop of `ValidateInstallationTargetExports`. -/
def ValidateInstallationTargetExports.body (fldPath : Path) (idx : Nat) (imp : TargetExport)
    (importNames : Finset String) : ErrorList × Finset String :=
  let allErrs : ErrorList :=
    if imp.Target = "" then
      [field.Required ((fldPath.Index idx).Child "target") "target must not be empty"]
    else []
  if imp.Name = "" then
    (allErrs ++ [field.Required ((fldPath.Index idx).Child "name") "name must not be empty"],
      importNames)
  else
    let allErrs :=
      if imp.Name ∈ importNames then
        allErrs ++ [field.Duplicate (fldPath.Index idx) (BadValue.str imp.Name)]
      else allErrs
    (allErrs, insert imp.Name importNames)

/-- Embeds `ValidateInstallationTargetExports`. -/
def ValidateInstallationTargetExports (exports : List TargetExport) (fldPath : Path) : ErrorList :=
  (rangeLoop (ValidateInstallationTargetExports.body fldPath) exports 0 ∅).1

/-- Embeds `ValidateInstallationExports`. -/
def ValidateInstallationExports (exports : InstallationExports) (fldPath : Path) : ErrorList :=
  let allErrs : ErrorList := []
  let allErrs := allErrs ++ ValidateInstallationDataExports exports.Data (fldPath.Child "data")
  let allErrs := allErrs ++ ValidateInstallationTargetExports exports.Targets (fldPath.Child "targets")
  allErrs

/-! ## `installation.go`: object references -/

/-- Embeds `ValidateObjectReference`. -/
def ValidateObjectReference (or : ObjectReference) (fldPath : Path) : ErrorList :=
  let allErrs : ErrorList := []
  let allErrs :=
    if or.Name = "" then allErrs ++ [field.Required (fldPath.Child "name") "name must not be empty"]
    else allErrs
  let allErrs :=
    if or.Namespace = "" then
      allErrs ++ [field.Required (fldPath.Child "namespace") "namespace must not be empty"]
    else allErrs
  allErrs

/-- Embeds `ValidateObjectReferenceList`: the loop keeps no state besides the violations. -/
def ValidateObjectReferenceList (orl : List ObjectReference) (fldPath : Path) : ErrorList :=
  (rangeLoop (fun i e (_ : Unit) => (ValidateObjectReference e (fldPath.Index i), ())) orl 0 ()).1

/-! ## `installation.go`: automatic reconcile -/

/-- Embeds `SucceededReconcile`, reduced to the schedule. -/
structure SucceededReconcile where
  CronSpec : String
  deriving DecidableEq, Repr

/-- Embeds `FailedReconcile`, reduced to the schedule. -/
structure FailedReconcile where
  CronSpec : String
  deriving DecidableEq, Repr

/-- Embeds `AutomaticReconcile`. -/
structure AutomaticReconcile where
  SucceededReconcile : Option SucceededReconcile
  FailedReconcile : Option FailedReconcile
  deriving DecidableEq, Repr

/-- Embeds `ValidateInstallationFailedReconcile`; `parseStandard s` tells whether
`cron.ParseStandard(s)` returns without error. -/
def ValidateInstallationFailedReconcile (parseStandard : String → Bool)
    (failedReconcile : Option FailedReconcile) (fldPath : Path) : ErrorList :=
  match failedReconcile with
  | some fr =>
    if fr.CronSpec ≠ "" then
      if !parseStandard fr.CronSpec then
        [field.Invalid (fldPath.Child "cronSpec") (BadValue.str fr.CronSpec)
          "field must be a valid cron spec"]
      else []
    else []
  | none => []

/-- Embeds `ValidateInstallationSucceededReconcile`. -/
def ValidateInstallationSucceededReconcile (parseStandard : String → Bool)
    (succeededReconcile : Option SucceededReconcile) (fldPath : Path) : ErrorList :=
  match succeededReconcile with
  | some sr =>
    if sr.CronSpec ≠ "" then
      if !parseStandard sr.CronSpec then
        [field.Invalid (fldPath.Child "cronSpec") (BadValue.str sr.CronSpec)
          "field must be a valid cron spec"]
      else []
    else []
  | none => []

/-- Embeds `ValidateInstallationAutomaticReconcile`. -/
def ValidateInstallationAutomaticReconcile (parseStandard : String → Bool)
    (automaticReconcile : Option AutomaticReconcile) (fldPath : Path) : ErrorList :=
  match automaticReconcile with
  | some ar =>
    ValidateInstallationSucceededReconcile parseStandard ar.SucceededReconcile
        (fldPath.Child "succeededReconcile") ++
      ValidateInstallationFailedReconcile parseStandard ar.FailedReconcile
        (fldPath.Child "failedReconcile")
  | none => []

/-! ## `installation.go`: object metadata -/

/-- Embeds `metav1.ObjectMeta`, reduced to the fields this package reads itself. -/
structure ObjectMeta where
  Name : String
  GenerateName : String
  Namespace : String
  deriving DecidableEq, Repr

/-- Embeds `validation.DNS1123LabelMaxLength`. -/
def DNS1123LabelMaxLength : Int := 63

/-- Embeds `len(s)` for a string: its number of bytes. -/
def len (s : String) : Int := s.utf8ByteSize

/-- Embeds `InstallationNameMaxLength`, for the constant `helper.InstallationPrefix` (declared
outside the files at hand, hence a parameter). -/
def InstallationNameMaxLength (InstallationPrefix : String) : Int :=
  DNS1123LabelMaxLength - len InstallationPrefix

/-- Embeds `InstallationGenerateNameMaxLength`. -/
def InstallationGenerateNameMaxLength (InstallationPrefix : String) : Int :=
  InstallationNameMaxLength InstallationPrefix - 5

/-- Embeds `validateInstallationObjectMeta`.  `validateObjectMeta` stands for
`apivalidation.ValidateObjectMeta(·, true, apivalidation.NameIsDNSLabel, ·)` and
`maxLenError` for `validation.MaxLenError`, both from the Kubernetes libraries. -/
def validateInstallationObjectMeta (InstallationPrefix : String)
    (validateObjectMeta : ObjectMeta → Path → ErrorList) (maxLenError : Int → String)
    (objMeta : ObjectMeta) (fldPath : Path) : ErrorList :=
  let allErrs : ErrorList := []
  let allErrs := allErrs ++ validateObjectMeta objMeta fldPath
  let allErrs :=
    if len objMeta.Name > InstallationNameMaxLength InstallationPrefix then
      allErrs ++ [field.Invalid (fldPath.Child "name") (BadValue.str objMeta.Name)
        (maxLenError (InstallationNameMaxLength InstallationPrefix))]
    else if len objMeta.GenerateName > InstallationGenerateNameMaxLength InstallationPrefix then
      allErrs ++ [field.Invalid (fldPath.Child "generateName") (BadValue.str objMeta.GenerateName)
        (maxLenError (InstallationGenerateNameMaxLength InstallationPrefix))]
    else allErrs
  allErrs

/-! ## `installation.go`: the installation spec -/

/-- Embeds `ValidateInstallationBlueprint`. -/
def ValidateInstallationBlueprint (bp : BlueprintDefinition) (fldPath : Path) : ErrorList :=
  let allErrs : ErrorList := []
  let allErrs := allErrs ++ ValidateExactlyOneOf (fldPath.Child "definition")
    (BadValue.blueprintDefinition bp) ["Inline", "Reference"]
  allErrs

/-- Embeds `ValidateInstallationComponentDescriptor`. -/
def ValidateInstallationComponentDescriptor (cd : Option ComponentDescriptorDefinition)
    (fldPath : Path) : ErrorList :=
  match cd with
  | some c => ValidateExactlyOneOf (fldPath.Child "definition")
      (BadValue.componentDescriptorDefinition c) ["Inline", "Reference"]
  | none => []

/-- Embeds `InstallationSpec`, reduced to the fields the validation reads. -/
structure InstallationSpec where
  ComponentDescriptor : Option ComponentDescriptorDefinition
  Blueprint : BlueprintDefinition
  Imports : InstallationImports
  Exports : InstallationExports
  AutomaticReconcile : Option AutomaticReconcile
  deriving DecidableEq, Repr

/-- Embeds `ValidateInstallationSpec`; `parseStandard` is the cron parser and `visit` the
order in which the target maps are visited. -/
def ValidateInstallationSpec (parseStandard : String → Bool)
    (visit : Nat → List (String × String) → List (String × String))
    (spec : InstallationSpec) (fldPath : Path) : ErrorList :=
  let allErrs : ErrorList := []
  let allErrs := allErrs ++ ValidateInstallationImports visit spec.Imports (fldPath.Child "imports")
  let allErrs := allErrs ++ ValidateInstallationExports spec.Exports (fldPath.Child "exports")
  let allErrs := allErrs ++ ValidateInstallationBlueprint spec.Blueprint (fldPath.Child "blueprint")
  let allErrs := allErrs ++ ValidateInstallationComponentDescriptor spec.ComponentDescriptor
    (fldPath.Child "componentDescriptor")
  let allErrs := allErrs ++ ValidateInstallationAutomaticReconcile parseStandard
    spec.AutomaticReconcile (fldPath.Child "automaticReconcile")
  allErrs

/-! ## `apis/deployer/manifest/v1alpha1/conversions.go` -/

/-- Embeds `runtime.RawExtension`, reduced to its raw bytes. -/
structure RawExtension where
  Raw : List UInt8
  deriving DecidableEq, Repr

/-- Embeds `health.ReadinessCheckConfiguration`; the conversions copy it as a whole. -/
structure ReadinessCheckConfiguration where
  DisableDefault : Bool
  Timeout : Option String
  deriving DecidableEq, Repr

/-- Embeds `managedresource.Manifest`. -/
structure Manifest where
  Policy : String
  Manifest : Option RawExtension
  deriving DecidableEq, Repr

/-- Embeds the v1alpha1 `ProviderConfiguration`; `Kubeconfig` stands for the fields the
manual conversions do not touch. -/
structure v1alpha1.ProviderConfiguration where
  Kubeconfig : String
  UpdateStrategy : String
  ReadinessChecks : ReadinessCheckConfiguration
  Manifests : Option (List (Option RawExtension))
  deriving DecidableEq, Repr

/-- Embeds the v1alpha2 `ProviderConfiguration`. -/
structure v1alpha2.ProviderConfiguration where
  Kubeconfig : String
  UpdateStrategy : String
  ReadinessChecks : ReadinessCheckConfiguration
  Manifests : Option (List Manifest)
  deriving DecidableEq, Repr

/-- Embeds `lsv1alpha1.TypedObjectReference`. -/
structure TypedObjectReference where
  APIVersion : String
  Kind : String
  ObjectReference : ObjectReference
  deriving DecidableEq, Repr

/-- Embeds `corev1.ObjectReference`. -/
structure CoreObjectReference where
  Kind : String
  Namespace : String
  Name : String
  UID : String
  APIVersion : String
  ResourceVersion : String
  FieldPath : String
  deriving DecidableEq, Repr

/-- Embeds `managedresource.ManagedResourceStatus`. -/
structure ManagedResourceStatus where
  Policy : String
  Resource : CoreObjectReference
  deriving DecidableEq, Repr

/-- Embeds the v1alpha1 `ProviderStatus`. -/
structure v1alpha1.ProviderStatus where
  ManagedResources : Option (List TypedObjectReference)
  deriving DecidableEq, Repr

/-- Embeds the v1alpha2 `ProviderStatus`. -/
structure v1alpha2.ProviderStatus where
  ManagedResources : Option (List ManagedResourceStatus)
  deriving DecidableEq, Repr

/-- The statements `*out = make([]T, len(*in)); for i := range *in { (*out)[i] = f((*in)[i]) }`:
a slice of `len(*in)` zero values whose elements are then assigned one index after the
other. -/
def makeAndAssign {α β : Type} (zero : β) (f : α → β) (inp : List α) : List β :=
  (List.range inp.length).foldl
    (fun out i =>
      match inp[i]? with
      | some x => out.set i (f x)
      | none => out)
    (List.replicate inp.length zero)

/-- Embeds `Convert_v1alpha1_ProviderConfiguration_To_v1alpha2_ProviderConfiguration`: the
value left in `out` and the returned error (`none` for nil).  `ManagePolicy` is the constant
`managedresource.ManagePolicy`, declared outside the files at hand; the conversion scope is
not used. -/
def Convert_v1alpha1_ProviderConfiguration_To_v1alpha2_ProviderConfiguration
    (ManagePolicy : String) (inp : v1alpha1.ProviderConfiguration)
    (out : v1alpha2.ProviderConfiguration) : v1alpha2.ProviderConfiguration × Option String :=
  let out := { out with UpdateStrategy := inp.UpdateStrategy }
  let out := { out with ReadinessChecks := inp.ReadinessChecks }
  let out :=
    match inp.Manifests with
    | some ms =>
      { out with Manifests := some (makeAndAssign ⟨"", none⟩
          (fun m => ({ Policy := ManagePolicy, Manifest := m } : Manifest)) ms) }
    | none => { out with Manifests := none }
  (out, none)

/-- Embeds `Convert_v1alpha2_ProviderConfiguration_To_v1alpha1_ProviderConfiguration`. -/
def Convert_v1alpha2_ProviderConfiguration_To_v1alpha1_ProviderConfiguration
    (inp : v1alpha2.ProviderConfiguration)
    (out : v1alpha1.ProviderConfiguration) : v1alpha1.ProviderConfiguration × Option String :=
  let out := { out with UpdateStrategy := inp.UpdateStrategy }
  let out := { out with ReadinessChecks := inp.ReadinessChecks }
  let out :=
    match inp.Manifests with
    | some ms =>
      { out with Manifests := some (makeAndAssign none (fun m : Manifest => m.Manifest) ms) }
    | none => { out with Manifests := none }
  (out, none)

/-- Embeds `Convert_v1alpha1_ProviderStatus_To_v1alph2_ProviderStatus`. -/
def Convert_v1alpha1_ProviderStatus_To_v1alph2_ProviderStatus
    (ManagePolicy : String) (inp : v1alpha1.ProviderStatus)
    (out : v1alpha2.ProviderStatus) : v1alpha2.ProviderStatus × Option String :=
  let out :=
    match inp.ManagedResources with
    | some rs =>
      { out with ManagedResources := some (makeAndAssign ⟨"", ⟨"", "", "", "", "", "", ""⟩⟩
          (fun tmp : TypedObjectReference =>
            ({ Policy := ManagePolicy,
               Resource := { APIVersion := tmp.APIVersion, Kind := tmp.Kind,
                             Name := tmp.ObjectReference.Name,
                             Namespace := tmp.ObjectReference.Namespace,
                             UID := "", ResourceVersion := "", FieldPath := "" } } :
              ManagedResourceStatus)) rs) }
    | none => { out with ManagedResources := none }
  (out, none)

/-- Embeds `Convert_v1alpha2_ProviderStatus_To_v1alpha1_ProviderStatus`. -/
def Convert_v1alpha2_ProviderStatus_To_v1alpha1_ProviderStatus
    (inp : v1alpha2.ProviderStatus)
    (out : v1alpha1.ProviderStatus) : v1alpha1.ProviderStatus × Option String :=
  let out :=
    match inp.ManagedResources with
    | some rs =>
      { out with ManagedResources := some (makeAndAssign ⟨"", "", ⟨"", ""⟩⟩
          (fun m : ManagedResourceStatus =>
            let res := m.Resource
            ({ APIVersion := res.APIVersion, Kind := res.Kind,
               ObjectReference := { Name := res.Name, Namespace := res.Namespace } } :
              TypedObjectReference)) rs) }
    | none => { out with ManagedResources := none }
  (out, none)

/-! ## `pkg/utils/lock/config.go` -/

/-- Embeds `config.HPAMainConfiguration`, reduced to the field the function reads; the
`int32` is an integer, which the comparison with 1 cannot overflow. -/
structure HPAMainConfiguration where
  MaxReplicas : Int
  deriving DecidableEq, Repr

/-- Embeds `config.LandscaperConfiguration`, reduced to its nilable pointer to the
configuration of the main controllers. -/
structure LandscaperConfiguration where
  HPAMainConfiguration : Option HPAMainConfiguration
  deriving DecidableEq, Repr

/-- Reading through a pointer: through a nil pointer the program panics. -/
def deref {α : Type} : Option α → Except String α
  | some a => Except.ok a
  | none => Except.error "invalid memory address or nil pointer dereference"

/-- The operator `&&` of Go: the right operand is evaluated only when the left one is
true. -/
def shortCircuitAnd (a : Except String Bool) (b : Unit → Except String Bool) :
    Except String Bool :=
  match a with
  | Except.ok true => b ()
  | Except.ok false => Except.ok false
  | Except.error msg => Except.error msg

/-- Embeds `IsLockingEnabledForMainControllers`: the conjunction
`config != nil && config.HPAMainConfiguration != nil &&
config.HPAMainConfiguration.MaxReplicas > 1`, grouped to the left, every field access going
through the pointer `config`. -/
def IsLockingEnabledForMainControllers (config : Option LandscaperConfiguration) :
    Except String Bool :=
  shortCircuitAnd
    (shortCircuitAnd (Except.ok config.isSome)
      (fun _ => (deref config).bind (fun c => Except.ok c.HPAMainConfiguration.isSome)))
    (fun _ => (deref config).bind (fun c =>
      (deref c.HPAMainConfiguration).bind (fun h => Except.ok (decide (h.MaxReplicas > 1)))))

/-! ## Installation templates and the scope resolver (spec section 4.4)

The file `blueprint.go` with `ValidateInstallationTemplates` is not among the files at hand;
its tests are.  The definitions of this section are modelled from sections 3, 4.3 and 4.4 of
the spec, with the call shape and the violation paths of the tests. -/

/-- Embeds `field.NotFound(path, value)`. -/
def field.NotFound (p : Path) (value : BadValue) : Error :=
  { ErrType := ErrorType.NotFound, Field := p, BadValue := value, Detail := "" }

/-- Embeds `field.Forbidden(path, detail)`. -/
def field.Forbidden (p : Path) (detail : String) : Error :=
  { ErrType := ErrorType.Forbidden, Field := p, BadValue := BadValue.str "", Detail := detail }

/-- The value kinds of the spec: `ImportTypeData`, `ImportTypeTarget`, `ImportTypeTargetList`
and `ImportTypeTargetMap`. -/
inductive ImportType where
  | Data | Target | TargetList | TargetMap
  deriving DecidableEq, Repr

/-- Modelled from the spec: the type `ImportDefinition` (section 3; the tests build it from
`Name`, `Schema`, `TargetType`, `Type`, `Required` and `ConditionalImports`).  `Typ` is the
field `Type`, `none` when it is not set; `Schema` is the raw schema. -/
inductive ImportDefinition where
  | mk (Name : String) (Schema : Option String) (TargetType : String)
      (Typ : Option ImportType) (Required : Option Bool)
      (ConditionalImports : List ImportDefinition)

/-- The field `Name`. -/
def ImportDefinition.Name : ImportDefinition → String
  | ImportDefinition.mk n _ _ _ _ _ => n

/-- The field `Schema`. -/
def ImportDefinition.Schema : ImportDefinition → Option String
  | ImportDefinition.mk _ s _ _ _ _ => s

/-- The field `TargetType`. -/
def ImportDefinition.TargetType : ImportDefinition → String
  | ImportDefinition.mk _ _ t _ _ _ => t

/-- The field `Type`. -/
def ImportDefinition.Typ : ImportDefinition → Option ImportType
  | ImportDefinition.mk _ _ _ t _ _ => t

/-- The field `Required`. -/
def ImportDefinition.Required : ImportDefinition → Option Bool
  | ImportDefinition.mk _ _ _ _ r _ => r

/-- The field `ConditionalImports`. -/
def ImportDefinition.ConditionalImports : ImportDefinition → List ImportDefinition
  | ImportDefinition.mk _ _ _ _ _ c => c

/-- Modelled from the spec: the value kind of a definition (4.2, step 2).  An explicit `Type`
decides; without it the kind is inferred from the legacy fields, `Schema` alone giving Data
and `TargetType` alone giving Target; with neither or both no kind is determined. -/
def ImportDefinition.kind (d : ImportDefinition) : Option ImportType :=
  match d.Typ with
  | some t => some t
  | none =>
    if d.Schema.isSome && d.TargetType == "" then some ImportType.Data
    else if d.Schema.isNone && d.TargetType != "" then some ImportType.Target
    else none

/-- Modelled from the spec: `InstallationTemplateBlueprintDefinition`, as the tests use it. -/
structure InstallationTemplateBlueprintDefinition where
  Ref : String
  Filesystem : Option String
  deriving DecidableEq, Repr

/-- Modelled from the spec: the type `InstallationTemplate` (section 3), with the fields the
tests set: name, blueprint, imports and exports. -/
structure InstallationTemplate where
  Name : String
  Blueprint : InstallationTemplateBlueprintDefinition
  Imports : InstallationImports
  Exports : InstallationExports
  deriving DecidableEq, Repr

/-- The suffix kinds of a target reference (4.3). -/
inductive SuffixKind where
  | none | index | key
  deriving DecidableEq, Repr

/-- The result of parsing a target reference (4.3): base name, suffix kind, suffix value. -/
structure TargetReference where
  BaseName : String
  SuffixKind : SuffixKind
  SuffixValue : String
  deriving DecidableEq, Repr

/-- Modelled from the spec: the reference syntax parser (4.3), for the grammar
`ref := identifier ('[' suffix ']')?`, `suffix := integer-index | map-key`.  The base name
ends at the first `[`; a text that ends in `]` after it carries a suffix, an index when the
suffix is a non-empty string of digits and a key otherwise.  Parsing never fails: any other
text is a bare reference. -/
def parseTargetReference (ref : String) : TargetReference :=
  match ref.data.dropWhile (fun c => c != '[') with
  | [] => ⟨ref, SuffixKind.none, ""⟩
  | _ :: inner =>
    if inner.getLast? = some ']' then
      let suffix := inner.dropLast
      if suffix ≠ [] ∧ suffix.all Char.isDigit = true then
        ⟨⟨ref.data.takeWhile (fun c => c != '[')⟩, SuffixKind.index, ⟨suffix⟩⟩
      else ⟨⟨ref.data.takeWhile (fun c => c != '[')⟩, SuffixKind.key, ⟨suffix⟩⟩
    else ⟨ref, SuffixKind.none, ""⟩

/-- The export scope of the scope resolver (4.4, step 1): the (kind, name) pairs the earlier
siblings have exported.  The spec keeps a second mapping for duplicate detection; both are
filled by the same registrations, so one list stands for both. -/
abbrev ExportScope := List (ImportType × String)

/-- Modelled from the spec: a name of a kind is in scope (4.4, glossary) when it is a
parent import of that kind or an export of that kind already registered by an earlier
sibling. -/
def InScope (blueprintImportDefs : List ImportDefinition) (scope : ExportScope)
    (kind : ImportType) (name : String) : Prop :=
  (∃ d ∈ blueprintImportDefs, d.Name = name ∧ d.kind = some kind) ∨ (kind, name) ∈ scope

instance (blueprintImportDefs : List ImportDefinition) (scope : ExportScope)
    (kind : ImportType) (name : String) :
    Decidable (InScope blueprintImportDefs scope kind name) := by
  unfold InScope
  infer_instance

/-- Modelled from the spec: resolution of a single target reference (4.4, step 2b).  A bare
reference needs a name of kind Target, an index suffix one of kind TargetList and a key
suffix one of kind TargetMap. -/
def resolvesReference (blueprintImportDefs : List ImportDefinition) (scope : ExportScope)
    (ref : String) : Bool :=
  match (parseTargetReference ref).SuffixKind with
  | SuffixKind.none =>
    decide (InScope blueprintImportDefs scope ImportType.Target (parseTargetReference ref).BaseName)
  | SuffixKind.index =>
    decide (InScope blueprintImportDefs scope ImportType.TargetList
      (parseTargetReference ref).BaseName)
  | SuffixKind.key =>
    decide (InScope blueprintImportDefs scope ImportType.TargetMap
      (parseTargetReference ref).BaseName)

/-- Modelled from the spec: the check of one data import of a template (4.4, step 2a).
An import sourced by a secret or config-map reference is Forbidden (at the paths the tests
of `ValidateInstallationTemplate` show); otherwise its `DataRef` must be in scope with kind Data,
else NotFound at `<path>.imports.data[i][<name>]`. -/
def ValidateInstallationTemplates.dataImport (blueprintImportDefs : List ImportDefinition)
    (scope : ExportScope) (instPath : Path) (i : Nat) (imp : DataImport) : ErrorList :=
  let impPath := ((instPath.Child "imports").Child "data").Index i
  if imp.SecretRef.isSome || imp.ConfigMapRef.isSome then
    (if imp.SecretRef.isSome then [field.Forbidden (impPath.Child "secretRef") ""] else []) ++
      (if imp.ConfigMapRef.isSome then [field.Forbidden (impPath.Child "configMapRef") ""]
       else [])
  else if InScope blueprintImportDefs scope ImportType.Data imp.DataRef then []
  else [field.NotFound (impPath.Key imp.Name) (BadValue.str imp.DataRef)]

/-- Modelled from the spec: the entries of an explicit list of references (4.4, step 2b):
each entry must resolve as a bare single-target reference; an empty entry is Required and an
unresolved one NotFound, each at its own index under the path of the import. -/
def ValidateInstallationTemplates.targetList (blueprintImportDefs : List ImportDefinition)
    (scope : ExportScope) (impPath : Path) (k : Nat) (tg : String) (_ : Unit) :
    ErrorList × Unit :=
  ((if tg = "" then [field.Required (impPath.Index k) "target must not be empty"]
    else if InScope blueprintImportDefs scope ImportType.Target tg then []
    else [field.NotFound (impPath.Index k) (BadValue.str tg)]), ())

/-- Modelled from the spec: the check of one target import of a template (4.4, step 2b),
branching on the source field that is set, in the order of the spec: single reference,
explicit list, explicit map, map reference, list reference.  Anything unmatched is NotFound
at `<path>.imports.targets[i][<name>]`; the values of an explicit map are taken in the listed
order. -/
def ValidateInstallationTemplates.targetImport (blueprintImportDefs : List ImportDefinition)
    (scope : ExportScope) (instPath : Path) (i : Nat) (imp : TargetImport) : ErrorList :=
  let impPath := (((instPath.Child "imports").Child "targets").Index i).Key imp.Name
  if imp.Target ≠ "" then
    if resolvesReference blueprintImportDefs scope imp.Target then []
    else [field.NotFound impPath (BadValue.str imp.Target)]
  else
    match imp.Targets with
    | some tgs =>
      (rangeLoop (ValidateInstallationTemplates.targetList blueprintImportDefs scope impPath)
        tgs 0 ()).1
    | none =>
      match imp.TargetMap with
      | some m =>
        m.flatMap (fun kv =>
          if InScope blueprintImportDefs scope ImportType.Target kv.2 then []
          else [field.NotFound impPath (BadValue.str kv.2)])
      | none =>
        if imp.TargetMapReference ≠ "" then
          if InScope blueprintImportDefs scope ImportType.TargetMap imp.TargetMapReference then []
          else [field.NotFound impPath (BadValue.str imp.TargetMapReference)]
        else if imp.TargetListReference ≠ "" then
          if InScope blueprintImportDefs scope ImportType.TargetList imp.TargetListReference
          then []
          else [field.NotFound impPath (BadValue.str imp.TargetListReference)]
        else []

/-- Modelled from the spec: registration of one data export (4.4, step 2c; the tests add the
collision with a parent import).  A `DataRef` already in scope with kind Data is Forbidden at
`<path>.exports.data[i][<name>/<dataRef>]`; the pair (Data, `DataRef`) is registered.
The scope is a set of (kind, name) pairs (4.4, step 1 and the glossary), so a name that is in
scope with another kind is no collision.  The pass is the single left-to-right pass of 4.4
("already exported by an earlier sibling"): the later of two registrations is the one that
is flagged, as in the test, which expects the violations at `b[0].exports.data[0]` (parent
import) and at `b[1].exports.data[0]` (later sibling). -/
def ValidateInstallationTemplates.dataExport (blueprintImportDefs : List ImportDefinition)
    (instPath : Path) (i : Nat) (exp : DataExport) (scope : ExportScope) :
    ErrorList × ExportScope :=
  let expPath := (((instPath.Child "exports").Child "data").Index i).Key
    (exp.Name ++ "/" ++ exp.DataRef)
  ((if InScope blueprintImportDefs scope ImportType.Data exp.DataRef then
      [field.Forbidden expPath ""]
    else []),
    (ImportType.Data, exp.DataRef) :: scope)

/-- Modelled from the spec: registration of one target export, the mirror of the data
export, registering (Target, `Target`): a `Target` already in scope with kind Target is
Forbidden at `<path>.exports.targets[i][<name>/<target>]`, the later of two registrations
being the one that is flagged. -/
def ValidateInstallationTemplates.targetExport (blueprintImportDefs : List ImportDefinition)
    (instPath : Path) (i : Nat) (exp : TargetExport) (scope : ExportScope) :
    ErrorList × ExportScope :=
  let expPath := (((instPath.Child "exports").Child "targets").Index i).Key
    (exp.Name ++ "/" ++ exp.Target)
  ((if InScope blueprintImportDefs scope ImportType.Target exp.Target then
      [field.Forbidden expPath ""]
    else []),
    (ImportType.Target, exp.Target) :: scope)

/-- Modelled from the spec: one template of the scope resolver (4.4, step 2): its
data imports and target imports are resolved against the parent imports and the exports of
the earlier siblings, then its exports are folded into the export scope. -/
def ValidateInstallationTemplates.body (fldPath : Path)
    (blueprintImportDefs : List ImportDefinition) (j : Nat) (tmpl : InstallationTemplate)
    (scope : ExportScope) : ErrorList × ExportScope :=
  let instPath := fldPath.Index j
  let dataErrs := (rangeLoop
    (fun i imp (_ : Unit) =>
      (ValidateInstallationTemplates.dataImport blueprintImportDefs scope instPath i imp, ()))
    tmpl.Imports.Data 0 ()).1
  let targetErrs := (rangeLoop
    (fun i imp (_ : Unit) =>
      (ValidateInstallationTemplates.targetImport blueprintImportDefs scope instPath i imp, ()))
    tmpl.Imports.Targets 0 ()).1
  let r1 := rangeLoop (ValidateInstallationTemplates.dataExport blueprintImportDefs instPath)
    tmpl.Exports.Data 0 scope
  let r2 := rangeLoop (ValidateInstallationTemplates.targetExport blueprintImportDefs instPath)
    tmpl.Exports.Targets 0 r1.2
  (dataErrs ++ targetErrs ++ r1.1 ++ r2.1, r2.2)

/-- Modelled from the spec: `ValidateInstallationTemplates` of `blueprint.go`, the scope
resolver of section 4.4 (steps 1, 2a to 2c and 3): the templates are visited in declaration
order with an export scope that starts empty; the violations are collected in that order.
Step 2d, the descent into nested subinstallations, is not modelled: the templates of this
repository carry none (see the tests), and the spec names neither the nested parent scope
nor the nested path. -/
def ValidateInstallationTemplates (fldPath : Path) (blueprintImportDefs : List ImportDefinition)
    (subinstallations : List InstallationTemplate) : ErrorList :=
  (rangeLoop (ValidateInstallationTemplates.body fldPath blueprintImportDefs)
    subinstallations 0 []).1

/-- The test templates: one template with the given imports and exports. -/
def testTemplate (name : String) (imports : InstallationImports)
    (exports : InstallationExports) : InstallationTemplate :=
  ⟨name, ⟨"myref", none⟩, imports, exports⟩

/-! ## The definition validator (spec section 4.2) and single templates

`ValidateBlueprintImportDefinitions`, `ValidateBlueprintExportDefinitions` and
`ValidateInstallationTemplate` belong to `blueprint.go` as well; the definitions of this
section are modelled from sections 3, 4.2, 4.4 and 7 of the spec, with the call shape and the
violation paths of the tests.  Where the spec gives no detail text the detail is empty; where
it only says which field the detail mentions, the detail is that field name; the bad value of
an Invalid violation, which the spec does not give, is the name of the definition. -/

/-- Modelled from the spec: the type `ExportDefinition` (section 3): a name, a value kind and
the kind-specific fields; the tests build it from `Name`, `Schema`, `TargetType` and `Type`.
`Typ` is the field `Type`, `none` when it is not set. -/
structure ExportDefinition where
  Name : String
  Schema : Option String
  TargetType : String
  Typ : Option ImportType
  deriving DecidableEq, Repr

/-- Modelled from the spec: steps 2 and 3 of the definition validator (4.2), anchored at
`<path>[<name>]`.  Without an explicit `Type` the kind is inferred from the legacy fields:
with neither `Schema` nor `TargetType` no kind can be determined (Required), with both the
indicators conflict (Invalid), with one of them the inferred kind has its field and nothing
else.  With an explicit `Type`, Data requires `Schema` and the three target kinds require
`TargetType` (Required, the detail mentioning the field), and a populated field of the other
kind is Invalid (the detail mentioning the field). -/
def validateDefinitionKind (defPath : Path) (name : String) (schema : Option String)
    (targetType : String) (typ : Option ImportType) : ErrorList :=
  match typ with
  | none =>
    if schema.isNone && targetType == "" then [field.Required defPath ""]
    else if schema.isSome && targetType != "" then
      [field.Invalid defPath (BadValue.str name) ""]
    else []
  | some ImportType.Data =>
    (if schema.isNone then [field.Required defPath "Schema"] else []) ++
      (if targetType != "" then [field.Invalid defPath (BadValue.str name) "TargetType"]
       else [])
  | some _ =>
    (if targetType == "" then [field.Required defPath "TargetType"] else []) ++
      (if schema.isSome then [field.Invalid defPath (BadValue.str name) "Schema"] else [])

/-- Modelled from the spec: the checks of one import definition (4.2, steps 1 to 4).  An
empty name is Required at `<path>[i].name` and ends the checks of the element; otherwise the
kind checks run at `<path>[i][<name>]`, and conditional imports on an import that is
required (`Required` unset counts as true) are Invalid there.  The spec names no check of the
conditional imports themselves and no duplicate check, so none is made. -/
def ValidateBlueprintImportDefinitions.body (fldPath : Path) (i : Nat)
    (importDef : ImportDefinition) : ErrorList :=
  if importDef.Name = "" then [field.Required ((fldPath.Index i).Child "name") ""]
  else
    let defPath := (fldPath.Index i).Key importDef.Name
    validateDefinitionKind defPath importDef.Name importDef.Schema importDef.TargetType
        importDef.Typ ++
      (if !importDef.ConditionalImports.isEmpty && importDef.Required.getD true then
        [field.Invalid defPath (BadValue.str importDef.Name)
          "conditional imports on required import"]
       else [])

/-- Modelled from the spec: `ValidateBlueprintImportDefinitions` of `blueprint.go` (4.2): the
definitions are checked in order, each at its own index. -/
def ValidateBlueprintImportDefinitions (fldPath : Path) (imports : List ImportDefinition) :
    ErrorList :=
  (rangeLoop (fun i d (_ : Unit) => (ValidateBlueprintImportDefinitions.body fldPath i d, ()))
    imports 0 ()).1

/-- Modelled from the spec: the checks of one export definition, steps 1 to 3 of the import
definitions without the conditional-import rule (4.2). -/
def ValidateBlueprintExportDefinitions.body (fldPath : Path) (i : Nat)
    (exportDef : ExportDefinition) : ErrorList :=
  if exportDef.Name = "" then [field.Required ((fldPath.Index i).Child "name") ""]
  else
    validateDefinitionKind ((fldPath.Index i).Key exportDef.Name) exportDef.Name
      exportDef.Schema exportDef.TargetType exportDef.Typ

/-- Modelled from the spec: `ValidateBlueprintExportDefinitions` of `blueprint.go` (4.2). -/
def ValidateBlueprintExportDefinitions (fldPath : Path) (exports : List ExportDefinition) :
    ErrorList :=
  (rangeLoop (fun i d (_ : Unit) => (ValidateBlueprintExportDefinitions.body fldPath i d, ()))
    exports 0 ()).1

/-- Modelled from the spec: `ValidateInstallationTemplate` of `blueprint.go`, the checks of a
single template that the spec and the tests show.  The name is required and has to pass the
DNS-label checker, an external collaborator (section 6) taken as the parameter `isDNSLabel`;
a blueprint has to be given, by reference or inline but not both (section 3); a data import
sourced by a secret or a config map is Forbidden at `<path>.imports.data[i].secretRef` or
`<path>.imports.data[i].configMapRef` (sections 3 and 7).  Every check appends its violations
and the next one runs (section 7). -/
def ValidateInstallationTemplate (isDNSLabel : String → Bool) (fldPath : Path)
    (template : InstallationTemplate) : ErrorList :=
  (if template.Name = "" then [field.Required (fldPath.Child "name") ""] else []) ++
    (if isDNSLabel template.Name then []
     else [field.Invalid (fldPath.Child "name") (BadValue.str template.Name) ""]) ++
    (if template.Blueprint.Ref = "" ∧ template.Blueprint.Filesystem.isNone then
      [field.Required (fldPath.Child "blueprint") ""]
     else if template.Blueprint.Ref ≠ "" ∧ template.Blueprint.Filesystem.isSome then
      [field.Invalid (fldPath.Child "blueprint") (BadValue.str template.Blueprint.Ref) ""]
     else []) ++
    (rangeLoop (fun i (imp : DataImport) (_ : Unit) =>
      ((if imp.SecretRef.isSome then
          [field.Forbidden ((((fldPath.Child "imports").Child "data").Index i).Child
            "secretRef") ""]
        else []) ++
        (if imp.ConfigMapRef.isSome then
          [field.Forbidden ((((fldPath.Child "imports").Child "data").Index i).Child
            "configMapRef") ""]
         else []), ()))
      template.Imports.Data 0 ()).1

/-! ## Auxiliary functions for the proofs -/

/-- Value of a decimal digit character. -/
def digitVal (c : Char) : Nat := c.toNat - 48

/-- Value of a digit list, least significant first. -/
def lsValue : List Char → Nat
  | [] => 0
  | c :: cs => digitVal c + 10 * lsValue cs

/-- The export scope a template at index `j` is checked against: what the templates before
it have registered. -/
def exportScopeBefore (fldPath : Path) (blueprintImportDefs : List ImportDefinition)
    (subinstallations : List InstallationTemplate) (j : Nat) : ExportScope :=
  (rangeLoop (ValidateInstallationTemplates.body fldPath blueprintImportDefs)
    (subinstallations.take j) 0 []).2

/-- The violations of a list that are located at the path `q` or below it. -/
def violationsUnder (q : Path) (errs : ErrorList) : ErrorList :=
  errs.filter (fun e => decide (q <:+ e.Field))

/-! # Theorems -/

/-! ## Paths -/

theorem digitVal_digitChar (d : Nat) (h : d < 10) : digitVal (digitChar d) = d := by
  interval_cases d <;> rfl

theorem lsValue_lsDigits (fuel n : Nat) (h : n < fuel) : lsValue (lsDigits fuel n) = n := by
  induction fuel generalizing n with
  | zero => omega
  | succ f ih =>
    unfold lsDigits
    split
    · simp [lsValue, digitVal_digitChar _ (by assumption)]
    · have h1 : n / 10 < f := by omega
      simp only [lsValue, ih _ h1, digitVal_digitChar _ (Nat.mod_lt n (by decide))]
      omega

theorem Itoa_injective : Function.Injective Itoa := by
  intro a b h
  have h1 : (lsDigits (a + 1) a).reverse = (lsDigits (b + 1) b).reverse := by
    simpa [Itoa] using congrArg String.data h
  have h2 := List.reverse_injective h1
  have h3 := congrArg lsValue h2
  rwa [lsValue_lsDigits _ _ (Nat.lt_succ_self a), lsValue_lsDigits _ _ (Nat.lt_succ_self b)] at h3

@[simp] theorem Itoa_inj (a b : Nat) : Itoa a = Itoa b ↔ a = b :=
  Itoa_injective.eq_iff

@[simp] theorem cons_ne_base (a : PathElem) (p : Path) : a :: p ≠ p :=
  List.cons_ne_self a p

@[simp] theorem cons_cons_ne_base (a b : PathElem) (p : Path) : a :: b :: p ≠ p := by
  intro h
  have := congrArg List.length h
  simp only [List.length_cons] at this
  omega

@[simp] theorem base_ne_cons (a : PathElem) (p : Path) : p ≠ a :: p :=
  fun h => cons_ne_base a p h.symm

@[simp] theorem base_ne_cons_cons (a b : PathElem) (p : Path) : p ≠ a :: b :: p :=
  fun h => cons_cons_ne_base a b p h.symm

/-! ## Targets -/

/-- C6. `ValidateTargetSpec` returns exactly one violation, of kind Invalid and located at
the given path, when both `Configuration` and `SecretRef` are set, and no violation in the
three other cases; `ValidateTarget` reports that violation at path `spec`. -/
theorem validateTargetSpec_cases (ty : String) (p : Path) :
    (∀ c s, ValidateTargetSpec ⟨ty, some c, some s⟩ p =
        [⟨ErrorType.Invalid, p, BadValue.targetSpec ⟨ty, some c, some s⟩,
          "either config or secretRef may be set, not both"⟩]) ∧
    ValidateTargetSpec ⟨ty, none, none⟩ p = [] ∧
    (∀ c, ValidateTargetSpec ⟨ty, some c, none⟩ p = []) ∧
    (∀ s, ValidateTargetSpec ⟨ty, none, some s⟩ p = []) ∧
    (∀ t : Target, ValidateTarget t = ValidateTargetSpec t.Spec [PathElem.name "spec"]) ∧
    (∀ c s, ∃ e, ValidateTarget ⟨⟨ty, some c, some s⟩⟩ = [e] ∧ e.ErrType = ErrorType.Invalid ∧
        e.Field = field.NewPath "spec") := by
  refine ⟨fun c s => rfl, rfl, fun c => rfl, fun s => rfl, fun t => ?_, fun c s => ⟨_, rfl, rfl, rfl⟩⟩
  simp [ValidateTarget, field.NewPath]

/-! ## Automatic reconcile -/

/-- C7. `ValidateInstallationAutomaticReconcile` returns the violations of the succeeded
reconcile followed by those of the failed reconcile; each part holds at most one violation,
and it holds the Invalid violation at `p.succeededReconcile.cronSpec` (resp.
`p.failedReconcile.cronSpec`) with detail "field must be a valid cron spec" exactly when the
automatic reconcile and that reconcile are set, the CronSpec is non-empty and the cron parser
rejects it. -/
theorem validateInstallationAutomaticReconcile_schedule (parseStandard : String → Bool)
    (ar : Option AutomaticReconcile) (p : Path) :
    ∃ es ef : ErrorList,
      ValidateInstallationAutomaticReconcile parseStandard ar p = es ++ ef ∧
      es.length ≤ 1 ∧ ef.length ≤ 1 ∧
      (∀ e, e ∈ es ↔ ∃ a sr, ar = some a ∧ a.SucceededReconcile = some sr ∧
        sr.CronSpec ≠ "" ∧ parseStandard sr.CronSpec = false ∧
        e = field.Invalid ((p.Child "succeededReconcile").Child "cronSpec")
          (BadValue.str sr.CronSpec) "field must be a valid cron spec") ∧
      (∀ e, e ∈ ef ↔ ∃ a fr, ar = some a ∧ a.FailedReconcile = some fr ∧
        fr.CronSpec ≠ "" ∧ parseStandard fr.CronSpec = false ∧
        e = field.Invalid ((p.Child "failedReconcile").Child "cronSpec")
          (BadValue.str fr.CronSpec) "field must be a valid cron spec") := by
  cases ar with
  | none => exact ⟨[], [], rfl, by simp, by simp, by simp, by simp⟩
  | some a =>
    obtain ⟨s, f⟩ := a
    refine ⟨ValidateInstallationSucceededReconcile parseStandard s (p.Child "succeededReconcile"),
      ValidateInstallationFailedReconcile parseStandard f (p.Child "failedReconcile"),
      rfl, ?_, ?_, ?_, ?_⟩
    · unfold ValidateInstallationSucceededReconcile
      repeat' split
      all_goals simp
    · unfold ValidateInstallationFailedReconcile
      repeat' split
      all_goals simp
    · intro e
      cases s with
      | none => simp [ValidateInstallationSucceededReconcile]
      | some sr =>
        by_cases h1 : sr.CronSpec = "" <;> cases h2 : parseStandard sr.CronSpec <;>
          simp [ValidateInstallationSucceededReconcile, h1, h2]
    · intro e
      cases f with
      | none => simp [ValidateInstallationFailedReconcile]
      | some fr =>
        by_cases h1 : fr.CronSpec = "" <;> cases h2 : parseStandard fr.CronSpec <;>
          simp [ValidateInstallationFailedReconcile, h1, h2]

/-! ## Object metadata -/

/-- C10. Whenever `validateInstallationObjectMeta` returns no violation, the installation
prefix plus the name fits a DNS-1123 label (63), and so does the prefix plus the generate
name plus five random characters; a name longer than `InstallationNameMaxLength` always
yields the Invalid violation at `<path>.name`. -/
theorem validateInstallationObjectMeta_limits (InstallationPrefix : String)
    (validateObjectMeta : ObjectMeta → Path → ErrorList) (maxLenError : Int → String)
    (objMeta : ObjectMeta) (p : Path) :
    (validateInstallationObjectMeta InstallationPrefix validateObjectMeta maxLenError objMeta p = [] →
      len InstallationPrefix + len objMeta.Name ≤ 63 ∧
      len InstallationPrefix + len objMeta.GenerateName + 5 ≤ 63) ∧
    (len objMeta.Name > InstallationNameMaxLength InstallationPrefix →
      field.Invalid (p.Child "name") (BadValue.str objMeta.Name)
          (maxLenError (InstallationNameMaxLength InstallationPrefix)) ∈
        validateInstallationObjectMeta InstallationPrefix validateObjectMeta maxLenError objMeta p) := by
  constructor
  · intro h
    unfold validateInstallationObjectMeta at h
    simp only [List.nil_append] at h
    split at h
    · simp at h
    · split at h
      · simp at h
      · simp only [InstallationGenerateNameMaxLength, InstallationNameMaxLength,
          DNS1123LabelMaxLength] at *
        omega
  · intro h
    unfold validateInstallationObjectMeta
    simp [h]

/-- Witness for C10 with the prefix `inst-`, a library validator that accepts and the
name `my-installation`. -/
theorem validateInstallationObjectMeta_limits_witness :
    validateInstallationObjectMeta "inst-" (fun _ _ => []) (fun _ => "too long")
        ⟨"my-installation", "", "default"⟩ [PathElem.name "metadata"] = [] ∧
      (len "inst-" + len "my-installation" ≤ 63 ∧ len "inst-" + len "" + 5 ≤ 63) :=
  ⟨by decide, (validateInstallationObjectMeta_limits "inst-" (fun _ _ => []) (fun _ => "too long")
    ⟨"my-installation", "", "default"⟩ [PathElem.name "metadata"]).1 (by decide)⟩

/-! ## The range loop -/

section RangeLoop

variable {α σ : Type} (body : Nat → α → σ → ErrorList × σ)

theorem rangeLoop_append (xs ys : List α) (idx : Nat) (s : σ) :
    rangeLoop body (xs ++ ys) idx s =
      ((rangeLoop body xs idx s).1 ++
          (rangeLoop body ys (idx + xs.length) (rangeLoop body xs idx s).2).1,
        (rangeLoop body ys (idx + xs.length) (rangeLoop body xs idx s).2).2) := by
  induction xs generalizing idx s with
  | nil => simp [rangeLoop]
  | cons x xs ih =>
    have e : idx + 1 + xs.length = idx + (xs.length + 1) := by omega
    show rangeLoop body (x :: (xs ++ ys)) idx s = _
    simp only [rangeLoop, ih, List.length_cons, List.append_assoc, e]

/-- Splitting the loop at the element of index `k`. -/
theorem rangeLoop_split (xs : List α) (k : Nat) (x : α) (h : xs[k]? = some x) (s : σ) :
    (rangeLoop body xs 0 s).1 =
      (rangeLoop body (xs.take k) 0 s).1 ++
        ((body k x (rangeLoop body (xs.take k) 0 s).2).1 ++
          (rangeLoop body (xs.drop (k + 1)) (k + 1)
            (body k x (rangeLoop body (xs.take k) 0 s).2).2).1) := by
  have hk : k < xs.length := by
    rcases Nat.lt_or_ge k xs.length with h1 | h1
    · exact h1
    · rw [List.getElem?_eq_none h1] at h; cases h
  have hx : xs[k] = x := by
    rw [List.getElem?_eq_getElem hk] at h; exact Option.some.inj h
  have hsplit : xs = xs.take k ++ x :: xs.drop (k + 1) := by
    rw [← hx, ← List.drop_eq_getElem_cons hk, List.take_append_drop]
  have hlen : (xs.take k).length = k := by
    rw [List.length_take]; omega
  conv_lhs => rw [hsplit]
  rw [rangeLoop_append]
  simp only [rangeLoop, hlen, Nat.zero_add]

/-- An error of the loop comes from one of its iterations. -/
theorem mem_rangeLoop {xs : List α} {idx : Nat} {s : σ} {e : Error}
    (h : e ∈ (rangeLoop body xs idx s).1) :
    ∃ k x s', xs[k]? = some x ∧ e ∈ (body (idx + k) x s').1 := by
  induction xs generalizing idx s with
  | nil => simp [rangeLoop] at h
  | cons x xs ih =>
    simp only [rangeLoop, List.mem_append] at h
    rcases h with h | h
    · exact ⟨0, x, s, by simp, by simpa using h⟩
    · obtain ⟨k, y, s', hk, he⟩ := ih h
      refine ⟨k + 1, y, s', by simpa using hk, ?_⟩
      rwa [show idx + (k + 1) = idx + 1 + k by omega]

end RangeLoop

section RangeLoopNames

variable {α : Type} (body : Nat → α → Finset String → ErrorList × Finset String)

/-- When every iteration inserts the element's name unless it is empty, the loop leaves the
initial names together with the non-empty names of the elements. -/
theorem rangeLoop_names_nonempty (name : α → String)
    (hb : ∀ idx x s, (body idx x s).2 = if name x = "" then s else insert (name x) s)
    (xs : List α) (idx : Nat) (s : Finset String) :
    (rangeLoop body xs idx s).2 = s ∪ ((xs.map name).filter (fun n => n ≠ "")).toFinset := by
  induction xs generalizing idx s with
  | nil => simp [rangeLoop]
  | cons x xs ih =>
    simp only [rangeLoop, ih, hb]
    by_cases hx : name x = ""
    · simp [hx]
    · ext n
      simp [hx, List.filter_cons]

/-- When every iteration inserts the element's name, the loop leaves the initial names
together with the names of the elements. -/
theorem rangeLoop_names_all (name : α → String)
    (hb : ∀ idx x s, (body idx x s).2 = insert (name x) s)
    (xs : List α) (idx : Nat) (s : Finset String) :
    (rangeLoop body xs idx s).2 = s ∪ (xs.map name).toFinset := by
  induction xs generalizing idx s with
  | nil => simp [rangeLoop]
  | cons x xs ih =>
    simp only [rangeLoop, ih, hb]
    ext n
    simp

/-- A loop without violations saw acceptable elements with fresh, pairwise distinct names. -/
theorem rangeLoop_accept (name : α → String) (ok : α → Prop)
    (hb : ∀ idx x s, (body idx x s).1 = [] →
      ok x ∧ name x ∉ s ∧ (body idx x s).2 = insert (name x) s)
    (xs : List α) (idx : Nat) (s : Finset String) (h : (rangeLoop body xs idx s).1 = []) :
    (∀ x ∈ xs, ok x) ∧ (xs.map name).Nodup ∧ (∀ x ∈ xs, name x ∉ s) ∧
      (rangeLoop body xs idx s).2 = s ∪ (xs.map name).toFinset := by
  induction xs generalizing idx s with
  | nil => simp [rangeLoop]
  | cons x xs ih =>
    simp only [rangeLoop, List.append_eq_nil] at h
    obtain ⟨h1, h2, h3⟩ := hb idx x s h.1
    have h4 := h.2
    rw [h3] at h4
    obtain ⟨i1, i2, i3, i4⟩ := ih (idx + 1) (insert (name x) s) h4
    refine ⟨?_, ?_, ?_, ?_⟩
    · intro y hy
      rcases List.mem_cons.1 hy with rfl | hy
      · exact h1
      · exact i1 y hy
    · simp only [List.map_cons, List.nodup_cons, List.mem_map, not_exists, not_and]
      refine ⟨fun y hy hxy => ?_, i2⟩
      exact i3 y hy (by simp [hxy])
    · intro y hy
      rcases List.mem_cons.1 hy with rfl | hy
      · exact h2
      · exact fun hs => i3 y hy (Finset.mem_insert_of_mem hs)
    · simp only [rangeLoop, h3, i4]
      ext n
      simp

/-- Acceptable elements with fresh, pairwise distinct names pass the loop without violation. -/
theorem rangeLoop_pass (name : α → String) (ok : α → Prop)
    (hb : ∀ idx x s, ok x → name x ∉ s →
      (body idx x s).1 = [] ∧ (body idx x s).2 = insert (name x) s)
    (xs : List α) (idx : Nat) (s : Finset String)
    (h1 : ∀ x ∈ xs, ok x) (h2 : (xs.map name).Nodup) (h3 : ∀ x ∈ xs, name x ∉ s) :
    (rangeLoop body xs idx s).1 = [] := by
  induction xs generalizing idx s with
  | nil => simp [rangeLoop]
  | cons x xs ih =>
    obtain ⟨b1, b2⟩ := hb idx x s (h1 x (List.mem_cons_self _ _)) (h3 x (List.mem_cons_self _ _))
    simp only [List.map_cons, List.nodup_cons, List.mem_map, not_exists, not_and] at h2
    simp only [rangeLoop, b1, b2, List.nil_append]
    apply ih
    · exact fun y hy => h1 y (List.mem_cons_of_mem _ hy)
    · exact h2.2
    · intro y hy hs
      rcases Finset.mem_insert.1 hs with h | h
      · exact h2.1 y hy h
      · exact h3 y (List.mem_cons_of_mem _ hy) h

end RangeLoopNames

/-- An error of iteration `k` is an error of the loop. -/
theorem mem_rangeLoop_of_mem {α σ : Type}
    (body : Nat → α → σ → ErrorList × σ) {xs : List α} {k : Nat} {x : α}
    (h : xs[k]? = some x) (s : σ) {e : Error}
    (he : e ∈ (body k x (rangeLoop body (xs.take k) 0 s).2).1) :
    e ∈ (rangeLoop body xs 0 s).1 := by
  rw [rangeLoop_split body xs k x h s]
  simp [he]

/-! ## Violations of one iteration -/

theorem mem_ValidateExactlyOneOf {p : Path} {v : BadValue} {cs : List String} {e : Error}
    (h : e ∈ ValidateExactlyOneOf p v cs) :
    e.Field = p ∧ (e.ErrType = ErrorType.Required ∨ e.ErrType = ErrorType.Invalid) := by
  unfold ValidateExactlyOneOf at h
  split at h <;> simp at h <;> subst h <;> simp [field.Required, field.Invalid]

theorem mem_dataImports_body (q : Path) (idx : Nat) (imp : DataImport) (s : Finset String)
    (e : Error) :
    e ∈ (ValidateInstallationDataImports.body q idx imp s).1 ↔
      e ∈ ValidateExactlyOneOf (q.Index idx) (BadValue.dataImport imp)
          ["DataRef", "SecretRef", "ConfigMapRef"] ∨
      (∃ sr, imp.SecretRef = some sr ∧
        e ∈ ValidateLocalSecretReference sr ((q.Index idx).Child "secretRef")) ∨
      (∃ cmr, imp.ConfigMapRef = some cmr ∧
        e ∈ ValidateLocalConfigMapReference cmr ((q.Index idx).Child "configMapRef")) ∨
      (imp.Name = "" ∧ e = field.Required ((q.Index idx).Child "name") "name must not be empty") ∨
      (imp.Name ≠ "" ∧ imp.Name ∈ s ∧ e = field.Duplicate (q.Index idx) (BadValue.str imp.Name)) := by
  obtain ⟨n, dr, ver, sr, cmr⟩ := imp
  unfold ValidateInstallationDataImports.body
  cases sr <;> cases cmr <;> by_cases hn : n = "" <;> by_cases hs : n ∈ s <;>
    simp [hn, hs, or_assoc]

theorem mem_targetsLoop (q : Path) (tgs : List String) (i0 : Nat) (e : Error) :
    e ∈ ValidateInstallationTargetImports.targetsLoop q tgs i0 ↔
      ∃ k, tgs[k]? = some "" ∧
        e = field.Required ((q.Child "targets").Index (i0 + k)) "target must not be empty" := by
  induction tgs generalizing i0 with
  | nil => simp [ValidateInstallationTargetImports.targetsLoop]
  | cons tg rest ih =>
    simp only [ValidateInstallationTargetImports.targetsLoop, List.mem_append, ih]
    constructor
    · rintro (h | ⟨k, hk, he⟩)
      · by_cases ht : tg = ""
        · simp only [ht, if_true, List.mem_singleton] at h
          exact ⟨0, by simp [ht], by simpa using h⟩
        · simp [ht] at h
      · exact ⟨k + 1, by simpa using hk, by rw [he, show i0 + 1 + k = i0 + (k + 1) by omega]⟩
    · rintro ⟨k, hk, he⟩
      cases k with
      | zero =>
        left
        simp only [List.getElem?_cons_zero, Option.some.injEq] at hk
        simp [hk, he]
      | succ k =>
        right
        exact ⟨k, by simpa using hk, by rw [he, show i0 + 1 + k = i0 + (k + 1) by omega]⟩

theorem mem_targetMapLoop (q : Path) (m : List (String × String)) (e : Error) :
    e ∈ ValidateInstallationTargetImports.targetMapLoop q m ↔
      ∃ key tg, (key, tg) ∈ m ∧
        ((targetMapKeyRegExp.MatchString key = false ∧
            e = field.Invalid ((q.Child "targetMap").Key key) (BadValue.str key)
              targetMapKeyDetail) ∨
          (tg = "" ∧
            e = field.Required ((q.Child "targetMap").Key key) "target must not be empty")) := by
  induction m with
  | nil => simp [ValidateInstallationTargetImports.targetMapLoop]
  | cons kv rest ih =>
    obtain ⟨key, tg⟩ := kv
    simp only [ValidateInstallationTargetImports.targetMapLoop, List.mem_append, ih,
      List.mem_cons, Prod.mk.injEq]
    constructor
    · rintro ((h | h) | ⟨k', t', hm, h⟩)
      · cases hk : targetMapKeyRegExp.MatchString key
        · simp only [hk, Bool.not_false, if_true, List.mem_singleton] at h
          exact ⟨key, tg, Or.inl ⟨rfl, rfl⟩, Or.inl ⟨hk, h⟩⟩
        · simp [hk] at h
      · by_cases ht : tg = ""
        · simp only [ht, if_true, List.mem_singleton] at h
          exact ⟨key, tg, Or.inl ⟨rfl, rfl⟩, Or.inr ⟨ht, h⟩⟩
        · simp [ht] at h
      · exact ⟨k', t', Or.inr hm, h⟩
    · rintro ⟨k', t', (⟨rfl, rfl⟩ | hm), h⟩
      · left
        rcases h with ⟨h1, h2⟩ | ⟨h1, h2⟩
        · left
          simp [h1, h2]
        · right
          simp [h1, h2]
      · right
        exact ⟨k', t', hm, h⟩

theorem mem_targetImports_body (visit : Nat → List (String × String) → List (String × String))
    (q : Path) (idx : Nat) (imp : TargetImport) (s : Finset String) (e : Error) :
    e ∈ (ValidateInstallationTargetImports.body visit q idx imp s).1 ↔
      (imp.Name = "" ∧ e = field.Required ((q.Index idx).Child "name") "name must not be empty") ∨
      e ∈ ValidateExactlyOneOf (q.Index idx) (BadValue.targetImport imp)
          ["Target", "Targets", "TargetMap", "TargetMapReference", "TargetListReference"] ∨
      (∃ tgs, imp.Targets = some tgs ∧
        e ∈ ValidateInstallationTargetImports.targetsLoop (q.Index idx) tgs 0) ∨
      (∃ m, imp.TargetMap = some m ∧
        e ∈ ValidateInstallationTargetImports.targetMapLoop (q.Index idx) (visit idx m)) ∨
      (imp.Name ∈ s ∧ e = field.Duplicate (q.Index idx) (BadValue.str imp.Name)) := by
  obtain ⟨n, t, tgs, m, mr, lr⟩ := imp
  unfold ValidateInstallationTargetImports.body
  cases tgs <;> cases m <;> by_cases hs : n ∈ s <;> by_cases hn : n = "" <;>
    (try subst hn) <;> simp [*, or_assoc]

theorem dataImports_body_names (q : Path) (idx : Nat) (imp : DataImport) (s : Finset String) :
    (ValidateInstallationDataImports.body q idx imp s).2 =
      if imp.Name = "" then s else insert imp.Name s := by
  unfold ValidateInstallationDataImports.body
  by_cases hn : imp.Name = "" <;> simp [hn]

theorem targetImports_body_names (visit : Nat → List (String × String) → List (String × String))
    (q : Path) (idx : Nat) (imp : TargetImport) (s : Finset String) :
    (ValidateInstallationTargetImports.body visit q idx imp s).2 = insert imp.Name s := rfl

/-- A Duplicate violation of the data-import loop sits at an index of the list. -/
theorem dataImports_duplicate_field {q : Path} {xs : List DataImport} {idx : Nat}
    {s : Finset String} {e : Error}
    (h : e ∈ (rangeLoop (ValidateInstallationDataImports.body q) xs idx s).1)
    (ht : e.ErrType = ErrorType.Duplicate) :
    ∃ k x, xs[k]? = some x ∧ x.Name ≠ "" ∧
      e = field.Duplicate (q.Index (idx + k)) (BadValue.str x.Name) := by
  obtain ⟨k, x, s', hk, he⟩ := mem_rangeLoop _ h
  refine ⟨k, x, hk, ?_⟩
  rw [mem_dataImports_body] at he
  rcases he with he | ⟨sr, _, he⟩ | ⟨cmr, _, he⟩ | ⟨_, he⟩ | ⟨h1, _, he⟩
  · have := (mem_ValidateExactlyOneOf he).2
    simp [ht] at this
  · unfold ValidateLocalSecretReference at he
    split at he <;> simp at he
    subst he; simp [field.Required] at ht
  · unfold ValidateLocalConfigMapReference at he
    split at he <;> simp at he
    subst he; simp [field.Required] at ht
  · subst he; simp [field.Required] at ht
  · exact ⟨h1, he⟩

/-- A Duplicate violation of the target-import loop comes from the duplicate check of one of
its iterations. -/
theorem targetImports_duplicate_field
    {visit : Nat → List (String × String) → List (String × String)}
    {q : Path} {xs : List TargetImport} {idx : Nat} {s : Finset String} {e : Error}
    (h : e ∈ (rangeLoop (ValidateInstallationTargetImports.body visit q) xs idx s).1)
    (ht : e.ErrType = ErrorType.Duplicate) :
    ∃ k x, xs[k]? = some x ∧
      e = field.Duplicate (q.Index (idx + k)) (BadValue.str x.Name) := by
  obtain ⟨k, x, s', hk, he⟩ := mem_rangeLoop _ h
  refine ⟨k, x, hk, ?_⟩
  rw [mem_targetImports_body] at he
  rcases he with ⟨_, he⟩ | he | ⟨tgs, _, he⟩ | ⟨m, _, he⟩ | ⟨_, he⟩
  · subst he; simp [field.Required] at ht
  · have := (mem_ValidateExactlyOneOf he).2
    simp [ht] at this
  · rw [mem_targetsLoop] at he
    obtain ⟨_, _, he⟩ := he
    subst he; simp [field.Required] at ht
  · rw [mem_targetMapLoop] at he
    obtain ⟨_, _, _, ⟨_, he⟩ | ⟨_, he⟩⟩ := he
    · subst he; simp [field.Invalid] at ht
    · subst he; simp [field.Required] at ht
  · exact he

/-! ## Imports -/

/-- C1. Data and target imports share one uniqueness namespace: a target import at index `j`
with a non-empty name gets the Duplicate violation at `p.targets[j]` (bad value: its name) if
and only if that name is the name of some data import or of a target import with a smaller
index; and every Duplicate violation at that path is this one. -/
theorem validateInstallationImports_shared_namespace
    (visit : Nat → List (String × String) → List (String × String))
    (imports : InstallationImports) (p : Path)
    (j : Nat) (t : TargetImport) (hj : imports.Targets[j]? = some t) (hn : t.Name ≠ "") :
    (field.Duplicate ((p.Child "targets").Index j) (BadValue.str t.Name) ∈
        ValidateInstallationImports visit imports p ↔
      (∃ d ∈ imports.Data, d.Name = t.Name) ∨
        (∃ j' t', j' < j ∧ imports.Targets[j']? = some t' ∧ t'.Name = t.Name)) ∧
    (∀ e ∈ ValidateInstallationImports visit imports p, e.ErrType = ErrorType.Duplicate →
      e.Field = (p.Child "targets").Index j →
      e = field.Duplicate ((p.Child "targets").Index j) (BadValue.str t.Name)) := by
  have hnames : (rangeLoop (ValidateInstallationTargetImports.body visit (p.Child "targets"))
      (imports.Targets.take j) 0
      (ValidateInstallationDataImports imports.Data (p.Child "data") ∅).2).2 =
      ((imports.Data.map (fun d => d.Name)).filter (fun n => n ≠ "")).toFinset ∪
        ((imports.Targets.take j).map (fun t => t.Name)).toFinset := by
    rw [rangeLoop_names_all _ (fun t => t.Name) (targetImports_body_names visit _),
      ValidateInstallationDataImports,
      rangeLoop_names_nonempty _ (fun d => d.Name) (dataImports_body_names _)]
    simp
  have hmem : t.Name ∈ ((imports.Data.map (fun d => d.Name)).filter (fun n => n ≠ "")).toFinset ∪
        ((imports.Targets.take j).map (fun t => t.Name)).toFinset ↔
      (∃ d ∈ imports.Data, d.Name = t.Name) ∨
        (∃ j' t', j' < j ∧ imports.Targets[j']? = some t' ∧ t'.Name = t.Name) := by
    simp only [Finset.mem_union, List.mem_toFinset, List.mem_filter, List.mem_map,
      decide_eq_true_eq]
    constructor
    · rintro (⟨⟨d, hd, hdn⟩, _⟩ | ⟨t', ht', htn⟩)
      · exact Or.inl ⟨d, hd, hdn⟩
      · right
        obtain ⟨j', hj', hget⟩ := List.getElem_of_mem ht'
        rw [List.length_take] at hj'
        refine ⟨j', t', by omega, ?_, htn⟩
        rw [List.getElem_take] at hget
        rw [List.getElem?_eq_getElem (by omega), hget]
    · rintro (⟨d, hd, hdn⟩ | ⟨j', t', hlt, hget, htn⟩)
      · exact Or.inl ⟨⟨d, hd, hdn⟩, hn⟩
      · right
        refine ⟨t', ?_, htn⟩
        have hlen : j' < imports.Targets.length := by
          rcases Nat.lt_or_ge j' imports.Targets.length with h1 | h1
          · exact h1
          · rw [List.getElem?_eq_none h1] at hget; cases hget
        rw [List.getElem?_eq_getElem hlen] at hget
        cases hget
        exact List.mem_iff_getElem.2 ⟨j', by rw [List.length_take]; omega, by
          rw [List.getElem_take]⟩
  have hfrom : ∀ e ∈ ValidateInstallationImports visit imports p, e.ErrType = ErrorType.Duplicate →
      e.Field = (p.Child "targets").Index j →
      e = field.Duplicate ((p.Child "targets").Index j) (BadValue.str t.Name) := by
    intro e he ht hf
    simp only [ValidateInstallationImports, List.mem_append] at he
    rcases he with he | he
    · obtain ⟨k, x, _, _, hx⟩ := dataImports_duplicate_field he ht
      subst hx
      simp [field.Duplicate, Path.Index, Path.Child] at hf
    · obtain ⟨k, x, hk, hx⟩ := targetImports_duplicate_field he ht
      subst hx
      simp only [field.Duplicate, Path.Index, Path.Child, List.cons.injEq, PathElem.index.injEq,
        Itoa_inj, and_true, Nat.zero_add] at hf
      subst hf
      rw [hj] at hk
      cases hk
      simp
  refine ⟨⟨fun h => ?_, fun h => ?_⟩, hfrom⟩
  · rw [← hmem, ← hnames]
    simp only [ValidateInstallationImports, List.mem_append] at h
    rcases h with h | h
    · obtain ⟨k, x, _, _, hx⟩ := dataImports_duplicate_field h rfl
      simp [field.Duplicate, Path.Index, Path.Child] at hx
    · rw [ValidateInstallationTargetImports, rangeLoop_split _ _ j t hj] at h
      simp only [List.mem_append] at h
      rcases h with h | h | h
      · obtain ⟨k, x, hk, hx⟩ := targetImports_duplicate_field h rfl
        have hlt : k < j := by
          rcases Nat.lt_or_ge k (imports.Targets.take j).length with h1 | h1
          · rw [List.length_take] at h1; omega
          · rw [List.getElem?_eq_none h1] at hk; cases hk
        simp [field.Duplicate, Path.Index, Path.Child] at hx
        omega
      · rw [mem_targetImports_body] at h
        rcases h with ⟨h1, _⟩ | h | ⟨tgs, _, h⟩ | ⟨m, _, h⟩ | ⟨h, _⟩
        · exact absurd h1 hn
        · have := (mem_ValidateExactlyOneOf h).2
          simp [field.Duplicate] at this
        · rw [mem_targetsLoop] at h
          obtain ⟨_, _, h⟩ := h
          simp [field.Duplicate, field.Required] at h
        · rw [mem_targetMapLoop] at h
          obtain ⟨_, _, _, ⟨_, h⟩ | ⟨_, h⟩⟩ := h
          · simp [field.Duplicate, field.Invalid] at h
          · simp [field.Duplicate, field.Required] at h
        · exact h
      · obtain ⟨k, x, hk, hx⟩ := targetImports_duplicate_field h rfl
        simp [field.Duplicate, Path.Index, Path.Child] at hx
        omega
  · simp only [ValidateInstallationImports, List.mem_append]
    right
    apply mem_rangeLoop_of_mem _ hj
    rw [mem_targetImports_body]
    right; right; right; right
    exact ⟨by rw [hnames, hmem]; exact h, rfl⟩

/-- Witness for C1: the data import `a` makes the target import `a` at index 0 a duplicate. -/
theorem validateInstallationImports_shared_namespace_witness :
    field.Duplicate (Path.Index (Path.Child [PathElem.name "imports"] "targets") 0)
        (BadValue.str "a") ∈
      ValidateInstallationImports (fun _ m => m)
        ⟨[⟨"a", "ref", "", none, none⟩], [⟨"a", "t", none, none, "", ""⟩]⟩
        [PathElem.name "imports"] :=
  ((validateInstallationImports_shared_namespace (fun _ m => m)
    ⟨[⟨"a", "ref", "", none, none⟩], [⟨"a", "t", none, none, "", ""⟩]⟩
    [PathElem.name "imports"] 0 ⟨"a", "t", none, none, "", ""⟩ rfl (by decide)).1).2
    (Or.inl ⟨⟨"a", "ref", "", none, none⟩, by simp, rfl⟩)

/-- C2. Acceptance implies unique names: when `ValidateInstallationImports` returns no
violation, every data import and every target import has a non-empty name, and the names of
the data imports followed by those of the target imports are pairwise distinct. -/
theorem validateInstallationImports_accept_unique
    (visit : Nat → List (String × String) → List (String × String))
    (imports : InstallationImports) (p : Path)
    (h : ValidateInstallationImports visit imports p = []) :
    (∀ d ∈ imports.Data, d.Name ≠ "") ∧ (∀ t ∈ imports.Targets, t.Name ≠ "") ∧
      (imports.Data.map (fun d => d.Name) ++ imports.Targets.map (fun t => t.Name)).Nodup := by
  simp only [ValidateInstallationImports, List.append_eq_nil] at h
  obtain ⟨hd, ht⟩ := h
  have hbd : ∀ idx (x : DataImport) (s : Finset String),
      (ValidateInstallationDataImports.body (p.Child "data") idx x s).1 = [] →
      x.Name ≠ "" ∧ x.Name ∉ s ∧
        (ValidateInstallationDataImports.body (p.Child "data") idx x s).2 = insert x.Name s := by
    intro idx x s hx
    have hall : ∀ e, e ∉ (ValidateInstallationDataImports.body (p.Child "data") idx x s).1 := by
      simp [hx]
    have hne : x.Name ≠ "" := fun h0 =>
      hall _ ((mem_dataImports_body _ _ _ _ _).2 (Or.inr (Or.inr (Or.inr (Or.inl ⟨h0, rfl⟩)))))
    refine ⟨hne, fun hs => ?_, by rw [dataImports_body_names]; simp [hne]⟩
    exact hall _ ((mem_dataImports_body _ _ _ _ _).2
      (Or.inr (Or.inr (Or.inr (Or.inr ⟨hne, hs, rfl⟩)))))
  have hbt : ∀ idx (x : TargetImport) (s : Finset String),
      (ValidateInstallationTargetImports.body visit (p.Child "targets") idx x s).1 = [] →
      x.Name ≠ "" ∧ x.Name ∉ s ∧
        (ValidateInstallationTargetImports.body visit (p.Child "targets") idx x s).2 =
          insert x.Name s := by
    intro idx x s hx
    have hall : ∀ e, e ∉ (ValidateInstallationTargetImports.body visit (p.Child "targets") idx x s).1 := by
      simp [hx]
    refine ⟨fun h0 => ?_, fun hs => ?_, rfl⟩
    · exact hall _ ((mem_targetImports_body _ _ _ _ _ _).2 (Or.inl ⟨h0, rfl⟩))
    · exact hall _ ((mem_targetImports_body _ _ _ _ _ _).2
        (Or.inr (Or.inr (Or.inr (Or.inr ⟨hs, rfl⟩)))))
  obtain ⟨d1, d2, _, d4⟩ := rangeLoop_accept _ (fun d : DataImport => d.Name)
    (fun d => d.Name ≠ "") hbd imports.Data 0 ∅ hd
  rw [ValidateInstallationTargetImports, ValidateInstallationDataImports, d4] at ht
  obtain ⟨t1, t2, t3, _⟩ := rangeLoop_accept _ (fun t : TargetImport => t.Name)
    (fun t => t.Name ≠ "") hbt imports.Targets 0 _ ht
  refine ⟨d1, t1, List.nodup_append.2 ⟨d2, t2, ?_⟩⟩
  intro n hnd hnt
  obtain ⟨t, htm, rfl⟩ := List.mem_map.1 hnt
  exact t3 t htm (by simpa using hnd)

/-- Witness for C2: one data import `a` and one target import `b`, each with one source. -/
theorem validateInstallationImports_accept_unique_witness :
    (∀ d ∈ [(⟨"a", "ref", "", none, none⟩ : DataImport)], d.Name ≠ "") ∧
      (∀ t ∈ [(⟨"b", "t", none, none, "", ""⟩ : TargetImport)], t.Name ≠ "") ∧
      (([(⟨"a", "ref", "", none, none⟩ : DataImport)]).map (fun d => d.Name) ++
        ([(⟨"b", "t", none, none, "", ""⟩ : TargetImport)]).map (fun t => t.Name)).Nodup :=
  validateInstallationImports_accept_unique (fun _ m => m)
    ⟨[⟨"a", "ref", "", none, none⟩], [⟨"b", "t", none, none, "", ""⟩]⟩
    [PathElem.name "imports"] (by decide)

/-! ## Exports -/

/-- C3. `ValidateInstallationExports` returns no violation if and only if every data export
has a non-empty dataRef and a non-empty name, the data export names are pairwise distinct,
every target export has a non-empty target and a non-empty name, and the target export names
are pairwise distinct.  Uniqueness is per list: a name shared by a data export and a target
export is no violation. -/
theorem validateInstallationExports_accept_iff (exports : InstallationExports) (p : Path) :
    (ValidateInstallationExports exports p = [] ↔
      (∀ d ∈ exports.Data, d.DataRef ≠ "" ∧ d.Name ≠ "") ∧
      (exports.Data.map (fun d => d.Name)).Nodup ∧
      (∀ t ∈ exports.Targets, t.Target ≠ "" ∧ t.Name ≠ "") ∧
      (exports.Targets.map (fun t => t.Name)).Nodup) ∧
    (∀ n r t : String, n ≠ "" → r ≠ "" → t ≠ "" →
      ValidateInstallationExports ⟨[⟨n, r⟩], [⟨n, t⟩]⟩ p = []) := by
  have hbd : ∀ idx (x : DataExport) (s : Finset String),
      ((ValidateInstallationDataExports.body (p.Child "data") idx x s).1 = [] ↔
        (x.DataRef ≠ "" ∧ x.Name ≠ "") ∧ x.Name ∉ s) ∧
      (x.Name ≠ "" → (ValidateInstallationDataExports.body (p.Child "data") idx x s).2 =
        insert x.Name s) := by
    intro idx x s
    obtain ⟨n, r⟩ := x
    unfold ValidateInstallationDataExports.body
    by_cases h1 : r = "" <;> by_cases h2 : n = "" <;> by_cases h3 : n ∈ s <;> simp [h1, h2, h3]
  have hbt : ∀ idx (x : TargetExport) (s : Finset String),
      ((ValidateInstallationTargetExports.body (p.Child "targets") idx x s).1 = [] ↔
        (x.Target ≠ "" ∧ x.Name ≠ "") ∧ x.Name ∉ s) ∧
      (x.Name ≠ "" → (ValidateInstallationTargetExports.body (p.Child "targets") idx x s).2 =
        insert x.Name s) := by
    intro idx x s
    obtain ⟨n, r⟩ := x
    unfold ValidateInstallationTargetExports.body
    by_cases h1 : r = "" <;> by_cases h2 : n = "" <;> by_cases h3 : n ∈ s <;> simp [h1, h2, h3]
  have hiff : ValidateInstallationExports exports p = [] ↔
      (∀ d ∈ exports.Data, d.DataRef ≠ "" ∧ d.Name ≠ "") ∧
      (exports.Data.map (fun d => d.Name)).Nodup ∧
      (∀ t ∈ exports.Targets, t.Target ≠ "" ∧ t.Name ≠ "") ∧
      (exports.Targets.map (fun t => t.Name)).Nodup := by
    simp only [ValidateInstallationExports, List.nil_append, List.append_eq_nil,
      ValidateInstallationDataExports, ValidateInstallationTargetExports]
    constructor
    · rintro ⟨hd, ht⟩
      obtain ⟨d1, d2, _, _⟩ := rangeLoop_accept _ (fun d : DataExport => d.Name)
        (fun d => d.DataRef ≠ "" ∧ d.Name ≠ "")
        (fun idx x s hx => by
          have h := (hbd idx x s).1.1 hx
          exact ⟨h.1, h.2, (hbd idx x s).2 h.1.2⟩) exports.Data 0 ∅ hd
      obtain ⟨t1, t2, _, _⟩ := rangeLoop_accept _ (fun t : TargetExport => t.Name)
        (fun t => t.Target ≠ "" ∧ t.Name ≠ "")
        (fun idx x s hx => by
          have h := (hbt idx x s).1.1 hx
          exact ⟨h.1, h.2, (hbt idx x s).2 h.1.2⟩) exports.Targets 0 ∅ ht
      exact ⟨d1, d2, t1, t2⟩
    · rintro ⟨d1, d2, t1, t2⟩
      constructor
      · exact rangeLoop_pass _ (fun d : DataExport => d.Name)
          (fun d => d.DataRef ≠ "" ∧ d.Name ≠ "")
          (fun idx x s hx hs => ⟨(hbd idx x s).1.2 ⟨hx, hs⟩, (hbd idx x s).2 hx.2⟩)
          exports.Data 0 ∅ d1 d2 (by simp)
      · exact rangeLoop_pass _ (fun t : TargetExport => t.Name)
          (fun t => t.Target ≠ "" ∧ t.Name ≠ "")
          (fun idx x s hx hs => ⟨(hbt idx x s).1.2 ⟨hx, hs⟩, (hbt idx x s).2 hx.2⟩)
          exports.Targets 0 ∅ t1 t2 (by simp)
  refine ⟨hiff, fun n r t hn hr ht => ?_⟩
  simp [ValidateInstallationExports, ValidateInstallationDataExports,
    ValidateInstallationTargetExports, rangeLoop, ValidateInstallationDataExports.body,
    ValidateInstallationTargetExports.body, hn, hr, ht]

/-- Witness for C3: a data export and a target export that share the name `x`. -/
theorem validateInstallationExports_accept_iff_witness :
    ValidateInstallationExports ⟨[⟨"x", "r"⟩], [⟨"x", "t"⟩]⟩ [PathElem.name "exports"] = [] :=
  (validateInstallationExports_accept_iff ⟨[⟨"x", "r"⟩], [⟨"x", "t"⟩]⟩
    [PathElem.name "exports"]).2 "x" "r" "t" (by decide) (by decide) (by decide)

/-! ## Target imports: explicit lists and maps -/

/-- The shapes of the violations of the target-import loop. -/
theorem targetImports_mem_cases {visit : Nat → List (String × String) → List (String × String)}
    (hv : VisitOrder visit) {q : Path} {xs : List TargetImport} {idx : Nat}
    {s : Finset String} {e : Error}
    (h : e ∈ (rangeLoop (ValidateInstallationTargetImports.body visit q) xs idx s).1) :
    ∃ k x, xs[k]? = some x ∧
      (e = field.Required ((q.Index (idx + k)).Child "name") "name must not be empty" ∨
        e.Field = q.Index (idx + k) ∨
        (∃ tgs k2, x.Targets = some tgs ∧ tgs[k2]? = some "" ∧
          e = field.Required (((q.Index (idx + k)).Child "targets").Index k2)
            "target must not be empty") ∨
        (∃ m key tg, x.TargetMap = some m ∧ (key, tg) ∈ m ∧
          targetMapKeyRegExp.MatchString key = false ∧
          e = field.Invalid (((q.Index (idx + k)).Child "targetMap").Key key) (BadValue.str key)
            targetMapKeyDetail) ∨
        (∃ m key, x.TargetMap = some m ∧ (key, "") ∈ m ∧
          e = field.Required (((q.Index (idx + k)).Child "targetMap").Key key)
            "target must not be empty")) := by
  obtain ⟨k, x, s', hk, he⟩ := mem_rangeLoop _ h
  refine ⟨k, x, hk, ?_⟩
  rw [mem_targetImports_body] at he
  rcases he with ⟨_, he⟩ | he | ⟨tgs, ht, he⟩ | ⟨m, hm, he⟩ | ⟨_, he⟩
  · exact Or.inl he
  · exact Or.inr (Or.inl (mem_ValidateExactlyOneOf he).1)
  · rw [mem_targetsLoop] at he
    obtain ⟨k2, hk2, he⟩ := he
    exact Or.inr (Or.inr (Or.inl ⟨tgs, k2, ht, hk2, by simpa using he⟩))
  · rw [mem_targetMapLoop] at he
    obtain ⟨key, tg, hmem, ⟨hr, he⟩ | ⟨rfl, he⟩⟩ := he
    · exact Or.inr (Or.inr (Or.inr (Or.inl ⟨m, key, tg, hm, (hv _ m).mem_iff.1 hmem, hr, he⟩)))
    · exact Or.inr (Or.inr (Or.inr (Or.inr ⟨m, key, hm, (hv _ m).mem_iff.1 hmem, he⟩)))
  · exact Or.inr (Or.inl (by rw [he]; rfl))

/-- C5. For every visiting order of the maps and the target import at index `i`, a Required
violation at `p[i].targets[k]` is
reported exactly for the indices `k` whose entry in the explicit `Targets` list is the empty
string, and a Required violation at `p[i].targetMap[key]` exactly for the keys whose value in
the explicit `TargetMap` is the empty string. -/
theorem validateInstallationTargetImports_empty_targets
    (visit : Nat → List (String × String) → List (String × String)) (hv : VisitOrder visit)
    (imports : List TargetImport) (p : Path)
    (names : Finset String) (i : Nat) (imp : TargetImport) (hi : imports[i]? = some imp) :
    (∀ k, (∃ e ∈ (ValidateInstallationTargetImports visit imports p names).1,
          e.ErrType = ErrorType.Required ∧ e.Field = ((p.Index i).Child "targets").Index k) ↔
        ∃ tgs, imp.Targets = some tgs ∧ tgs[k]? = some "") ∧
    (∀ key, (∃ e ∈ (ValidateInstallationTargetImports visit imports p names).1,
          e.ErrType = ErrorType.Required ∧ e.Field = ((p.Index i).Child "targetMap").Key key) ↔
        ∃ m, imp.TargetMap = some m ∧ (key, "") ∈ m) := by
  constructor
  · intro k
    constructor
    · rintro ⟨e, he, ht, hf⟩
      obtain ⟨k', x, hk', hc⟩ := targetImports_mem_cases hv he
      rcases hc with rfl | h | ⟨tgs, k2, h1, h2, rfl⟩ | ⟨m, key, tg, _, _, _, rfl⟩ |
        ⟨m, key, _, _, rfl⟩
      · simp [field.Required, Path.Index, Path.Child] at hf
      · rw [h] at hf
        simp [Path.Index, Path.Child] at hf
      · simp only [field.Required, Path.Index, Path.Child, List.cons.injEq, PathElem.index.injEq,
          Itoa_inj, and_true, true_and, Nat.zero_add] at hf
        obtain ⟨rfl, rfl⟩ := hf
        rw [hi] at hk'
        cases hk'
        exact ⟨tgs, h1, h2⟩
      · simp [field.Invalid] at ht
      · simp [field.Required, Path.Index, Path.Child, Path.Key] at hf
    · rintro ⟨tgs, h1, h2⟩
      refine ⟨field.Required (((p.Index i).Child "targets").Index k) "target must not be empty",
        ?_, rfl, rfl⟩
      apply mem_rangeLoop_of_mem _ hi
      rw [mem_targetImports_body]
      right; right; left
      exact ⟨tgs, h1, (mem_targetsLoop _ _ _ _).2 ⟨k, h2, by simp⟩⟩
  · intro key
    constructor
    · rintro ⟨e, he, ht, hf⟩
      obtain ⟨k', x, hk', hc⟩ := targetImports_mem_cases hv he
      rcases hc with rfl | h | ⟨tgs, k2, h1, h2, rfl⟩ | ⟨m, key', tg, _, _, _, rfl⟩ |
        ⟨m, key', h1, h2, rfl⟩
      · simp [field.Required, Path.Index, Path.Child, Path.Key] at hf
      · rw [h] at hf
        simp [Path.Index, Path.Child, Path.Key] at hf
      · simp [field.Required, Path.Index, Path.Child, Path.Key] at hf
      · simp [field.Invalid] at ht
      · simp only [field.Required, Path.Index, Path.Child, Path.Key, List.cons.injEq,
          PathElem.index.injEq, Itoa_inj, and_true, true_and, Nat.zero_add] at hf
        obtain ⟨rfl, rfl⟩ := hf
        rw [hi] at hk'
        cases hk'
        exact ⟨m, h1, h2⟩
    · rintro ⟨m, h1, h2⟩
      refine ⟨field.Required (((p.Index i).Child "targetMap").Key key) "target must not be empty",
        ?_, rfl, rfl⟩
      apply mem_rangeLoop_of_mem _ hi
      rw [mem_targetImports_body]
      right; right; right; left
      exact ⟨m, h1, (mem_targetMapLoop _ _ _).2
        ⟨key, "", (hv _ m).mem_iff.2 h2, Or.inr ⟨rfl, rfl⟩⟩⟩

/-- Witness for C5: the second entry of the explicit list is empty. -/
theorem validateInstallationTargetImports_empty_targets_witness :
    (∃ e ∈ (ValidateInstallationTargetImports (fun _ m => m)
          [⟨"a", "", some ["t", ""], none, "", ""⟩] [PathElem.name "targets"] ∅).1,
        e.ErrType = ErrorType.Required ∧
          e.Field = Path.Index (Path.Child (Path.Index [PathElem.name "targets"] 0) "targets") 1) ↔
      ∃ tgs, (⟨"a", "", some ["t", ""], none, "", ""⟩ : TargetImport).Targets = some tgs ∧
        tgs[1]? = some "" :=
  (validateInstallationTargetImports_empty_targets (fun _ m => m) (fun _ _ => List.Perm.refl _)
    [⟨"a", "", some ["t", ""], none, "", ""⟩]
    [PathElem.name "targets"] ∅ 0 ⟨"a", "", some ["t", ""], none, "", ""⟩ rfl).1 1

/-! ## Data imports without a name -/

/-- C8. A data import with an empty name at index `i` (the length of `pre`) contributes,
after the violations of the source checks, the Required violation at `p[i].name`; it leaves
the set of seen names as it found it, the imports after it are checked from index `i + 1`
on with that set, and no Duplicate violation is reported at `p[i]`. -/
theorem validateInstallationDataImports_empty_name (pre post : List DataImport)
    (imp : DataImport) (p : Path) (names : Finset String) (h : imp.Name = "") :
    let before := ValidateInstallationDataImports pre p names
    let own := ValidateInstallationDataImports.body p pre.length imp before.2
    let after := rangeLoop (ValidateInstallationDataImports.body p) post (pre.length + 1) before.2
    let res := ValidateInstallationDataImports (pre ++ imp :: post) p names
    res = (before.1 ++ own.1 ++ after.1, after.2) ∧ own.2 = before.2 ∧
      (∃ errs, own.1 = errs ++
        [field.Required ((p.Index pre.length).Child "name") "name must not be empty"]) ∧
      (∀ e ∈ res.1, e.ErrType = ErrorType.Duplicate → e.Field ≠ p.Index pre.length) ∧
      res.2 = (ValidateInstallationDataImports (pre ++ post) p names).2 := by
  intro before own after res
  have hown : own.2 = before.2 := by
    simp only [own, dataImports_body_names, h, if_true]
  refine ⟨?_, hown, ?_, ?_, ?_⟩
  · simp only [res, ValidateInstallationDataImports, rangeLoop_append, rangeLoop, Nat.zero_add,
      List.append_assoc]
    have : (ValidateInstallationDataImports.body p pre.length imp
        (rangeLoop (ValidateInstallationDataImports.body p) pre 0 names).2).2 =
        (rangeLoop (ValidateInstallationDataImports.body p) pre 0 names).2 := hown
    rw [this]
    rfl
  · simp only [own, ValidateInstallationDataImports.body, h, if_true]
    exact ⟨_, rfl⟩
  · intro e he ht hf
    obtain ⟨k, x, hk, hx, rfl⟩ := dataImports_duplicate_field he ht
    simp only [field.Duplicate, Path.Index, List.cons.injEq, PathElem.index.injEq, Itoa_inj,
      and_true, Nat.zero_add] at hf
    subst hf
    have hget : (pre ++ imp :: post)[pre.length]? = some imp := by
      rw [List.getElem?_append_right (Nat.le_refl _)]; simp
    rw [hget] at hk
    cases hk
    exact hx h
  · simp only [res, ValidateInstallationDataImports]
    rw [rangeLoop_names_nonempty _ (fun d => d.Name) (dataImports_body_names _),
      rangeLoop_names_nonempty _ (fun d => d.Name) (dataImports_body_names _)]
    simp [List.filter_cons, h]

/-- Witness for C8: a nameless import between the imports `a` and `a`; the repeated `a` after
it is still reported. -/
theorem validateInstallationDataImports_empty_name_witness :
    ValidateInstallationDataImports
        ([⟨"a", "r", "", none, none⟩] ++ ⟨"", "r", "", none, none⟩ :: [⟨"a", "r", "", none, none⟩])
        [PathElem.name "data"] ∅ =
      ([field.Required [PathElem.name "name", PathElem.index "1", PathElem.name "data"]
          "name must not be empty",
        field.Duplicate [PathElem.index "2", PathElem.name "data"] (BadValue.str "a")],
        {"a"}) := by
  have h := (validateInstallationDataImports_empty_name [⟨"a", "r", "", none, none⟩]
    [⟨"a", "r", "", none, none⟩] ⟨"", "r", "", none, none⟩ [PathElem.name "data"] ∅ rfl).1
  rw [h]
  decide

/-! ## Target imports without a name -/

/-- C9, evaluated: of two target imports without a name the second one gets, besides the
Required violation at `targets[1].name`, a Duplicate violation at `targets[1]` whose bad value
is the empty name. -/
theorem validateInstallationTargetImports_empty_name_duplicate :
    (ValidateInstallationTargetImports (fun _ m => m)
        [⟨"", "t1", none, none, "", ""⟩, ⟨"", "t2", none, none, "", ""⟩]
        [PathElem.name "targets"] ∅).1 =
      [field.Required [PathElem.name "name", PathElem.index "0", PathElem.name "targets"]
          "name must not be empty",
        field.Required [PathElem.name "name", PathElem.index "1", PathElem.name "targets"]
          "name must not be empty",
        field.Duplicate [PathElem.index "1", PathElem.name "targets"] (BadValue.str "")] := by
  decide

/-! ## The key pattern -/

theorem mem_consume_cls (p : Char → Bool) (s t : List Char) :
    t ∈ (RegExp.cls p).consume s ↔ ∃ c, s = c :: t ∧ p c = true := by
  cases s with
  | nil => simp [RegExp.consume]
  | cons c cs =>
    by_cases hp : p c = true
    · simp only [RegExp.consume, hp, if_true, List.mem_singleton, List.cons.injEq]
      constructor
      · rintro rfl; exact ⟨c, ⟨rfl, rfl⟩, hp⟩
      · rintro ⟨c', ⟨rfl, rfl⟩, _⟩; rfl
    · have hp' : p c = false := by simpa using hp
      simp only [RegExp.consume, hp', Bool.false_eq_true, if_false, List.not_mem_nil, false_iff,
        not_exists, not_and, List.cons.injEq]
      rintro c' ⟨rfl, rfl⟩
      simp [hp']

theorem mem_upToM_cls (p : Char → Bool) (n : Nat) (s t : List Char) :
    t ∈ upToM (RegExp.cls p).consume n s ↔
      ∃ pre, s = pre ++ t ∧ pre.length ≤ n ∧ ∀ c ∈ pre, p c = true := by
  induction n generalizing s with
  | zero =>
    simp only [upToM, List.mem_singleton, Nat.le_zero, List.length_eq_zero]
    constructor
    · rintro rfl; exact ⟨[], rfl, rfl, by simp⟩
    · rintro ⟨pre, rfl, rfl, _⟩; rfl
  | succ n ih =>
    simp only [upToM, List.mem_append, List.mem_flatMap, List.mem_singleton, mem_consume_cls, ih]
    constructor
    · rintro (⟨u, ⟨c, rfl, hc⟩, pre, rfl, hlen, hall⟩ | rfl)
      · refine ⟨c :: pre, rfl, by simp [hlen], ?_⟩
        intro x hx
        rcases List.mem_cons.1 hx with rfl | hx
        · exact hc
        · exact hall x hx
      · exact ⟨[], rfl, by simp, by simp⟩
    · rintro ⟨pre, rfl, hlen, hall⟩
      cases pre with
      | nil => right; rfl
      | cons c pre =>
        left
        refine ⟨pre ++ t, ⟨c, rfl, hall c (List.mem_cons_self _ _)⟩, pre, rfl, ?_, ?_⟩
        · simpa using hlen
        · exact fun x hx => hall x (List.mem_cons_of_mem _ hx)

theorem lowerAlnum_iff (c : Char) : lowerAlnum c = true ↔ (c.isLower ∨ c.isDigit) := by
  simp [lowerAlnum, Char.isLower, Char.isDigit, Char.le_def, UInt32.le_def]

theorem lowerAlnumDotDash_iff (c : Char) :
    lowerAlnumDotDash c = true ↔ (c.isLower ∨ c.isDigit ∨ c = '.' ∨ c = '-') := by
  simp [lowerAlnumDotDash, Char.isLower, Char.isDigit, Char.le_def, UInt32.le_def, or_assoc]

/-- What `targetMapKeyRegExp` accepts, read off the expression: one class character, or one
class character, at most 61 characters of the wide class and a final class character. -/
theorem targetMapKeyRegExp_consume (s : List Char) :
    [] ∈ targetMapKeyRegExp.consume s ↔
      ∃ c t, s = c :: t ∧ lowerAlnum c = true ∧
        (t = [] ∨ ∃ pre d, t = pre ++ [d] ∧ pre.length ≤ 61 ∧
          (∀ x ∈ pre, lowerAlnumDotDash x = true) ∧ lowerAlnum d = true) := by
  simp only [targetMapKeyRegExp, RegExp.consume, List.mem_flatMap, List.mem_append,
    List.mem_singleton, mem_consume_cls, mem_upToM_cls]
  constructor
  · rintro ⟨t, ⟨c, rfl, hc⟩, h⟩
    refine ⟨c, t, rfl, hc, ?_⟩
    rcases h with ⟨u, ⟨pre, rfl, hlen, hall⟩, d, rfl, hd⟩ | h
    · exact Or.inr ⟨pre, d, rfl, hlen, hall, hd⟩
    · exact Or.inl h.symm
  · rintro ⟨c, t, rfl, hc, h⟩
    refine ⟨t, ⟨c, rfl, hc⟩, ?_⟩
    rcases h with rfl | ⟨pre, d, rfl, hlen, hall, hd⟩
    · exact Or.inr rfl
    · exact Or.inl ⟨[d], ⟨pre, rfl, hlen, hall⟩, d, rfl, hd⟩

/-- The key pattern in words: between 1 and 63 characters, only lower-case letters, digits,
dots and dashes, and a lower-case letter or digit at both ends. -/
theorem targetMapKeyRegExp_matchString_iff (k : String) :
    targetMapKeyRegExp.MatchString k = true ↔
      (1 ≤ k.length ∧ k.length ≤ 63 ∧
        (∀ c ∈ k.data, c.isLower = true ∨ c.isDigit = true ∨ c = '.' ∨ c = '-') ∧
        (∃ c, k.data.head? = some c ∧ (c.isLower = true ∨ c.isDigit = true)) ∧
        (∃ c, k.data.getLast? = some c ∧ (c.isLower = true ∨ c.isDigit = true))) := by
  have hlen : k.length = k.data.length := rfl
  rw [hlen]
  simp only [RegExp.MatchString, decide_eq_true_eq, targetMapKeyRegExp_consume,
    ← lowerAlnum_iff, ← lowerAlnumDotDash_iff]
  generalize k.data = s
  have hsub : ∀ c, lowerAlnum c = true → lowerAlnumDotDash c = true := by
    intro c hc
    rw [lowerAlnumDotDash_iff]
    rcases (lowerAlnum_iff c).1 hc with h | h
    · exact Or.inl h
    · exact Or.inr (Or.inl h)
  constructor
  · rintro ⟨c, t, rfl, hc, rfl | ⟨pre, d, rfl, hlen, hall, hd⟩⟩
    · refine ⟨by simp, by simp, ?_, ⟨c, rfl, hc⟩, ⟨c, rfl, hc⟩⟩
      intro x hx
      simp only [List.mem_singleton] at hx
      subst hx
      exact hsub _ hc
    · refine ⟨by simp, by simp; omega, ?_, ⟨c, rfl, hc⟩, ⟨d, ?_, hd⟩⟩
      · intro x hx
        simp only [List.mem_cons, List.mem_append, List.mem_singleton, List.not_mem_nil,
          or_false] at hx
        rcases hx with rfl | hx | rfl
        · exact hsub _ hc
        · exact hall x hx
        · exact hsub _ hd
      · rw [← List.cons_append, List.getLast?_append]
        simp
  · rintro ⟨h1, h2, hall, ⟨c, hhead, hc⟩, ⟨d, hlast, hd⟩⟩
    cases s with
    | nil => simp at h1
    | cons c' t =>
      simp only [List.head?_cons, Option.some.injEq] at hhead
      subst hhead
      refine ⟨c', t, rfl, hc, ?_⟩
      rcases List.eq_nil_or_concat t with rfl | ⟨pre, d', rfl⟩
      · exact Or.inl rfl
      · right
        rw [List.concat_eq_append] at hlast h2 hall ⊢
        rw [← List.cons_append, List.getLast?_append] at hlast
        simp only [List.getLast?_singleton, Option.or, Option.some.injEq] at hlast
        subst hlast
        refine ⟨pre, d', rfl, ?_, ?_, hd⟩
        · simp at h2
          omega
        · exact fun x hx => hall x (by simp [hx])

/-- C4. For every visiting order of the maps, the target import at index `i` with an explicit
`TargetMap` and a key `k` of that map, an Invalid violation at `p[i].targetMap[k]` is reported if and only if `k` fails the key
pattern, that is unless `k` has between 1 and 63 characters, consists only of lower-case
letters, digits, dots and dashes, and begins and ends with a lower-case letter or digit. -/
theorem validateInstallationTargetImports_targetMap_key
    (visit : Nat → List (String × String) → List (String × String)) (hv : VisitOrder visit)
    (imports : List TargetImport) (p : Path)
    (names : Finset String) (i : Nat) (imp : TargetImport) (m : List (String × String))
    (k v : String) (hi : imports[i]? = some imp) (hm : imp.TargetMap = some m)
    (hk : (k, v) ∈ m) :
    (∃ e ∈ (ValidateInstallationTargetImports visit imports p names).1,
        e.ErrType = ErrorType.Invalid ∧ e.Field = ((p.Index i).Child "targetMap").Key k) ↔
      ¬ (1 ≤ k.length ∧ k.length ≤ 63 ∧
        (∀ c ∈ k.data, c.isLower = true ∨ c.isDigit = true ∨ c = '.' ∨ c = '-') ∧
        (∃ c, k.data.head? = some c ∧ (c.isLower = true ∨ c.isDigit = true)) ∧
        (∃ c, k.data.getLast? = some c ∧ (c.isLower = true ∨ c.isDigit = true))) := by
  rw [← targetMapKeyRegExp_matchString_iff, Bool.not_eq_true]
  constructor
  · rintro ⟨e, he, ht, hf⟩
    obtain ⟨k', x, hk', hc⟩ := targetImports_mem_cases hv he
    rcases hc with rfl | h | ⟨tgs, k2, h1, h2, rfl⟩ | ⟨m', key, tg, _, _, hr, rfl⟩ |
      ⟨m', key, _, _, rfl⟩
    · simp [field.Required] at ht
    · rw [h] at hf
      simp [Path.Index, Path.Child, Path.Key] at hf
    · simp [field.Required] at ht
    · simp only [field.Invalid, Path.Index, Path.Child, Path.Key, List.cons.injEq,
        PathElem.index.injEq, Itoa_inj, and_true, true_and, Nat.zero_add] at hf
      obtain ⟨rfl, _⟩ := hf
      exact hr
    · simp [field.Required] at ht
  · intro hr
    refine ⟨field.Invalid (((p.Index i).Child "targetMap").Key k) (BadValue.str k)
      targetMapKeyDetail, ?_, rfl, rfl⟩
    apply mem_rangeLoop_of_mem _ hi
    rw [mem_targetImports_body]
    right; right; right; left
    exact ⟨m, hm, (mem_targetMapLoop _ _ _).2 ⟨k, v, (hv _ m).mem_iff.2 hk, Or.inl ⟨hr, rfl⟩⟩⟩

/-- Witness for C4: the key `Bad_Key` of the only target import fails the pattern. -/
theorem validateInstallationTargetImports_targetMap_key_witness :
    ∃ e ∈ (ValidateInstallationTargetImports (fun _ m => m)
          [⟨"a", "", none, some [("Bad_Key", "t")], "", ""⟩] [PathElem.name "targets"] ∅).1,
      e.ErrType = ErrorType.Invalid ∧
        e.Field = Path.Key (Path.Child (Path.Index [PathElem.name "targets"] 0) "targetMap")
          "Bad_Key" :=
  (validateInstallationTargetImports_targetMap_key (fun _ m => m) (fun _ _ => List.Perm.refl _)
    [⟨"a", "", none, some [("Bad_Key", "t")], "", ""⟩] [PathElem.name "targets"] ∅ 0
    ⟨"a", "", none, some [("Bad_Key", "t")], "", ""⟩ [("Bad_Key", "t")] "Bad_Key" "t"
    rfl rfl (by simp)).2 (by decide)

/-! ## Object metadata: one length violation per call -/

/-- C11, as amended.  When the generate name is longer than
`InstallationGenerateNameMaxLength` and the name is not longer than
`InstallationNameMaxLength`, the result contains the Invalid violation at
`<path>.generateName`. -/
theorem validateInstallationObjectMeta_generateName (InstallationPrefix : String)
    (validateObjectMeta : ObjectMeta → Path → ErrorList) (maxLenError : Int → String)
    (objMeta : ObjectMeta) (p : Path)
    (hgen : len objMeta.GenerateName > InstallationGenerateNameMaxLength InstallationPrefix)
    (hname : ¬ len objMeta.Name > InstallationNameMaxLength InstallationPrefix) :
    field.Invalid (p.Child "generateName") (BadValue.str objMeta.GenerateName)
        (maxLenError (InstallationGenerateNameMaxLength InstallationPrefix)) ∈
      validateInstallationObjectMeta InstallationPrefix validateObjectMeta maxLenError objMeta p := by
  unfold validateInstallationObjectMeta
  simp [hname, hgen]

/-- Witness for C11 as amended: prefix `inst-`, an empty name and a generate name of 54
characters. -/
theorem validateInstallationObjectMeta_generateName_witness :
    field.Invalid (Path.Child [PathElem.name "metadata"] "generateName")
        (BadValue.str "aaaaaaaaaaaaaaaaaaaaaaaaaaaaaaaaaaaaaaaaaaaaaaaaaaaaaa")
        "too long" ∈
      validateInstallationObjectMeta "inst-" (fun _ _ => []) (fun _ => "too long")
        ⟨"", "aaaaaaaaaaaaaaaaaaaaaaaaaaaaaaaaaaaaaaaaaaaaaaaaaaaaaa", "default"⟩
        [PathElem.name "metadata"] :=
  validateInstallationObjectMeta_generateName "inst-" (fun _ _ => []) (fun _ => "too long")
    ⟨"", "aaaaaaaaaaaaaaaaaaaaaaaaaaaaaaaaaaaaaaaaaaaaaaaaaaaaaa", "default"⟩
    [PathElem.name "metadata"] (by decide) (by decide)

/-- Counterexample to C11 as stated: with the prefix `inst-`, a name of 59 characters and a
generate name of 54 characters (both beyond their limits of 58 and 53, both within the 63
characters of a DNS label, so that the library validator has nothing to report), the result
is the single violation at `metadata.name`; there is none at `metadata.generateName`. -/
theorem validateInstallationObjectMeta_generateName_counterexample :
    len "bbbbbbbbbbbbbbbbbbbbbbbbbbbbbbbbbbbbbbbbbbbbbbbbbbbbbb" >
        InstallationGenerateNameMaxLength "inst-" ∧
      validateInstallationObjectMeta "inst-" (fun _ _ => []) (fun _ => "too long")
          ⟨"aaaaaaaaaaaaaaaaaaaaaaaaaaaaaaaaaaaaaaaaaaaaaaaaaaaaaaaaaaa",
            "bbbbbbbbbbbbbbbbbbbbbbbbbbbbbbbbbbbbbbbbbbbbbbbbbbbbbb", "default"⟩
          [PathElem.name "metadata"] =
        [field.Invalid [PathElem.name "name", PathElem.name "metadata"]
          (BadValue.str "aaaaaaaaaaaaaaaaaaaaaaaaaaaaaaaaaaaaaaaaaaaaaaaaaaaaaaaaaaa") "too long"] ∧
      ¬ ∃ e ∈ validateInstallationObjectMeta "inst-" (fun _ _ => []) (fun _ => "too long")
          ⟨"aaaaaaaaaaaaaaaaaaaaaaaaaaaaaaaaaaaaaaaaaaaaaaaaaaaaaaaaaaa",
            "bbbbbbbbbbbbbbbbbbbbbbbbbbbbbbbbbbbbbbbbbbbbbbbbbbbbbb", "default"⟩
          [PathElem.name "metadata"],
        e.Field = Path.Child [PathElem.name "metadata"] "generateName" := by
  decide

/-! ## Source exclusivity of data imports -/

theorem dataImport_fieldIsSet (imp : DataImport) :
    (BadValue.dataImport imp).fieldIsSet "DataRef" = (imp.DataRef != "") ∧
    (BadValue.dataImport imp).fieldIsSet "SecretRef" = imp.SecretRef.isSome ∧
    (BadValue.dataImport imp).fieldIsSet "ConfigMapRef" = imp.ConfigMapRef.isSome :=
  ⟨rfl, rfl, rfl⟩

/-- A violation of iteration `idx` of the data-import loop located at `q[i]` belongs to
index `i`. -/
theorem dataImports_body_index {q : Path} {idx i : Nat} {imp : DataImport}
    {s : Finset String} {e : Error}
    (he : e ∈ (ValidateInstallationDataImports.body q idx imp s).1) (hf : e.Field = q.Index i) :
    idx = i := by
  rw [mem_dataImports_body] at he
  rcases he with he | ⟨sr, _, he⟩ | ⟨cmr, _, he⟩ | ⟨_, he⟩ | ⟨_, _, he⟩
  · rw [(mem_ValidateExactlyOneOf he).1] at hf
    simpa [Path.Index] using hf
  · unfold ValidateLocalSecretReference at he
    split at he <;> simp at he
    subst he
    simp [field.Required, Path.Index, Path.Child] at hf
  · unfold ValidateLocalConfigMapReference at he
    split at he <;> simp at he
    subst he
    simp [field.Required, Path.Index, Path.Child] at hf
  · subst he
    simp [field.Required, Path.Index, Path.Child] at hf
  · subst he
    simpa [field.Duplicate, Path.Index] using hf

/-- The exclusivity violations of one iteration are those of `ValidateExactlyOneOf`. -/
theorem dataImports_body_exclusive (q : Path) (i : Nat) (imp : DataImport) (s : Finset String) :
    (ValidateInstallationDataImports.body q i imp s).1.filter
        (fun e => decide (e.Field = q.Index i ∧
          (e.ErrType = ErrorType.Invalid ∨ e.ErrType = ErrorType.Required))) =
      ValidateExactlyOneOf (q.Index i) (BadValue.dataImport imp)
        ["DataRef", "SecretRef", "ConfigMapRef"] := by
  have hsplit : ∃ rest, (ValidateInstallationDataImports.body q i imp s).1 =
      ValidateExactlyOneOf (q.Index i) (BadValue.dataImport imp)
        ["DataRef", "SecretRef", "ConfigMapRef"] ++ rest ∧
      ∀ e ∈ rest, e.Field = q.Index i → e.ErrType = ErrorType.Duplicate := by
    obtain ⟨n, dr, ver, sr, cmr⟩ := imp
    refine ⟨(match sr with
        | some sr => ValidateLocalSecretReference sr ((q.Index i).Child "secretRef")
        | none => []) ++
      (match cmr with
        | some cmr => ValidateLocalConfigMapReference cmr ((q.Index i).Child "configMapRef")
        | none => []) ++
      (if n = "" then [field.Required ((q.Index i).Child "name") "name must not be empty"]
        else if n ∈ s then [field.Duplicate (q.Index i) (BadValue.str n)] else []), ?_, ?_⟩
    · unfold ValidateInstallationDataImports.body
      cases sr <;> cases cmr <;> by_cases hn : n = "" <;> by_cases hs : n ∈ s <;>
        simp [hn, hs]
    · intro e he hf
      simp only [List.mem_append] at he
      rcases he with (he | he) | he
      · cases sr with
        | none => simp at he
        | some sr =>
          simp only [ValidateLocalSecretReference] at he
          split at he <;> simp at he
          subst he
          simp [field.Required, Path.Index, Path.Child] at hf
      · cases cmr with
        | none => simp at he
        | some cmr =>
          simp only [ValidateLocalConfigMapReference] at he
          split at he <;> simp at he
          subst he
          simp [field.Required, Path.Index, Path.Child] at hf
      · split at he
        · simp at he
          subst he
          simp [field.Required, Path.Index, Path.Child] at hf
        · split at he <;> simp at he
          subst he
          rfl
  obtain ⟨rest, h1, h2⟩ := hsplit
  rw [h1, List.filter_append]
  have hx : (ValidateExactlyOneOf (q.Index i) (BadValue.dataImport imp)
      ["DataRef", "SecretRef", "ConfigMapRef"]).filter
        (fun e => decide (e.Field = q.Index i ∧
          (e.ErrType = ErrorType.Invalid ∨ e.ErrType = ErrorType.Required))) =
      ValidateExactlyOneOf (q.Index i) (BadValue.dataImport imp)
        ["DataRef", "SecretRef", "ConfigMapRef"] := by
    rw [List.filter_eq_self]
    intro e he
    have := mem_ValidateExactlyOneOf he
    simp [this.1, this.2.symm]
  have hr : rest.filter (fun e => decide (e.Field = q.Index i ∧
      (e.ErrType = ErrorType.Invalid ∨ e.ErrType = ErrorType.Required))) = [] := by
    rw [List.filter_eq_nil_iff]
    intro e he
    simp only [decide_eq_true_eq, not_and]
    intro hf
    rw [h2 e he hf]
    simp
  rw [hx, hr, List.append_nil]

/-- C13.  For the data import at index `i`, the exclusivity violations of
`ValidateInstallationDataImports` (kind Invalid or Required, located at `p[i]`) are: none
when exactly one of DataRef, SecretRef and ConfigMapRef is set, and exactly one otherwise,
the Required violation when none is set and the Invalid violation when more than one is. -/
theorem validateInstallationDataImports_exclusivity (imports : List DataImport) (p : Path)
    (names : Finset String) (i : Nat) (imp : DataImport) (hi : imports[i]? = some imp) :
    let excl := (ValidateInstallationDataImports imports p names).1.filter
      (fun e => decide (e.Field = p.Index i ∧
        (e.ErrType = ErrorType.Invalid ∨ e.ErrType = ErrorType.Required)))
    let n := ([imp.DataRef != "", imp.SecretRef.isSome, imp.ConfigMapRef.isSome].filter id).length
    (n = 1 → excl = []) ∧ (n ≠ 1 → excl.length = 1) ∧
      (n = 0 → excl = [field.Required (p.Index i) ""]) ∧
      (2 ≤ n → excl = [field.Invalid (p.Index i) (BadValue.dataImport imp) ""]) := by
  intro excl n
  have hexcl : excl = ValidateExactlyOneOf (p.Index i) (BadValue.dataImport imp)
      ["DataRef", "SecretRef", "ConfigMapRef"] := by
    simp only [excl, ValidateInstallationDataImports]
    rw [rangeLoop_split _ _ i imp hi, List.filter_append, List.filter_append,
      dataImports_body_exclusive]
    have hA : ∀ (xs : List DataImport) (idx : Nat) (s : Finset String),
        (∀ k, k < xs.length → idx + k ≠ i) →
        (rangeLoop (ValidateInstallationDataImports.body p) xs idx s).1.filter
          (fun e => decide (e.Field = p.Index i ∧
            (e.ErrType = ErrorType.Invalid ∨ e.ErrType = ErrorType.Required))) = [] := by
      intro xs idx s hne
      rw [List.filter_eq_nil_iff]
      intro e he
      simp only [decide_eq_true_eq, not_and]
      intro hf
      obtain ⟨k, x, s', hk, hb⟩ := mem_rangeLoop _ he
      have hlt : k < xs.length := by
        rcases Nat.lt_or_ge k xs.length with h1 | h1
        · exact h1
        · rw [List.getElem?_eq_none h1] at hk; cases hk
      exact absurd (dataImports_body_index hb hf) (hne k hlt)
    rw [hA _ _ _ (by intro k hk; rw [List.length_take] at hk; omega),
      hA _ _ _ (by intro k _; omega)]
    simp
  have hn : (["DataRef", "SecretRef", "ConfigMapRef"].filter
      (BadValue.dataImport imp).fieldIsSet).length = n := by
    obtain ⟨h1, h2, h3⟩ := dataImport_fieldIsSet imp
    simp only [n, List.filter_cons, List.filter_nil, h1, h2, h3]
    cases (imp.DataRef != "") <;> cases imp.SecretRef.isSome <;> cases imp.ConfigMapRef.isSome <;>
      rfl
  rw [hexcl]
  unfold ValidateExactlyOneOf
  rw [hn]
  clear hn hexcl
  clear_value n
  rcases n with _ | _ | m
  · simp
  · simp
  · simp

/-- Witness for C13: the second data import sets both a data reference and a secret
reference. -/
theorem validateInstallationDataImports_exclusivity_witness :
    (ValidateInstallationDataImports
        [⟨"a", "r", "", none, none⟩, ⟨"b", "r", "", some ⟨"s", ""⟩, none⟩]
        [PathElem.name "data"] ∅).1.filter
      (fun e => decide (e.Field = Path.Index [PathElem.name "data"] 1 ∧
        (e.ErrType = ErrorType.Invalid ∨ e.ErrType = ErrorType.Required))) =
      [field.Invalid (Path.Index [PathElem.name "data"] 1)
        (BadValue.dataImport ⟨"b", "r", "", some ⟨"s", ""⟩, none⟩) ""] :=
  (validateInstallationDataImports_exclusivity
    [⟨"a", "r", "", none, none⟩, ⟨"b", "r", "", some ⟨"s", ""⟩, none⟩]
    [PathElem.name "data"] ∅ 1 ⟨"b", "r", "", some ⟨"s", ""⟩, none⟩ rfl).2.2.2 (by decide)

/-! ## Visiting order of target maps -/

theorem targetMapLoop_eq_flatMap (q : Path) (m : List (String × String)) :
    ValidateInstallationTargetImports.targetMapLoop q m =
      m.flatMap (fun kv => ValidateInstallationTargetImports.targetMapLoop q [kv]) := by
  induction m with
  | nil => rfl
  | cons kv rest ih =>
    obtain ⟨key, tg⟩ := kv
    rw [List.flatMap_cons, ← ih]
    simp [ValidateInstallationTargetImports.targetMapLoop]

/-- Visiting the entries of a map in another order permutes the violations of the map. -/
theorem targetMapLoop_perm (q : Path) {m m' : List (String × String)} (h : m.Perm m') :
    (ValidateInstallationTargetImports.targetMapLoop q m).Perm
      (ValidateInstallationTargetImports.targetMapLoop q m') := by
  rw [targetMapLoop_eq_flatMap q m, targetMapLoop_eq_flatMap q m']
  exact h.flatMap_right _

theorem targetImports_body_perm {visit₁ visit₂ : Nat → List (String × String) → List (String × String)}
    (h₁ : VisitOrder visit₁) (h₂ : VisitOrder visit₂) (q : Path) (idx : Nat) (imp : TargetImport)
    (s : Finset String) :
    (ValidateInstallationTargetImports.body visit₁ q idx imp s).1.Perm
      (ValidateInstallationTargetImports.body visit₂ q idx imp s).1 := by
  obtain ⟨n, t, tgs, m, mr, lr⟩ := imp
  unfold ValidateInstallationTargetImports.body
  cases m with
  | none => exact List.Perm.refl _
  | some m =>
    have hp := targetMapLoop_perm (q.Index idx) ((h₁ idx m).trans (h₂ idx m).symm)
    simp only
    split
    · exact List.Perm.append (List.Perm.append_left _ hp) (List.Perm.refl _)
    · exact List.Perm.append_left _ hp

/-- Two loops whose iterations report the same violations up to order and leave the same
state report the same violations up to order and leave the same state. -/
theorem rangeLoop_perm {α σ : Type} (body₁ body₂ : Nat → α → σ → ErrorList × σ)
    (h : ∀ idx x s, (body₁ idx x s).1.Perm (body₂ idx x s).1 ∧ (body₁ idx x s).2 = (body₂ idx x s).2)
    (xs : List α) (idx : Nat) (s : σ) :
    (rangeLoop body₁ xs idx s).1.Perm (rangeLoop body₂ xs idx s).1 ∧
      (rangeLoop body₁ xs idx s).2 = (rangeLoop body₂ xs idx s).2 := by
  induction xs generalizing idx s with
  | nil => exact ⟨List.Perm.refl _, rfl⟩
  | cons x xs ih =>
    simp only [rangeLoop]
    obtain ⟨h1, h2⟩ := h idx x s
    rw [h2]
    exact ⟨List.Perm.append h1 (ih _ _).1, (ih _ _).2⟩

/-- C12, as amended.  The violation list of `ValidateInstallationSpec` is determined by the
spec and the path up to the order of its elements: for any two orders of visiting the target
maps the two lists are permutations of each other, and so are the lists of
`ValidateInstallationTargetImports`, which leaves the same name set. -/
theorem validateInstallationSpec_visit_order (parseStandard : String → Bool)
    (visit₁ visit₂ : Nat → List (String × String) → List (String × String))
    (h₁ : VisitOrder visit₁) (h₂ : VisitOrder visit₂) :
    (∀ (spec : InstallationSpec) (p : Path),
      (ValidateInstallationSpec parseStandard visit₁ spec p).Perm
        (ValidateInstallationSpec parseStandard visit₂ spec p)) ∧
    (∀ (imports : List TargetImport) (p : Path) (names : Finset String),
      (ValidateInstallationTargetImports visit₁ imports p names).1.Perm
          (ValidateInstallationTargetImports visit₂ imports p names).1 ∧
        (ValidateInstallationTargetImports visit₁ imports p names).2 =
          (ValidateInstallationTargetImports visit₂ imports p names).2) := by
  have ht : ∀ (imports : List TargetImport) (p : Path) (names : Finset String),
      (ValidateInstallationTargetImports visit₁ imports p names).1.Perm
          (ValidateInstallationTargetImports visit₂ imports p names).1 ∧
        (ValidateInstallationTargetImports visit₁ imports p names).2 =
          (ValidateInstallationTargetImports visit₂ imports p names).2 := by
    intro imports p names
    exact rangeLoop_perm _ _
      (fun idx x s => ⟨targetImports_body_perm h₁ h₂ p idx x s, rfl⟩) imports 0 names
  refine ⟨fun spec p => ?_, ht⟩
  simp only [ValidateInstallationSpec, ValidateInstallationImports, List.nil_append]
  exact List.Perm.append (List.Perm.append (List.Perm.append (List.Perm.append
    (List.Perm.append_left _ (ht _ _ _).1) (List.Perm.refl _)) (List.Perm.refl _))
    (List.Perm.refl _)) (List.Perm.refl _)

/-- Witness for C12 as amended: the listed order against the reversed order. -/
theorem validateInstallationSpec_visit_order_witness :
    (ValidateInstallationTargetImports (fun _ m => m)
        [⟨"a", "", none, some [("A", "x"), ("B", "")], "", ""⟩] [PathElem.name "targets"] ∅).1.Perm
      (ValidateInstallationTargetImports (fun _ m => m.reverse)
        [⟨"a", "", none, some [("A", "x"), ("B", "")], "", ""⟩] [PathElem.name "targets"] ∅).1 :=
  ((validateInstallationSpec_visit_order (fun _ => true) (fun _ m => m) (fun _ m => m.reverse)
    (fun _ _ => List.Perm.refl _) (fun _ m => List.reverse_perm m)).2
    [⟨"a", "", none, some [("A", "x"), ("B", "")], "", ""⟩] [PathElem.name "targets"] ∅).1

/-- Counterexample to C12 as stated: a target map with the two bad keys `A` and `B`, visited
in the two possible orders, gives two different violation lists, for
`ValidateInstallationTargetImports` and for `ValidateInstallationSpec`. -/
theorem validateInstallationSpec_visit_order_counterexample :
    VisitOrder (fun _ m => m) ∧ VisitOrder (fun _ m => m.reverse) ∧
    (ValidateInstallationTargetImports (fun _ m => m)
        [⟨"a", "", none, some [("A", "x"), ("B", "y")], "", ""⟩] [PathElem.name "targets"] ∅).1 ≠
      (ValidateInstallationTargetImports (fun _ m => m.reverse)
        [⟨"a", "", none, some [("A", "x"), ("B", "y")], "", ""⟩] [PathElem.name "targets"] ∅).1 ∧
    ValidateInstallationSpec (fun _ => true) (fun _ m => m)
        ⟨none, ⟨some ⟨"bp"⟩, none⟩,
          ⟨[], [⟨"a", "", none, some [("A", "x"), ("B", "y")], "", ""⟩]⟩, ⟨[], []⟩, none⟩
        [PathElem.name "spec"] ≠
      ValidateInstallationSpec (fun _ => true) (fun _ m => m.reverse)
        ⟨none, ⟨some ⟨"bp"⟩, none⟩,
          ⟨[], [⟨"a", "", none, some [("A", "x"), ("B", "y")], "", ""⟩]⟩, ⟨[], []⟩, none⟩
        [PathElem.name "spec"] :=
  ⟨fun _ _ => List.Perm.refl _, fun _ m => List.reverse_perm m, by decide, by decide⟩

/-! ## Conversions of the manifest deployer -/

theorem foldl_set_range {α β : Type} (f : α → β) (inp : List α) (out : List β)
    (k : Nat) (hk : k ≤ inp.length) (hlen : out.length = inp.length) :
    (List.range k).foldl
        (fun out i =>
          match inp[i]? with
          | some x => out.set i (f x)
          | none => out) out =
      (inp.take k).map f ++ out.drop k := by
  induction k with
  | zero => simp
  | succ k ih =>
    have hk' : k < inp.length := hk
    rw [List.range_succ, List.foldl_append, ih (by omega)]
    simp only [List.foldl_cons, List.foldl_nil, List.getElem?_eq_getElem hk']
    have hko : k < out.length := by omega
    rw [List.take_succ, List.getElem?_eq_getElem hk', List.drop_eq_getElem_cons hko]
    simp only [Option.toList, List.map_append, List.map_cons, List.map_nil, List.append_assoc]
    rw [List.set_append]
    simp only [List.length_map, List.length_take, Nat.min_eq_left (Nat.le_of_lt hk'),
      Nat.lt_irrefl, if_false, Nat.sub_self, List.set_cons_zero, List.cons_append,
      List.nil_append]

/-- The assignment loop turns the input slice into the slice of its images. -/
theorem makeAndAssign_eq_map {α β : Type} (zero : β) (f : α → β) (inp : List α) :
    makeAndAssign zero f inp = inp.map f := by
  unfold makeAndAssign
  rw [foldl_set_range f inp _ inp.length (Nat.le_refl _) (by simp)]
  simp

/-- C14.  The conversion of a v1alpha1 provider configuration to v1alpha2 returns no error,
copies `UpdateStrategy` and `ReadinessChecks`, leaves the other fields of `out` alone, and
sets `out.Manifests` to nil when `in.Manifests` is nil and otherwise to a list of the same
length whose `i`-th element has the policy `ManagePolicy` and the manifest `in.Manifests[i]`. -/
theorem convert_v1alpha1_to_v1alpha2_providerConfiguration (ManagePolicy : String)
    (inp : v1alpha1.ProviderConfiguration) (out : v1alpha2.ProviderConfiguration) :
    let r := Convert_v1alpha1_ProviderConfiguration_To_v1alpha2_ProviderConfiguration
      ManagePolicy inp out
    r.2 = none ∧ r.1.UpdateStrategy = inp.UpdateStrategy ∧
      r.1.ReadinessChecks = inp.ReadinessChecks ∧ r.1.Kubeconfig = out.Kubeconfig ∧
      (inp.Manifests = none → r.1.Manifests = none) ∧
      (∀ ms : List (Option RawExtension), inp.Manifests = some ms →
        ∃ outs : List Manifest, r.1.Manifests = some outs ∧ outs.length = ms.length ∧
          ∀ (i : Nat) (m : Option RawExtension), ms[i]? = some m →
            outs[i]? = some ⟨ManagePolicy, m⟩) := by
  intro r
  obtain ⟨kc, us, rc, ms⟩ := inp
  cases ms with
  | none =>
    refine ⟨rfl, rfl, rfl, rfl, fun _ => rfl, fun ms h => by simp at h⟩
  | some ms =>
    refine ⟨rfl, rfl, rfl, rfl, fun h => by simp at h, fun ms' h => ?_⟩
    simp only [Option.some.injEq] at h
    subst h
    refine ⟨ms.map (fun m => ⟨ManagePolicy, m⟩), ?_, by simp, ?_⟩
    · simp only [r, Convert_v1alpha1_ProviderConfiguration_To_v1alpha2_ProviderConfiguration,
        makeAndAssign_eq_map]
    · intro i m hi
      simp [hi]

/-- C15.  Converting a v1alpha1 provider configuration to v1alpha2 and the result back to
v1alpha1 fails in neither direction and gives back the `UpdateStrategy`, the
`ReadinessChecks` and the `Manifests` of the configuration (nil staying nil). -/
theorem providerConfiguration_round_trip (ManagePolicy : String)
    (c : v1alpha1.ProviderConfiguration) (out2 : v1alpha2.ProviderConfiguration)
    (out1 : v1alpha1.ProviderConfiguration) :
    let r2 := Convert_v1alpha1_ProviderConfiguration_To_v1alpha2_ProviderConfiguration
      ManagePolicy c out2
    let r1 := Convert_v1alpha2_ProviderConfiguration_To_v1alpha1_ProviderConfiguration r2.1 out1
    r2.2 = none ∧ r1.2 = none ∧ r1.1.UpdateStrategy = c.UpdateStrategy ∧
      r1.1.ReadinessChecks = c.ReadinessChecks ∧ r1.1.Manifests = c.Manifests := by
  intro r2 r1
  obtain ⟨kc, us, rc, ms⟩ := c
  cases ms with
  | none => exact ⟨rfl, rfl, rfl, rfl, rfl⟩
  | some ms =>
    refine ⟨rfl, rfl, rfl, rfl, ?_⟩
    simp only [r1, r2, Convert_v1alpha1_ProviderConfiguration_To_v1alpha2_ProviderConfiguration,
      Convert_v1alpha2_ProviderConfiguration_To_v1alpha1_ProviderConfiguration,
      makeAndAssign_eq_map, List.map_map]
    simp [Function.comp_def]

/-- C16.  Converting a v1alpha1 provider status to v1alpha2 turns each managed resource into
a status with the policy `ManagePolicy` and the same APIVersion, Kind, Name and Namespace,
and converting the result back gives the `ManagedResources` of the status, in the same order,
nil staying nil; neither conversion fails. -/
theorem providerStatus_round_trip (ManagePolicy : String)
    (s : v1alpha1.ProviderStatus) (out2 : v1alpha2.ProviderStatus)
    (out1 : v1alpha1.ProviderStatus) :
    let r2 := Convert_v1alpha1_ProviderStatus_To_v1alph2_ProviderStatus ManagePolicy s out2
    let r1 := Convert_v1alpha2_ProviderStatus_To_v1alpha1_ProviderStatus r2.1 out1
    r2.2 = none ∧ r1.2 = none ∧ r1.1.ManagedResources = s.ManagedResources ∧
      (s.ManagedResources = none → r2.1.ManagedResources = none) ∧
      (∀ rs : List TypedObjectReference, s.ManagedResources = some rs →
        ∃ outs : List ManagedResourceStatus,
          r2.1.ManagedResources = some outs ∧ outs.length = rs.length ∧
          ∀ (i : Nat) (t : TypedObjectReference), rs[i]? = some t →
            ∃ st : ManagedResourceStatus, outs[i]? = some st ∧ st.Policy = ManagePolicy ∧
            st.Resource.APIVersion = t.APIVersion ∧ st.Resource.Kind = t.Kind ∧
            st.Resource.Name = t.ObjectReference.Name ∧
            st.Resource.Namespace = t.ObjectReference.Namespace) := by
  intro r2 r1
  obtain ⟨rs⟩ := s
  cases rs with
  | none => exact ⟨rfl, rfl, rfl, fun _ => rfl, fun rs h => by simp at h⟩
  | some rs =>
    refine ⟨rfl, rfl, ?_, fun h => by simp at h, fun rs' h => ?_⟩
    · simp only [r1, r2, Convert_v1alpha1_ProviderStatus_To_v1alph2_ProviderStatus,
        Convert_v1alpha2_ProviderStatus_To_v1alpha1_ProviderStatus,
        makeAndAssign_eq_map, List.map_map]
      simp [Function.comp_def]
    · simp only [Option.some.injEq] at h
      subst h
      refine ⟨rs.map (fun tmp : TypedObjectReference =>
        ({ Policy := ManagePolicy,
           Resource := { APIVersion := tmp.APIVersion, Kind := tmp.Kind,
                         Name := tmp.ObjectReference.Name,
                         Namespace := tmp.ObjectReference.Namespace,
                         UID := "", ResourceVersion := "", FieldPath := "" } } :
          ManagedResourceStatus)), ?_, ?_, ?_⟩
      · simp only [r2, Convert_v1alpha1_ProviderStatus_To_v1alph2_ProviderStatus,
          makeAndAssign_eq_map]
      · simp
      · intro i t hi
        simp [hi]

/-! ## The scenarios of `blueprint_test.go` ("Import Satisfaction") on the model -/

theorem test_data_import_by_parent :
    ValidateInstallationTemplates [PathElem.name "b"]
      [ImportDefinition.mk "myimportref" (some "type: string") "" none none []]
      [testTemplate "my-inst" ⟨[⟨"myimport", "myimportref", "", none, none⟩], []⟩ ⟨[], []⟩] =
      [] := by decide

theorem test_target_import_by_parent :
    ValidateInstallationTemplates [PathElem.name "b"]
      [ImportDefinition.mk "myimportref" none "mytype" none none []]
      [testTemplate "my-inst" ⟨[], [⟨"myimport", "myimportref", none, none, "", ""⟩]⟩ ⟨[], []⟩] =
      [] := by decide

theorem test_targetlist_reference_by_parent :
    ValidateInstallationTemplates [PathElem.name "b"]
      [ImportDefinition.mk "myimportref" none "mytype" (some ImportType.TargetList) none []]
      [testTemplate "my-inst" ⟨[], [⟨"myimport", "", none, none, "", "myimportref"⟩]⟩ ⟨[], []⟩] =
      [] := by decide

theorem test_targetmap_reference_by_parent :
    ValidateInstallationTemplates [PathElem.name "b"]
      [ImportDefinition.mk "myimportref" none "mytype" (some ImportType.TargetMap) none []]
      [testTemplate "my-inst" ⟨[], [⟨"myimport", "", none, none, "myimportref", ""⟩]⟩ ⟨[], []⟩] =
      [] := by decide

theorem test_targetmap_of_parent_targets :
    ValidateInstallationTemplates [PathElem.name "b"]
      [ImportDefinition.mk "myimportref" none "mytype" (some ImportType.Target) none []]
      [testTemplate "my-inst"
        ⟨[], [⟨"myimport", "", none, some [("mykey1", "myimportref")], "", ""⟩]⟩ ⟨[], []⟩] =
      [] := by decide

theorem test_targetmap_of_sibling_exports :
    ValidateInstallationTemplates [PathElem.name "b"]
      [ImportDefinition.mk "myimportref" (some "type: string") "" none none []]
      [testTemplate "my-inst1" ⟨[], []⟩ ⟨[], [⟨"myexport", "myexportref"⟩]⟩,
       testTemplate "my-inst2"
        ⟨[], [⟨"myimport", "", none, some [("mykey", "myexportref")], "", ""⟩]⟩ ⟨[], []⟩] =
      [] := by decide

theorem test_target_of_parent_targetlist :
    ValidateInstallationTemplates [PathElem.name "b"]
      [ImportDefinition.mk "myimportref" none "mytype" (some ImportType.TargetList) none []]
      [testTemplate "my-inst" ⟨[], [⟨"myimport", "myimportref[1]", none, none, "", ""⟩]⟩
        ⟨[], []⟩] = [] := by decide

theorem test_target_of_parent_targetmap :
    ValidateInstallationTemplates [PathElem.name "b"]
      [ImportDefinition.mk "myimportref" none "mytype" (some ImportType.TargetMap) none []]
      [testTemplate "my-inst" ⟨[], [⟨"myimport", "myimportref[mykey]", none, none, "", ""⟩]⟩
        ⟨[], []⟩] = [] := by decide

theorem test_data_import_not_satisfied :
    ValidateInstallationTemplates [PathElem.name "b"] []
      [testTemplate "" ⟨[⟨"myimport", "myimportref", "", none, none⟩], []⟩ ⟨[], []⟩] =
      [field.NotFound [PathElem.index "myimport", PathElem.index "0", PathElem.name "data",
        PathElem.name "imports", PathElem.index "0", PathElem.name "b"]
        (BadValue.str "myimportref")] := by decide

theorem test_target_import_not_satisfied :
    ValidateInstallationTemplates [PathElem.name "b"] []
      [testTemplate "" ⟨[], [⟨"myimport", "myimportref", none, none, "", ""⟩]⟩ ⟨[], []⟩] =
      [field.NotFound [PathElem.index "myimport", PathElem.index "0", PathElem.name "targets",
        PathElem.name "imports", PathElem.index "0", PathElem.name "b"]
        (BadValue.str "myimportref")] := by decide

theorem test_target_of_complete_targetlist :
    ValidateInstallationTemplates [PathElem.name "b"]
      [ImportDefinition.mk "myimportref" none "mytype" (some ImportType.TargetList) none []]
      [testTemplate "" ⟨[], [⟨"myimport", "myimportref", none, none, "", ""⟩]⟩ ⟨[], []⟩] =
      [field.NotFound [PathElem.index "myimport", PathElem.index "0", PathElem.name "targets",
        PathElem.name "imports", PathElem.index "0", PathElem.name "b"]
        (BadValue.str "myimportref")] := by decide

theorem test_target_of_complete_targetmap :
    ValidateInstallationTemplates [PathElem.name "b"]
      [ImportDefinition.mk "myimportref" none "mytype" (some ImportType.TargetMap) none []]
      [testTemplate "" ⟨[], [⟨"myimport", "myimportref", none, none, "", ""⟩]⟩ ⟨[], []⟩] =
      [field.NotFound [PathElem.index "myimport", PathElem.index "0", PathElem.name "targets",
        PathElem.name "imports", PathElem.index "0", PathElem.name "b"]
        (BadValue.str "myimportref")] := by decide

theorem test_export_of_defined_data :
    ValidateInstallationTemplates [PathElem.name "b"]
      [ImportDefinition.mk "myimportref" (some "type: string") "" none none []]
      [testTemplate "" ⟨[], []⟩
        ⟨[⟨"myimport", "myimportref"⟩, ⟨"mysecondexport", "mysecondexportref"⟩], []⟩,
       testTemplate "" ⟨[], []⟩ ⟨[⟨"mysecondexport", "mysecondexportref"⟩], []⟩] =
      [field.Forbidden [PathElem.index "myimport/myimportref", PathElem.index "0",
          PathElem.name "data", PathElem.name "exports", PathElem.index "0", PathElem.name "b"] "",
       field.Forbidden [PathElem.index "mysecondexport/mysecondexportref", PathElem.index "0",
          PathElem.name "data", PathElem.name "exports", PathElem.index "1", PathElem.name "b"]
          ""] := by decide

theorem test_export_of_defined_target :
    ValidateInstallationTemplates [PathElem.name "b"]
      [ImportDefinition.mk "myimportref" none "mytype" none none []]
      [testTemplate "" ⟨[], []⟩
        ⟨[], [⟨"myimport", "myimportref"⟩, ⟨"mysecondexport", "mysecondexportref"⟩]⟩,
       testTemplate "" ⟨[], []⟩ ⟨[], [⟨"mysecondexport", "mysecondexportref"⟩]⟩] =
      [field.Forbidden [PathElem.index "myimport/myimportref", PathElem.index "0",
          PathElem.name "targets", PathElem.name "exports", PathElem.index "0",
          PathElem.name "b"] "",
       field.Forbidden [PathElem.index "mysecondexport/mysecondexportref", PathElem.index "0",
          PathElem.name "targets", PathElem.name "exports", PathElem.index "1",
          PathElem.name "b"] ""] := by decide

/-! ## The scope resolver -/

/-- An error of the loop comes from one of its iterations, run on the state the earlier
iterations left. -/
theorem mem_rangeLoop_state {α σ : Type} (body : Nat → α → σ → ErrorList × σ)
    {xs : List α} {idx : Nat} {s : σ} {e : Error}
    (h : e ∈ (rangeLoop body xs idx s).1) :
    ∃ k x, xs[k]? = some x ∧
      e ∈ (body (idx + k) x (rangeLoop body (xs.take k) idx s).2).1 := by
  induction xs generalizing idx s with
  | nil => simp [rangeLoop] at h
  | cons x xs ih =>
    simp only [rangeLoop, List.mem_append] at h
    rcases h with h | h
    · exact ⟨0, x, by simp, by simpa [rangeLoop] using h⟩
    · obtain ⟨k, y, hk, he⟩ := ih h
      refine ⟨k + 1, y, by simpa using hk, ?_⟩
      rw [show idx + (k + 1) = idx + 1 + k by omega]
      simpa [rangeLoop] using he

/-- The state a loop leaves, when every iteration adds elements to a list. -/
theorem rangeLoop_state_mem {α β : Type} (body : Nat → α → List β → ErrorList × List β)
    (P : α → β → Prop)
    (hb : ∀ idx x s a, a ∈ (body idx x s).2 ↔ P x a ∨ a ∈ s)
    (xs : List α) (idx : Nat) (s : List β) (a : β) :
    a ∈ (rangeLoop body xs idx s).2 ↔ (∃ x ∈ xs, P x a) ∨ a ∈ s := by
  induction xs generalizing idx s with
  | nil => simp [rangeLoop]
  | cons x xs ih =>
    simp only [rangeLoop, ih, hb, List.mem_cons, exists_eq_or_imp]
    generalize (∃ x ∈ xs, P x a) = Q
    tauto

/-- The violations of a loop without state. -/
theorem mem_rangeLoop_unit {α : Type} (f : Nat → α → ErrorList) (xs : List α) (e : Error) :
    e ∈ (rangeLoop (fun i x (_ : Unit) => (f i x, ())) xs 0 ()).1 ↔
      ∃ i x, xs[i]? = some x ∧ e ∈ f i x := by
  constructor
  · intro h
    obtain ⟨k, x, _, hk, he⟩ := mem_rangeLoop _ h
    exact ⟨k, x, hk, by simpa using he⟩
  · rintro ⟨i, x, hi, he⟩
    exact mem_rangeLoop_of_mem _ hi () he

/-- What a template exports: the pair (Data, `DataRef`) of each data export and the pair
(Target, `Target`) of each target export. -/
theorem templates_body_scope (p : Path) (defs : List ImportDefinition) (j : Nat)
    (T : InstallationTemplate) (s : ExportScope) (a : ImportType × String) :
    a ∈ (ValidateInstallationTemplates.body p defs j T s).2 ↔
      ((∃ x ∈ T.Exports.Data, a = (ImportType.Data, x.DataRef)) ∨
        (∃ x ∈ T.Exports.Targets, a = (ImportType.Target, x.Target))) ∨ a ∈ s := by
  simp only [ValidateInstallationTemplates.body]
  rw [rangeLoop_state_mem _ (fun (x : TargetExport) a => a = (ImportType.Target, x.Target))
      (fun idx x s a => by simp [ValidateInstallationTemplates.targetExport]),
    rangeLoop_state_mem _ (fun (x : DataExport) a => a = (ImportType.Data, x.DataRef))
      (fun idx x s a => by simp [ValidateInstallationTemplates.dataExport])]
  generalize (∃ x ∈ T.Exports.Data, a = (ImportType.Data, x.DataRef)) = Q1
  generalize (∃ x ∈ T.Exports.Targets, a = (ImportType.Target, x.Target)) = Q2
  tauto

/-- The export scope of the template at index `j` holds the exports of the templates with a
smaller index. -/
theorem mem_exportScopeBefore (p : Path) (defs : List ImportDefinition)
    (ts : List InstallationTemplate) (j : Nat) (kind : ImportType) (n : String) :
    (kind, n) ∈ exportScopeBefore p defs ts j ↔
      ∃ j' T', j' < j ∧ ts[j']? = some T' ∧
        ((kind = ImportType.Data ∧ ∃ x ∈ T'.Exports.Data, x.DataRef = n) ∨
          (kind = ImportType.Target ∧ ∃ x ∈ T'.Exports.Targets, x.Target = n)) := by
  unfold exportScopeBefore
  rw [rangeLoop_state_mem _
    (fun (T : InstallationTemplate) a =>
      (∃ x ∈ T.Exports.Data, a = (ImportType.Data, x.DataRef)) ∨
        (∃ x ∈ T.Exports.Targets, a = (ImportType.Target, x.Target)))
    (fun idx x s a => templates_body_scope p defs idx x s a)]
  simp only [List.not_mem_nil, or_false, Prod.mk.injEq]
  constructor
  · rintro ⟨T', hT, h⟩
    obtain ⟨j', hj', hget⟩ := List.getElem_of_mem hT
    rw [List.length_take] at hj'
    rw [List.getElem_take] at hget
    refine ⟨j', T', by omega, by rw [List.getElem?_eq_getElem (by omega), hget], ?_⟩
    rcases h with ⟨x, hx, h1, h2⟩ | ⟨x, hx, h1, h2⟩
    · exact Or.inl ⟨h1, x, hx, h2.symm⟩
    · exact Or.inr ⟨h1, x, hx, h2.symm⟩
  · rintro ⟨j', T', hlt, hget, h⟩
    have hlen : j' < ts.length := by
      rcases Nat.lt_or_ge j' ts.length with h1 | h1
      · exact h1
      · rw [List.getElem?_eq_none h1] at hget; cases hget
    rw [List.getElem?_eq_getElem hlen] at hget
    cases hget
    refine ⟨ts[j'], List.mem_iff_getElem.2 ⟨j', by rw [List.length_take]; omega, by
      rw [List.getElem_take]⟩, ?_⟩
    rcases h with ⟨h1, x, hx, h2⟩ | ⟨h1, x, hx, h2⟩
    · exact Or.inl ⟨x, hx, h1, h2.symm⟩
    · exact Or.inr ⟨x, hx, h1, h2.symm⟩

/-- The violations of the exports of a template are Forbidden violations. -/
theorem templates_export_errors {defs : List ImportDefinition} {ip : Path} {e : Error} :
    (∀ (xs : List DataExport) (i0 : Nat) (s : ExportScope),
      e ∈ (rangeLoop (ValidateInstallationTemplates.dataExport defs ip) xs i0 s).1 →
        e.ErrType = ErrorType.Forbidden) ∧
    (∀ (xs : List TargetExport) (i0 : Nat) (s : ExportScope),
      e ∈ (rangeLoop (ValidateInstallationTemplates.targetExport defs ip) xs i0 s).1 →
        e.ErrType = ErrorType.Forbidden) := by
  constructor
  · intro xs i0 s h
    obtain ⟨k, x, s', _, he⟩ := mem_rangeLoop _ h
    simp only [ValidateInstallationTemplates.dataExport] at he
    split at he <;> simp at he
    subst he; rfl
  · intro xs i0 s h
    obtain ⟨k, x, s', _, he⟩ := mem_rangeLoop _ h
    simp only [ValidateInstallationTemplates.targetExport] at he
    split at he <;> simp at he
    subst he; rfl

/-- Where the violations of the scope resolver come from: an import of a template, checked
against the export scope of that template, or an export (then they are Forbidden). -/
theorem mem_validateInstallationTemplates {p : Path} {defs : List ImportDefinition}
    {ts : List InstallationTemplate} {e : Error}
    (h : e ∈ ValidateInstallationTemplates p defs ts) :
    ∃ j T, ts[j]? = some T ∧
      ((∃ i d, T.Imports.Data[i]? = some d ∧
          e ∈ ValidateInstallationTemplates.dataImport defs (exportScopeBefore p defs ts j)
            (p.Index j) i d) ∨
        (∃ i t, T.Imports.Targets[i]? = some t ∧
          e ∈ ValidateInstallationTemplates.targetImport defs (exportScopeBefore p defs ts j)
            (p.Index j) i t) ∨
        e.ErrType = ErrorType.Forbidden) := by
  obtain ⟨j, T, hj, he⟩ := mem_rangeLoop_state _ h
  refine ⟨j, T, hj, ?_⟩
  simp only [ValidateInstallationTemplates.body, List.mem_append, Nat.zero_add,
    mem_rangeLoop_unit] at he
  rcases he with ((he | he) | he) | he
  · exact Or.inl he
  · exact Or.inr (Or.inl he)
  · exact Or.inr (Or.inr (templates_export_errors.1 _ _ _ he))
  · exact Or.inr (Or.inr (templates_export_errors.2 _ _ _ he))

/-- A violation of a data import of a template is a violation of the scope resolver. -/
theorem validateInstallationTemplates_of_dataImport {p : Path} {defs : List ImportDefinition}
    {ts : List InstallationTemplate} {e : Error} {j i : Nat} {T : InstallationTemplate}
    {d : DataImport} (hj : ts[j]? = some T) (hi : T.Imports.Data[i]? = some d)
    (he : e ∈ ValidateInstallationTemplates.dataImport defs (exportScopeBefore p defs ts j)
      (p.Index j) i d) :
    e ∈ ValidateInstallationTemplates p defs ts := by
  apply mem_rangeLoop_of_mem _ hj
  simp only [ValidateInstallationTemplates.body, List.mem_append, mem_rangeLoop_unit]
  exact Or.inl (Or.inl (Or.inl ⟨i, d, hi, he⟩))

/-- A violation of a target import of a template is a violation of the scope resolver. -/
theorem validateInstallationTemplates_of_targetImport {p : Path} {defs : List ImportDefinition}
    {ts : List InstallationTemplate} {e : Error} {j i : Nat} {T : InstallationTemplate}
    {t : TargetImport} (hj : ts[j]? = some T) (hi : T.Imports.Targets[i]? = some t)
    (he : e ∈ ValidateInstallationTemplates.targetImport defs (exportScopeBefore p defs ts j)
      (p.Index j) i t) :
    e ∈ ValidateInstallationTemplates p defs ts := by
  apply mem_rangeLoop_of_mem _ hj
  simp only [ValidateInstallationTemplates.body, List.mem_append, mem_rangeLoop_unit]
  exact Or.inl (Or.inl (Or.inr ⟨i, t, hi, he⟩))


/-! ## Target references -/

theorem dropWhile_ne_bracket (l rest : List Char) (h : '[' ∉ l) :
    (l ++ '[' :: rest).dropWhile (fun c => c != '[') = '[' :: rest ∧
      (l ++ '[' :: rest).takeWhile (fun c => c != '[') = l := by
  induction l with
  | nil => simp [List.dropWhile, List.takeWhile]
  | cons c l ih =>
    have hc : c ≠ '[' := fun hc => h (by simp [hc])
    have hl : '[' ∉ l := fun hl => h (List.mem_cons_of_mem _ hl)
    have hb : (c != '[') = true := by simp [hc]
    obtain ⟨i1, i2⟩ := ih hl
    constructor
    · rw [List.cons_append, List.dropWhile_cons, hb]
      simpa using i1
    · rw [List.cons_append, List.takeWhile_cons, hb]
      simpa using i2

/-- A text without `[` is a bare reference. -/
theorem parseTargetReference_bare (r : String) (h : '[' ∉ r.data) :
    parseTargetReference r = ⟨r, SuffixKind.none, ""⟩ := by
  have hd : r.data.dropWhile (fun c => c != '[') = [] := by
    rw [List.dropWhile_eq_nil_iff]
    intro c hc
    have : c ≠ '[' := fun h' => h (h' ▸ hc)
    simp [this]
  simp [parseTargetReference, hd]

/-- The text `name[suffix]` carries the suffix; it is an index exactly when the suffix is a
non-empty string of digits. -/
theorem parseTargetReference_suffix (name sfx : String) (h : '[' ∉ name.data) :
    parseTargetReference (name ++ "[" ++ sfx ++ "]") =
      if sfx.data ≠ [] ∧ sfx.data.all Char.isDigit = true then
        ⟨name, SuffixKind.index, sfx⟩
      else ⟨name, SuffixKind.key, sfx⟩ := by
  have hdata : (name ++ "[" ++ sfx ++ "]").data = name.data ++ '[' :: (sfx.data ++ [']']) := by
    simp [String.data_append]
  obtain ⟨h1, h2⟩ := dropWhile_ne_bracket name.data (sfx.data ++ [']']) h
  simp only [parseTargetReference, hdata, h1, h2, List.getLast?_append, List.getLast?_singleton,
    List.dropLast_concat]
  simp

theorem digitChar_isDigit (d : Nat) : (digitChar d).isDigit = true := by
  unfold digitChar
  split <;> rfl

theorem lsDigits_isDigit (fuel n : Nat) : ∀ c ∈ lsDigits fuel n, c.isDigit = true := by
  induction fuel generalizing n with
  | zero => simp [lsDigits]
  | succ f ih =>
    intro c hc
    unfold lsDigits at hc
    split at hc
    · simp only [List.mem_singleton] at hc
      subst hc
      exact digitChar_isDigit _
    · rcases List.mem_cons.1 hc with rfl | hc
      · exact digitChar_isDigit _
      · exact ih _ c hc

/-- The decimal rendering of an index is a non-empty string of digits. -/
theorem Itoa_digits (n : Nat) : (Itoa n).data ≠ [] ∧ (Itoa n).data.all Char.isDigit = true := by
  constructor
  · simp only [Itoa, ne_eq, List.reverse_eq_nil_iff]
    unfold lsDigits
    split <;> simp
  · simp only [Itoa, List.all_eq_true, List.mem_reverse]
    exact lsDigits_isDigit _ _

/-! ## Satisfaction of imports -/

/-- The check of a target import given by a single reference. -/
theorem targetImport_single (defs : List ImportDefinition) (s : ExportScope) (ip : Path)
    (i : Nat) (t : TargetImport) (h : t.Target ≠ "") :
    ValidateInstallationTemplates.targetImport defs s ip i t =
      if resolvesReference defs s t.Target then []
      else [field.NotFound ((((ip.Child "imports").Child "targets").Index i).Key t.Name)
        (BadValue.str t.Target)] := by
  simp [ValidateInstallationTemplates.targetImport, h]

/-- A violation of a target import sits at the path of the import or, for an entry of an
explicit list, at the index of the entry below it. -/
theorem targetImport_field {defs : List ImportDefinition} {s : ExportScope} {ip : Path}
    {i : Nat} {t : TargetImport} {e : Error}
    (he : e ∈ ValidateInstallationTemplates.targetImport defs s ip i t) :
    e.Field = (((ip.Child "imports").Child "targets").Index i).Key t.Name ∨
      ∃ k, e.Field = ((((ip.Child "imports").Child "targets").Index i).Key t.Name).Index k := by
  unfold ValidateInstallationTemplates.targetImport at he
  simp only at he
  split at he
  · split at he
    · simp at he
    · simp only [List.mem_singleton] at he
      subst he; exact Or.inl rfl
  · split at he
    · obtain ⟨k, x, _, _, hk⟩ := mem_rangeLoop _ he
      simp only [ValidateInstallationTemplates.targetList] at hk
      right
      refine ⟨0 + k, ?_⟩
      split at hk
      · simp only [List.mem_singleton] at hk
        subst hk; rfl
      · split at hk
        · simp at hk
        · simp only [List.mem_singleton] at hk
          subst hk; rfl
    · split at he
      · simp only [List.mem_flatMap] at he
        obtain ⟨kv, _, hk⟩ := he
        split at hk
        · simp at hk
        · simp only [List.mem_singleton] at hk
          subst hk; exact Or.inl rfl
      · split at he
        · split at he
          · simp at he
          · simp only [List.mem_singleton] at he
            subst he; exact Or.inl rfl
        · split at he
          · split at he
            · simp at he
            · simp only [List.mem_singleton] at he
              subst he; exact Or.inl rfl
          · simp at he

/-- A violation of a data import is Forbidden, or it is the NotFound violation at the path of
the import, reported for an import without secret and config-map reference whose `DataRef`
is not in scope. -/
theorem dataImport_cases {defs : List ImportDefinition} {s : ExportScope} {ip : Path}
    {i : Nat} {d : DataImport} {e : Error}
    (he : e ∈ ValidateInstallationTemplates.dataImport defs s ip i d) :
    e.ErrType = ErrorType.Forbidden ∨
      (d.SecretRef = none ∧ d.ConfigMapRef = none ∧ ¬ InScope defs s ImportType.Data d.DataRef ∧
        e = field.NotFound ((((ip.Child "imports").Child "data").Index i).Key d.Name)
          (BadValue.str d.DataRef)) := by
  unfold ValidateInstallationTemplates.dataImport at he
  simp only at he
  split at he
  · left
    simp only [List.mem_append] at he
    rcases he with he | he <;> split at he <;> simp at he <;> subst he <;> rfl
  · rename_i hsc
    split at he
    · simp at he
    · rename_i hin
      simp only [List.mem_singleton] at he
      right
      simp only [Bool.or_eq_true, not_or, Bool.not_eq_true] at hsc
      have h1 : d.SecretRef = none := by
        cases hs : d.SecretRef with
        | none => rfl
        | some v => rw [hs] at hsc; simp at hsc
      have h2 : d.ConfigMapRef = none := by
        cases hs : d.ConfigMapRef with
        | none => rfl
        | some v => rw [hs] at hsc; simp at hsc
      exact ⟨h1, h2, hin, he⟩

/-- A violation of the scope resolver located at the path of a target import comes from
that import. -/
theorem templates_at_targetImport {p : Path} {defs : List ImportDefinition}
    {ts : List InstallationTemplate} {e : Error} {j i : Nat} {T : InstallationTemplate}
    {t : TargetImport} (hj : ts[j]? = some T) (hi : T.Imports.Targets[i]? = some t)
    (he : e ∈ ValidateInstallationTemplates p defs ts)
    (hf : e.Field = ((((p.Index j).Child "imports").Child "targets").Index i).Key t.Name)
    (hne : e.ErrType ≠ ErrorType.Forbidden) :
    e ∈ ValidateInstallationTemplates.targetImport defs (exportScopeBefore p defs ts j)
      (p.Index j) i t := by
  obtain ⟨j', T', hj', hc⟩ := mem_validateInstallationTemplates he
  rcases hc with ⟨i', d, _, hd⟩ | ⟨i', t', hi', ht⟩ | hforb
  · rcases dataImport_cases hd with h | ⟨_, _, _, h⟩
    · exact absurd h hne
    · subst h
      simp [field.NotFound, Path.Index, Path.Child, Path.Key] at hf
  · rcases targetImport_field ht with h | ⟨k, h⟩
    · rw [h] at hf
      simp only [Path.Index, Path.Child, Path.Key, List.cons.injEq, PathElem.index.injEq,
        Itoa_inj, and_true, true_and] at hf
      obtain ⟨_, rfl, rfl⟩ := hf
      rw [hj] at hj'
      cases hj'
      rw [hi] at hi'
      cases hi'
      exact ht
    · rw [h] at hf
      simp [Path.Index, Path.Child, Path.Key] at hf
  · exact absurd hforb hne


/-- Being in scope at the template of index `j`, spelled out: a parent import of the kind,
or an export of the kind by a template with a smaller index. -/
theorem inScope_iff (p : Path) (defs : List ImportDefinition) (ts : List InstallationTemplate)
    (j : Nat) (kind : ImportType) (n : String) :
    InScope defs (exportScopeBefore p defs ts j) kind n ↔
      (∃ d ∈ defs, d.Name = n ∧ d.kind = some kind) ∨
        ∃ j' T', j' < j ∧ ts[j']? = some T' ∧
          ((kind = ImportType.Data ∧ ∃ x ∈ T'.Exports.Data, x.DataRef = n) ∨
            (kind = ImportType.Target ∧ ∃ x ∈ T'.Exports.Targets, x.Target = n)) := by
  unfold InScope
  rw [mem_exportScopeBefore]

/-- C20, as amended.  For the data import at index `i` (name `n`) of the template at index
`j`, `ValidateInstallationTemplates` reports NotFound at `p[j].imports.data[i][n]` if and
only if the import has neither a secret reference nor a config-map reference and its dataRef
is neither the name of a parent import of kind Data nor a dataRef exported by an earlier
sibling. -/
theorem validateInstallationTemplates_data_import (p : Path) (defs : List ImportDefinition)
    (ts : List InstallationTemplate) (j i : Nat) (T : InstallationTemplate) (d : DataImport)
    (hj : ts[j]? = some T) (hi : T.Imports.Data[i]? = some d) :
    (∃ e ∈ ValidateInstallationTemplates p defs ts, e.ErrType = ErrorType.NotFound ∧
        e.Field = ((((p.Index j).Child "imports").Child "data").Index i).Key d.Name) ↔
      (d.SecretRef = none ∧ d.ConfigMapRef = none ∧
        ¬ ((∃ def' ∈ defs, def'.Name = d.DataRef ∧ def'.kind = some ImportType.Data) ∨
          ∃ j' T', j' < j ∧ ts[j']? = some T' ∧ ∃ x ∈ T'.Exports.Data, x.DataRef = d.DataRef)) := by
  have hscope : InScope defs (exportScopeBefore p defs ts j) ImportType.Data d.DataRef ↔
      ((∃ def' ∈ defs, def'.Name = d.DataRef ∧ def'.kind = some ImportType.Data) ∨
        ∃ j' T', j' < j ∧ ts[j']? = some T' ∧ ∃ x ∈ T'.Exports.Data, x.DataRef = d.DataRef) := by
    rw [inScope_iff]
    simp
  constructor
  · rintro ⟨e, he, hty, hf⟩
    obtain ⟨j', T', hj', hc⟩ := mem_validateInstallationTemplates he
    rcases hc with ⟨i', d', hi', hd⟩ | ⟨i', t', _, ht⟩ | hforb
    · rcases dataImport_cases hd with h | ⟨h1, h2, h3, h4⟩
      · rw [hty] at h; cases h
      · subst h4
        simp only [field.NotFound, Path.Index, Path.Child, Path.Key, List.cons.injEq,
          PathElem.index.injEq, Itoa_inj, and_true, true_and] at hf
        obtain ⟨_, rfl, rfl⟩ := hf
        rw [hj] at hj'
        cases hj'
        rw [hi] at hi'
        cases hi'
        exact ⟨h1, h2, fun h => h3 (hscope.2 h)⟩
    · rcases targetImport_field ht with h | ⟨k, h⟩ <;>
        · rw [h] at hf
          simp [Path.Index, Path.Child, Path.Key] at hf
    · rw [hty] at hforb; cases hforb
  · rintro ⟨h1, h2, h3⟩
    refine ⟨field.NotFound (((((p.Index j).Child "imports").Child "data").Index i).Key d.Name)
      (BadValue.str d.DataRef), ?_, rfl, rfl⟩
    apply validateInstallationTemplates_of_dataImport hj hi
    have h3' : ¬ InScope defs (exportScopeBefore p defs ts j) ImportType.Data d.DataRef :=
      fun h => h3 (hscope.1 h)
    simp [ValidateInstallationTemplates.dataImport, h1, h2, h3']

/-- Witness for C20 as amended: the unsatisfied data import of the test suite. -/
theorem validateInstallationTemplates_data_import_witness :
    ∃ e ∈ ValidateInstallationTemplates [PathElem.name "b"] []
        [testTemplate "" ⟨[⟨"myimport", "myimportref", "", none, none⟩], []⟩ ⟨[], []⟩],
      e.ErrType = ErrorType.NotFound ∧
        e.Field = Path.Key (Path.Index (Path.Child (Path.Child
          (Path.Index [PathElem.name "b"] 0) "imports") "data") 0) "myimport" :=
  (validateInstallationTemplates_data_import [PathElem.name "b"] []
    [testTemplate "" ⟨[⟨"myimport", "myimportref", "", none, none⟩], []⟩ ⟨[], []⟩] 0 0
    (testTemplate "" ⟨[⟨"myimport", "myimportref", "", none, none⟩], []⟩ ⟨[], []⟩)
    ⟨"myimport", "myimportref", "", none, none⟩ rfl rfl).2
    ⟨rfl, rfl, by simp⟩

/-- Counterexample to C20 as stated: a data import sourced by a secret reference, with a
dataRef `r` that nothing in scope provides, gets the Forbidden violation at
`b[0].imports.data[0].secretRef` and no NotFound violation. -/
theorem validateInstallationTemplates_data_import_counterexample :
    ValidateInstallationTemplates [PathElem.name "b"] []
        [testTemplate "" ⟨[⟨"myimport", "r", "", some ⟨"mysecret", ""⟩, none⟩], []⟩ ⟨[], []⟩] =
      [field.Forbidden [PathElem.name "secretRef", PathElem.index "0", PathElem.name "data",
        PathElem.name "imports", PathElem.index "0", PathElem.name "b"] ""] ∧
    ¬ ∃ e ∈ ValidateInstallationTemplates [PathElem.name "b"] []
        [testTemplate "" ⟨[⟨"myimport", "r", "", some ⟨"mysecret", ""⟩, none⟩], []⟩ ⟨[], []⟩],
      e.ErrType = ErrorType.NotFound := by
  decide


/-- A bare reference resolves exactly when its text is in scope with kind Target. -/
theorem resolvesReference_bare (defs : List ImportDefinition) (s : ExportScope) (r : String)
    (h : '[' ∉ r.data) :
    resolvesReference defs s r = decide (InScope defs s ImportType.Target r) := by
  simp [resolvesReference, parseTargetReference_bare r h]

/-- An unresolved bare reference of a target import is reported NotFound at the import,
whatever the template itself and the templates after it export. -/
theorem templates_bare_notFound {p : Path} {defs : List ImportDefinition}
    {ts : List InstallationTemplate} {j i : Nat} {T : InstallationTemplate} {t : TargetImport}
    (hj : ts[j]? = some T) (hi : T.Imports.Targets[i]? = some t)
    (hne : t.Target ≠ "") (hbare : '[' ∉ t.Target.data)
    (hpar : ∀ d ∈ defs, d.Name = t.Target → d.kind ≠ some ImportType.Target)
    (hsib : ∀ j' T', j' < j → ts[j']? = some T' → ∀ x ∈ T'.Exports.Targets, x.Target ≠ t.Target) :
    field.NotFound (((((p.Index j).Child "imports").Child "targets").Index i).Key t.Name)
        (BadValue.str t.Target) ∈ ValidateInstallationTemplates p defs ts := by
  apply validateInstallationTemplates_of_targetImport hj hi
  have hns : ¬ InScope defs (exportScopeBefore p defs ts j) ImportType.Target t.Target := by
    rw [inScope_iff]
    rintro (⟨d, hd, h1, h2⟩ | ⟨j', T', hlt, hget, h⟩)
    · exact hpar d hd h1 h2
    · rcases h with ⟨h, _⟩ | ⟨_, x, hx, h⟩
      · cases h
      · exact hsib j' T' hlt hget x hx h
  rw [targetImport_single _ _ _ _ _ hne, resolvesReference_bare _ _ _ hbare]
  simp [hns]

/-- A resolved single reference of a target import leaves no violation at the import. -/
theorem templates_resolved_no_violation {p : Path} {defs : List ImportDefinition}
    {ts : List InstallationTemplate} {j i : Nat} {T : InstallationTemplate} {t : TargetImport}
    (hj : ts[j]? = some T) (hi : T.Imports.Targets[i]? = some t) (hne : t.Target ≠ "")
    (hres : resolvesReference defs (exportScopeBefore p defs ts j) t.Target = true) :
    ∀ e ∈ ValidateInstallationTemplates p defs ts,
      e.Field ≠ ((((p.Index j).Child "imports").Child "targets").Index i).Key t.Name := by
  intro e he hf
  by_cases hforb : e.ErrType = ErrorType.Forbidden
  · -- a Forbidden violation sits below `exports` or at a secret or config-map reference
    obtain ⟨k, x, hk, hb⟩ := mem_rangeLoop_state _ he
    simp only [ValidateInstallationTemplates.body, List.mem_append, Nat.zero_add,
      mem_rangeLoop_unit] at hb
    rcases hb with ((⟨i', d, _, hd⟩ | ⟨i', t', _, ht⟩) | hx) | hx
    · unfold ValidateInstallationTemplates.dataImport at hd
      simp only at hd
      split at hd
      · simp only [List.mem_append] at hd
        rcases hd with hd | hd <;> split at hd <;> simp at hd <;> subst hd <;>
          simp [field.Forbidden, Path.Index, Path.Child, Path.Key] at hf
      · split at hd
        · simp at hd
        · simp only [List.mem_singleton] at hd
          subst hd
          cases hforb
    · rcases targetImport_field ht with h | ⟨k', h⟩
      · rw [h] at hf
        simp only [Path.Index, Path.Child, Path.Key, List.cons.injEq, PathElem.index.injEq,
          Itoa_inj, and_true, true_and] at hf
        obtain ⟨_, rfl, rfl⟩ := hf
        rw [hj] at hk
        cases hk
        rename_i hi'
        rw [hi] at hi'
        cases hi'
        rw [targetImport_single _ _ _ _ _ hne] at ht
        simp only [exportScopeBefore] at hres
        simp [hres] at ht
      · rw [h] at hf
        simp [Path.Index, Path.Child, Path.Key] at hf
    · obtain ⟨k', y, _, _, hy⟩ := mem_rangeLoop _ hx
      simp only [ValidateInstallationTemplates.dataExport] at hy
      split at hy <;> simp at hy
      subst hy
      simp [field.Forbidden, Path.Index, Path.Child, Path.Key] at hf
    · obtain ⟨k', y, _, _, hy⟩ := mem_rangeLoop _ hx
      simp only [ValidateInstallationTemplates.targetExport] at hy
      split at hy <;> simp at hy
      subst hy
      simp [field.Forbidden, Path.Index, Path.Child, Path.Key] at hf
  · have h := templates_at_targetImport hj hi he hf hforb
    rw [targetImport_single _ _ _ _ _ hne, hres] at h
    simp at h


/-- C17.  Import satisfaction is order sensitive.  Let `S1` export the target `e` and let the
target import at index `i` of `S2` be the bare reference `e`, with no parent import named
`e`.  On `[S1, S2]` no violation is reported at the import; on `[S2, S1]` NotFound is reported
at it; and in general NotFound is reported whenever no earlier sibling exports `e`, whatever
the template itself and the later siblings export. -/
theorem validateInstallationTemplates_order_sensitive (p : Path) (defs : List ImportDefinition)
    (S1 S2 : InstallationTemplate) (i : Nat) (t : TargetImport)
    (hexp : ∃ x ∈ S1.Exports.Targets, x.Target = t.Target)
    (himp : S2.Imports.Targets[i]? = some t) (hne : t.Target ≠ "")
    (hbare : '[' ∉ t.Target.data) (hpar : ∀ d ∈ defs, d.Name ≠ t.Target) :
    (∀ e ∈ ValidateInstallationTemplates p defs [S1, S2],
      e.Field ≠ ((((p.Index 1).Child "imports").Child "targets").Index i).Key t.Name) ∧
    field.NotFound (((((p.Index 0).Child "imports").Child "targets").Index i).Key t.Name)
        (BadValue.str t.Target) ∈ ValidateInstallationTemplates p defs [S2, S1] ∧
    (∀ pre post : List InstallationTemplate,
      (∀ T' ∈ pre, ∀ x ∈ T'.Exports.Targets, x.Target ≠ t.Target) →
      field.NotFound
          (((((p.Index pre.length).Child "imports").Child "targets").Index i).Key t.Name)
          (BadValue.str t.Target) ∈ ValidateInstallationTemplates p defs (pre ++ S2 :: post)) := by
  have hgen : ∀ pre post : List InstallationTemplate,
      (∀ T' ∈ pre, ∀ x ∈ T'.Exports.Targets, x.Target ≠ t.Target) →
      field.NotFound
          (((((p.Index pre.length).Child "imports").Child "targets").Index i).Key t.Name)
          (BadValue.str t.Target) ∈ ValidateInstallationTemplates p defs (pre ++ S2 :: post) := by
    intro pre post hpre
    have hget : (pre ++ S2 :: post)[pre.length]? = some S2 := by
      rw [List.getElem?_append_right (Nat.le_refl _)]; simp
    apply templates_bare_notFound hget himp hne hbare
    · exact fun d hd h _ => hpar d hd h
    · intro j' T' hlt hj' x hx
      rw [List.getElem?_append_left hlt] at hj'
      exact hpre T' (List.getElem?_mem hj') x hx
  refine ⟨?_, ?_, hgen⟩
  · have hget : [S1, S2][1]? = some S2 := rfl
    apply templates_resolved_no_violation hget himp hne
    rw [resolvesReference_bare _ _ _ hbare, decide_eq_true_eq, inScope_iff]
    right
    obtain ⟨x, hx, h⟩ := hexp
    exact ⟨0, S1, by decide, rfl, Or.inr ⟨rfl, x, hx, h⟩⟩
  · have := hgen [] [S1] (by simp)
    simpa using this

/-- Witness for C17: `S1` exports the target `e`, `S2` imports it. -/
theorem validateInstallationTemplates_order_sensitive_witness :
    (∀ e ∈ ValidateInstallationTemplates [PathElem.name "b"] []
        [testTemplate "s1" ⟨[], []⟩ ⟨[], [⟨"myexport", "e"⟩]⟩,
         testTemplate "s2" ⟨[], [⟨"myimport", "e", none, none, "", ""⟩]⟩ ⟨[], []⟩],
      e.Field ≠ Path.Key (Path.Index (Path.Child (Path.Child
        (Path.Index [PathElem.name "b"] 1) "imports") "targets") 0) "myimport") ∧
    field.NotFound (Path.Key (Path.Index (Path.Child (Path.Child
        (Path.Index [PathElem.name "b"] 0) "imports") "targets") 0) "myimport")
        (BadValue.str "e") ∈
      ValidateInstallationTemplates [PathElem.name "b"] []
        [testTemplate "s2" ⟨[], [⟨"myimport", "e", none, none, "", ""⟩]⟩ ⟨[], []⟩,
         testTemplate "s1" ⟨[], []⟩ ⟨[], [⟨"myexport", "e"⟩]⟩] :=
  have h := validateInstallationTemplates_order_sensitive [PathElem.name "b"] []
    (testTemplate "s1" ⟨[], []⟩ ⟨[], [⟨"myexport", "e"⟩]⟩)
    (testTemplate "s2" ⟨[], [⟨"myimport", "e", none, none, "", ""⟩]⟩ ⟨[], []⟩)
    0 ⟨"myimport", "e", none, none, "", ""⟩
    ⟨⟨"myexport", "e"⟩, by simp [testTemplate], rfl⟩ rfl (by decide) (by decide) (by simp)
  ⟨h.1, h.2.1⟩

/-- C18.  Kind mismatch is rejected.  When the target import at index `i` (name `n`) of the
template at index `j` is a bare reference to a parent import of kind TargetList or TargetMap,
and neither a parent import of kind Target nor a target export of an earlier sibling has that
name, NotFound is reported at `p[j].imports.targets[i][n]`. -/
theorem validateInstallationTemplates_kind_mismatch (p : Path) (defs : List ImportDefinition)
    (ts : List InstallationTemplate) (j i : Nat) (T : InstallationTemplate) (t : TargetImport)
    (hj : ts[j]? = some T) (hi : T.Imports.Targets[i]? = some t)
    (hne : t.Target ≠ "") (hbare : '[' ∉ t.Target.data)
    (_hcoll : ∃ d ∈ defs, d.Name = t.Target ∧
      (d.kind = some ImportType.TargetList ∨ d.kind = some ImportType.TargetMap))
    (hpar : ∀ d ∈ defs, d.Name = t.Target → d.kind ≠ some ImportType.Target)
    (hsib : ∀ j' T', j' < j → ts[j']? = some T' → ∀ x ∈ T'.Exports.Targets, x.Target ≠ t.Target) :
    field.NotFound (((((p.Index j).Child "imports").Child "targets").Index i).Key t.Name)
        (BadValue.str t.Target) ∈ ValidateInstallationTemplates p defs ts :=
  templates_bare_notFound hj hi hne hbare hpar hsib

/-- Witness for C18: scenario 3 of the spec, the bare reference `myimportref` to a
parent import of kind TargetList. -/
theorem validateInstallationTemplates_kind_mismatch_witness :
    field.NotFound (Path.Key (Path.Index (Path.Child (Path.Child
        (Path.Index [PathElem.name "b"] 0) "imports") "targets") 0) "myimport")
        (BadValue.str "myimportref") ∈
      ValidateInstallationTemplates [PathElem.name "b"]
        [ImportDefinition.mk "myimportref" none "mytype" (some ImportType.TargetList) none []]
        [testTemplate "" ⟨[], [⟨"myimport", "myimportref", none, none, "", ""⟩]⟩ ⟨[], []⟩] :=
  validateInstallationTemplates_kind_mismatch [PathElem.name "b"]
    [ImportDefinition.mk "myimportref" none "mytype" (some ImportType.TargetList) none []]
    [testTemplate "" ⟨[], [⟨"myimport", "myimportref", none, none, "", ""⟩]⟩ ⟨[], []⟩] 0 0
    (testTemplate "" ⟨[], [⟨"myimport", "myimportref", none, none, "", ""⟩]⟩ ⟨[], []⟩)
    ⟨"myimport", "myimportref", none, none, "", ""⟩ rfl rfl (by decide) (by decide)
    ⟨_, List.mem_singleton_self _, rfl, Or.inl rfl⟩
    (by intro d hd _; rw [List.mem_singleton.1 hd]; decide)
    (by intro j' T' hlt; omega)


/-- A reference of the form `name[suffix]` is not the empty text. -/
theorem suffixed_ne_empty (name sfx : String) : name ++ "[" ++ sfx ++ "]" ≠ "" := by
  intro h
  have := congrArg String.data h
  simp [String.data_append] at this

/-- C19.  Suffixed target references resolve against collections.  Let the target import at
index `i` of the template at index `j` be the single reference `name[suffix]`.  When the
suffix is the decimal rendering of an index and `name` is in scope with kind TargetList (a
parent import of that kind, or an export of that kind by an earlier sibling), no violation is
reported at the import; likewise when the suffix is a map key (not a non-empty string of
digits) and `name` is in scope with kind TargetMap. -/
theorem validateInstallationTemplates_suffixed (p : Path) (defs : List ImportDefinition)
    (ts : List InstallationTemplate) (j i : Nat) (T : InstallationTemplate) (t : TargetImport)
    (name : String) (hj : ts[j]? = some T) (hi : T.Imports.Targets[i]? = some t)
    (hname : '[' ∉ name.data) :
    (∀ n : Nat, t.Target = name ++ "[" ++ Itoa n ++ "]" →
      InScope defs (exportScopeBefore p defs ts j) ImportType.TargetList name →
      ∀ e ∈ ValidateInstallationTemplates p defs ts,
        e.Field ≠ ((((p.Index j).Child "imports").Child "targets").Index i).Key t.Name) ∧
    (∀ key : String, ¬ (key.data ≠ [] ∧ key.data.all Char.isDigit = true) →
      t.Target = name ++ "[" ++ key ++ "]" →
      InScope defs (exportScopeBefore p defs ts j) ImportType.TargetMap name →
      ∀ e ∈ ValidateInstallationTemplates p defs ts,
        e.Field ≠ ((((p.Index j).Child "imports").Child "targets").Index i).Key t.Name) := by
  constructor
  · intro n ht hin
    apply templates_resolved_no_violation hj hi (by rw [ht]; exact suffixed_ne_empty _ _)
    rw [ht]
    simp only [resolvesReference, parseTargetReference_suffix name (Itoa n) hname,
      if_pos (Itoa_digits n)]
    simpa using hin
  · intro key hkey ht hin
    apply templates_resolved_no_violation hj hi (by rw [ht]; exact suffixed_ne_empty _ _)
    rw [ht]
    simp only [resolvesReference, parseTargetReference_suffix name key hname, if_neg hkey]
    simpa using hin

/-- Witness for C19: the test reference `myimportref[1]` against a parent import of kind
TargetList. -/
theorem validateInstallationTemplates_suffixed_witness :
    ¬ ∃ e ∈ ValidateInstallationTemplates [PathElem.name "b"]
        [ImportDefinition.mk "myimportref" none "mytype" (some ImportType.TargetList) none []]
        [testTemplate "my-inst" ⟨[], [⟨"myimport", "myimportref[1]", none, none, "", ""⟩]⟩
          ⟨[], []⟩],
      e.Field = Path.Key (Path.Index (Path.Child (Path.Child
        (Path.Index [PathElem.name "b"] 0) "imports") "targets") 0) "myimport" :=
  fun ⟨e, he, hf⟩ =>
    (validateInstallationTemplates_suffixed [PathElem.name "b"]
      [ImportDefinition.mk "myimportref" none "mytype" (some ImportType.TargetList) none []]
      [testTemplate "my-inst" ⟨[], [⟨"myimport", "myimportref[1]", none, none, "", ""⟩]⟩
        ⟨[], []⟩]
      0 0
      (testTemplate "my-inst" ⟨[], [⟨"myimport", "myimportref[1]", none, none, "", ""⟩]⟩
        ⟨[], []⟩)
      ⟨"myimport", "myimportref[1]", none, none, "", ""⟩ "myimportref" rfl rfl (by decide)).1 1
      (by decide) (Or.inl ⟨_, List.mem_singleton_self _, rfl, rfl⟩) e he hf

/-! ## Duplicate exports -/

/-- The Duplicate violations of a loop that flags an element exactly when its non-empty name
is among the names seen so far, and records the non-empty names. -/
theorem rangeLoop_duplicate_iff {α : Type}
    (body : Nat → α → Finset String → ErrorList × Finset String) (name : α → String) (p : Path)
    (hn : ∀ idx x s, (body idx x s).2 = if name x = "" then s else insert (name x) s)
    (hd : ∀ idx x s e, (e ∈ (body idx x s).1 ∧ e.ErrType = ErrorType.Duplicate) ↔
      (e = field.Duplicate (p.Index idx) (BadValue.str (name x)) ∧ name x ≠ "" ∧ name x ∈ s))
    (xs : List α) (i : Nat) (x : α) (hi : xs[i]? = some x) (e : Error) :
    (e ∈ (rangeLoop body xs 0 ∅).1 ∧ e.ErrType = ErrorType.Duplicate ∧ e.Field = p.Index i) ↔
      (e = field.Duplicate (p.Index i) (BadValue.str (name x)) ∧ name x ≠ "" ∧
        ∃ k y, k < i ∧ xs[k]? = some y ∧ name y = name x) := by
  have hstate : name x ∈ (rangeLoop body (xs.take i) 0 ∅).2 ↔
      (name x ≠ "" ∧ ∃ k y, k < i ∧ xs[k]? = some y ∧ name y = name x) := by
    rw [rangeLoop_names_nonempty body name hn]
    simp only [Finset.empty_union, List.mem_toFinset, List.mem_filter, List.mem_map,
      decide_eq_true_eq]
    constructor
    · rintro ⟨⟨y, hy, hxy⟩, hne⟩
      refine ⟨hne, ?_⟩
      obtain ⟨k, hk, rfl⟩ := List.getElem_of_mem hy
      rw [List.length_take] at hk
      refine ⟨k, xs[k], by omega, List.getElem?_eq_getElem (by omega), ?_⟩
      rw [← hxy, List.getElem_take]
    · rintro ⟨hne, k, y, hk, hky, hxy⟩
      refine ⟨⟨y, ?_, hxy⟩, hne⟩
      have hlen : k < xs.length := by
        rcases Nat.lt_or_ge k xs.length with h1 | h1
        · exact h1
        · rw [List.getElem?_eq_none h1] at hky; cases hky
      rw [List.getElem?_eq_getElem hlen] at hky
      cases hky
      exact List.mem_iff_getElem.2 ⟨k, by rw [List.length_take]; omega, by
        rw [List.getElem_take]⟩
  constructor
  · rintro ⟨he, ht, hf⟩
    obtain ⟨k, y, hk, hek⟩ := mem_rangeLoop_state _ he
    rw [Nat.zero_add] at hek
    obtain ⟨h1, h2, h3⟩ := (hd _ _ _ _).1 ⟨hek, ht⟩
    have hki : k = i := by
      rw [h1] at hf
      simpa [field.Duplicate, Path.Index] using hf
    subst hki
    rw [hi] at hk
    cases hk
    exact ⟨h1, (hstate.1 h3)⟩
  · rintro ⟨h1, h2, h3⟩
    have hmem := (hd i x (rangeLoop body (xs.take i) 0 ∅).2 e).2 ⟨h1, h2, hstate.2 ⟨h2, h3⟩⟩
    refine ⟨mem_rangeLoop_of_mem _ hi ∅ hmem.1, hmem.2, ?_⟩
    rw [h1]; rfl

/-- The Duplicate violations at `p[i]` of the two export loops. -/
theorem exports_duplicate_cases (p : Path) (i : Nat) (e : Error) :
    (∀ (exports : List DataExport) (imp : DataExport), exports[i]? = some imp →
      ((e ∈ ValidateInstallationDataExports exports p ∧ e.ErrType = ErrorType.Duplicate ∧
          e.Field = p.Index i) ↔
        (e = field.Duplicate (p.Index i) (BadValue.str imp.Name) ∧ imp.Name ≠ "" ∧
          ∃ k imp', k < i ∧ exports[k]? = some imp' ∧ imp'.Name = imp.Name))) ∧
    (∀ (exports : List TargetExport) (imp : TargetExport), exports[i]? = some imp →
      ((e ∈ ValidateInstallationTargetExports exports p ∧ e.ErrType = ErrorType.Duplicate ∧
          e.Field = p.Index i) ↔
        (e = field.Duplicate (p.Index i) (BadValue.str imp.Name) ∧ imp.Name ≠ "" ∧
          ∃ k imp', k < i ∧ exports[k]? = some imp' ∧ imp'.Name = imp.Name))) := by
  constructor
  · intro exports imp hi
    refine rangeLoop_duplicate_iff _ (fun d : DataExport => d.Name) p ?_ ?_ exports i imp hi e
    · intro idx x s
      unfold ValidateInstallationDataExports.body
      by_cases h2 : x.Name = "" <;> simp [h2]
    · intro idx x s e
      obtain ⟨n, r⟩ := x
      unfold ValidateInstallationDataExports.body
      by_cases h1 : r = "" <;> by_cases h2 : n = "" <;> by_cases h3 : n ∈ s <;>
        simp only [h1, h2, h3, if_true, if_false, List.nil_append, List.mem_append,
          List.mem_singleton, List.not_mem_nil, field.Required, field.Duplicate, ne_eq,
          not_true_eq_false, not_false_eq_true, false_and, and_false, and_true, true_and,
          List.singleton_append, List.mem_cons, or_false, false_or] <;>
        constructor <;> (try rintro ⟨rfl | rfl, h⟩) <;> simp_all
  · intro exports imp hi
    refine rangeLoop_duplicate_iff _ (fun d : TargetExport => d.Name) p ?_ ?_ exports i imp hi e
    · intro idx x s
      unfold ValidateInstallationTargetExports.body
      by_cases h2 : x.Name = "" <;> simp [h2]
    · intro idx x s e
      obtain ⟨n, r⟩ := x
      unfold ValidateInstallationTargetExports.body
      by_cases h1 : r = "" <;> by_cases h2 : n = "" <;> by_cases h3 : n ∈ s <;>
        simp only [h1, h2, h3, if_true, if_false, List.nil_append, List.mem_append,
          List.mem_singleton, List.not_mem_nil, field.Required, field.Duplicate, ne_eq,
          not_true_eq_false, not_false_eq_true, false_and, and_false, and_true, true_and,
          List.singleton_append, List.mem_cons, or_false, false_or] <;>
        constructor <;> (try rintro ⟨rfl | rfl, h⟩) <;> simp_all


/-- C29. In `ValidateInstallationDataExports`, and likewise in
`ValidateInstallationTargetExports`, the export at index `i` gets a Duplicate violation at
`p[i]` if and only if its name is non-empty and equals the name of an export with a smaller
index of the same list; that violation carries the name as bad value.  Hence the first
occurrence of a name and the exports without a name are never flagged as Duplicate. -/
theorem validateInstallationExports_duplicate_iff (p : Path) (i : Nat) :
    (∀ (exports : List DataExport) (imp : DataExport), exports[i]? = some imp →
      (((∃ e ∈ ValidateInstallationDataExports exports p,
            e.ErrType = ErrorType.Duplicate ∧ e.Field = p.Index i) ↔
          (imp.Name ≠ "" ∧
            ∃ k imp', k < i ∧ exports[k]? = some imp' ∧ imp'.Name = imp.Name)) ∧
        ∀ e ∈ ValidateInstallationDataExports exports p,
          e.ErrType = ErrorType.Duplicate → e.Field = p.Index i →
            e = field.Duplicate (p.Index i) (BadValue.str imp.Name))) ∧
    (∀ (exports : List TargetExport) (imp : TargetExport), exports[i]? = some imp →
      (((∃ e ∈ ValidateInstallationTargetExports exports p,
            e.ErrType = ErrorType.Duplicate ∧ e.Field = p.Index i) ↔
          (imp.Name ≠ "" ∧
            ∃ k imp', k < i ∧ exports[k]? = some imp' ∧ imp'.Name = imp.Name)) ∧
        ∀ e ∈ ValidateInstallationTargetExports exports p,
          e.ErrType = ErrorType.Duplicate → e.Field = p.Index i →
            e = field.Duplicate (p.Index i) (BadValue.str imp.Name))) := by
  constructor
  · intro exports imp hi
    refine ⟨⟨?_, ?_⟩, ?_⟩
    · rintro ⟨e, he, ht, hf⟩
      exact (((exports_duplicate_cases p i e).1 exports imp hi).1 ⟨he, ht, hf⟩).2
    · intro h
      exact ⟨_, ((exports_duplicate_cases p i _).1 exports imp hi).2 ⟨rfl, h⟩⟩
    · intro e he ht hf
      exact (((exports_duplicate_cases p i e).1 exports imp hi).1 ⟨he, ht, hf⟩).1
  · intro exports imp hi
    refine ⟨⟨?_, ?_⟩, ?_⟩
    · rintro ⟨e, he, ht, hf⟩
      exact (((exports_duplicate_cases p i e).2 exports imp hi).1 ⟨he, ht, hf⟩).2
    · intro h
      exact ⟨_, ((exports_duplicate_cases p i _).2 exports imp hi).2 ⟨rfl, h⟩⟩
    · intro e he ht hf
      exact (((exports_duplicate_cases p i e).2 exports imp hi).1 ⟨he, ht, hf⟩).1

/-- Witness for C29: of two data exports named `a` the second is flagged at `data[1]`. -/
theorem validateInstallationExports_duplicate_iff_witness :
    ∃ e ∈ ValidateInstallationDataExports [⟨"a", "r"⟩, ⟨"a", "s"⟩] [PathElem.name "data"],
      e.ErrType = ErrorType.Duplicate ∧ e.Field = Path.Index [PathElem.name "data"] 1 :=
  (((validateInstallationExports_duplicate_iff [PathElem.name "data"] 1).1
    [⟨"a", "r"⟩, ⟨"a", "s"⟩] ⟨"a", "s"⟩ rfl).1).2
    ⟨by decide, 0, ⟨"a", "r"⟩, by decide, rfl, rfl⟩

/-! ## Object references -/

/-- The loop from index `idx` on without state is the concatenation over the enumeration. -/
theorem rangeLoop_unit_eq_flatMap {α : Type} (f : Nat → α → ErrorList) (xs : List α) (idx : Nat) :
    (rangeLoop (fun i x (_ : Unit) => (f i x, ())) xs idx ()).1 =
      (xs.enumFrom idx).flatMap (fun ix => f ix.1 ix.2) := by
  induction xs generalizing idx with
  | nil => simp [rangeLoop]
  | cons x xs ih => simp [rangeLoop, List.enumFrom_cons, ih]

/-- C30. `ValidateObjectReferenceList` validates every reference at its own index: the
result is the concatenation, for the indices in order, of a Required violation at
`p[i].name` when the name is empty followed by a Required violation at `p[i].namespace`
when the namespace is empty.  It is empty if and only if every reference has a non-empty
name and a non-empty namespace. -/
theorem validateObjectReferenceList_concat (orl : List ObjectReference) (p : Path) :
    ValidateObjectReferenceList orl p =
        orl.enum.flatMap (fun ie =>
          (if ie.2.Name = "" then
            [field.Required ((p.Index ie.1).Child "name") "name must not be empty"] else []) ++
          (if ie.2.Namespace = "" then
            [field.Required ((p.Index ie.1).Child "namespace") "namespace must not be empty"]
           else [])) ∧
      (ValidateObjectReferenceList orl p = [] ↔
        ∀ e ∈ orl, e.Name ≠ "" ∧ e.Namespace ≠ "") := by
  have h : ValidateObjectReferenceList orl p =
        orl.enum.flatMap (fun ie =>
          (if ie.2.Name = "" then
            [field.Required ((p.Index ie.1).Child "name") "name must not be empty"] else []) ++
          (if ie.2.Namespace = "" then
            [field.Required ((p.Index ie.1).Child "namespace") "namespace must not be empty"]
           else [])) := by
    unfold ValidateObjectReferenceList
    rw [rangeLoop_unit_eq_flatMap (fun i e => ValidateObjectReference e (p.Index i))]
    unfold List.enum
    congr 1
    funext ie
    unfold ValidateObjectReference
    by_cases h1 : ie.2.Name = "" <;> by_cases h2 : ie.2.Namespace = "" <;> simp [h1, h2]
  refine ⟨h, ?_⟩
  rw [h]
  simp only [List.flatMap_eq_nil_iff, List.append_eq_nil, ite_eq_right_iff, List.cons_ne_nil,
    imp_false, Prod.forall]
  constructor
  · intro hall e he
    obtain ⟨i, hi, rfl⟩ := List.getElem_of_mem he
    exact hall i orl[i] (by
      rw [List.mk_mem_enum_iff_getElem?]; exact List.getElem?_eq_getElem hi)
  · intro hall i e hie
    exact hall e (List.snd_mem_of_mem_enumFrom (x := (i, e)) (by simpa [List.enum] using hie))

/-! ## Export collisions -/

/-- The data exports of a template only add to the export scope. -/
theorem dataExport_scope_mono (defs : List ImportDefinition) (ip : Path)
    (xs : List DataExport) (i0 : Nat) (s : ExportScope) (a : ImportType × String)
    (h : a ∈ s) :
    a ∈ (rangeLoop (ValidateInstallationTemplates.dataExport defs ip) xs i0 s).2 :=
  (rangeLoop_state_mem _ (fun (x : DataExport) a => a = (ImportType.Data, x.DataRef))
    (fun idx x s a => by simp [ValidateInstallationTemplates.dataExport]) xs i0 s a).2
    (Or.inr h)

/-- The target exports of a template only add to the export scope. -/
theorem targetExport_scope_mono (defs : List ImportDefinition) (ip : Path)
    (xs : List TargetExport) (i0 : Nat) (s : ExportScope) (a : ImportType × String)
    (h : a ∈ s) :
    a ∈ (rangeLoop (ValidateInstallationTemplates.targetExport defs ip) xs i0 s).2 :=
  (rangeLoop_state_mem _ (fun (x : TargetExport) a => a = (ImportType.Target, x.Target))
    (fun idx x s a => by simp [ValidateInstallationTemplates.targetExport]) xs i0 s a).2
    (Or.inr h)

/-- C21, amended. Export collisions are forbidden within a kind.  For the template at index
`j`, a data export at index `i` with name `n` and dataRef `r`, where `r` is in scope as data
(it is the name of a parent import of kind Data, or the dataRef of a data export of a
template with a smaller index), yields a Forbidden violation at
`p[j].exports.data[i][n/r]`; and a target export with name `n` and target `r`, where `r` is
in scope as a target (it is the name of a parent import of kind Target, or the target of a
target export of a template with a smaller index), yields a Forbidden violation at
`p[j].exports.targets[i][n/r]`. -/
theorem validateInstallationTemplates_export_collision (p : Path)
    (defs : List ImportDefinition) (ts : List InstallationTemplate) (j i : Nat)
    (T : InstallationTemplate) (hj : ts[j]? = some T) :
    (∀ exp : DataExport, T.Exports.Data[i]? = some exp →
      ((∃ d ∈ defs, d.Name = exp.DataRef ∧ d.kind = some ImportType.Data) ∨
        (∃ j' T', j' < j ∧ ts[j']? = some T' ∧
          ∃ x ∈ T'.Exports.Data, x.DataRef = exp.DataRef)) →
      ∃ e ∈ ValidateInstallationTemplates p defs ts,
        e.ErrType = ErrorType.Forbidden ∧
        e.Field = Path.Key (Path.Index (Path.Child (Path.Child (Path.Index p j) "exports")
          "data") i) (exp.Name ++ "/" ++ exp.DataRef)) ∧
    (∀ exp : TargetExport, T.Exports.Targets[i]? = some exp →
      ((∃ d ∈ defs, d.Name = exp.Target ∧ d.kind = some ImportType.Target) ∨
        (∃ j' T', j' < j ∧ ts[j']? = some T' ∧
          ∃ x ∈ T'.Exports.Targets, x.Target = exp.Target)) →
      ∃ e ∈ ValidateInstallationTemplates p defs ts,
        e.ErrType = ErrorType.Forbidden ∧
        e.Field = Path.Key (Path.Index (Path.Child (Path.Child (Path.Index p j) "exports")
          "targets") i) (exp.Name ++ "/" ++ exp.Target)) := by
  constructor
  · intro exp hi hscope
    refine ⟨field.Forbidden (Path.Key (Path.Index (Path.Child (Path.Child (Path.Index p j)
      "exports") "data") i) (exp.Name ++ "/" ++ exp.DataRef)) "", ?_, rfl, rfl⟩
    apply mem_rangeLoop_of_mem _ hj
    simp only [ValidateInstallationTemplates.body, List.mem_append]
    refine Or.inl (Or.inr (mem_rangeLoop_of_mem _ hi _ ?_))
    have hin : InScope defs
        (rangeLoop (ValidateInstallationTemplates.dataExport defs (p.Index j))
          (T.Exports.Data.take i) 0
          (rangeLoop (ValidateInstallationTemplates.body p defs) (ts.take j) 0 []).2).2
        ImportType.Data exp.DataRef := by
      rcases hscope with h | ⟨j', T', hlt, hT', hx⟩
      · exact Or.inl h
      · refine Or.inr (dataExport_scope_mono _ _ _ _ _ _ ?_)
        exact (mem_exportScopeBefore p defs ts j ImportType.Data exp.DataRef).2
          ⟨j', T', hlt, hT', Or.inl ⟨rfl, hx⟩⟩
    simp [ValidateInstallationTemplates.dataExport, hin]
  · intro exp hi hscope
    refine ⟨field.Forbidden (Path.Key (Path.Index (Path.Child (Path.Child (Path.Index p j)
      "exports") "targets") i) (exp.Name ++ "/" ++ exp.Target)) "", ?_, rfl, rfl⟩
    apply mem_rangeLoop_of_mem _ hj
    simp only [ValidateInstallationTemplates.body, List.mem_append]
    refine Or.inr (mem_rangeLoop_of_mem _ hi _ ?_)
    have hin : InScope defs
        (rangeLoop (ValidateInstallationTemplates.targetExport defs (p.Index j))
          (T.Exports.Targets.take i) 0
          (rangeLoop (ValidateInstallationTemplates.dataExport defs (p.Index j))
            T.Exports.Data 0
            (rangeLoop (ValidateInstallationTemplates.body p defs) (ts.take j) 0 []).2).2).2
        ImportType.Target exp.Target := by
      rcases hscope with h | ⟨j', T', hlt, hT', hx⟩
      · exact Or.inl h
      · refine Or.inr (targetExport_scope_mono _ _ _ _ _ _
          (dataExport_scope_mono _ _ _ _ _ _ ?_))
        exact (mem_exportScopeBefore p defs ts j ImportType.Target exp.Target).2
          ⟨j', T', hlt, hT', Or.inr ⟨rfl, hx⟩⟩
    simp [ValidateInstallationTemplates.targetExport, hin]

/-- Witness for C21: the second template of the test exports the dataRef
`mysecondexportref` that the first one has exported. -/
theorem validateInstallationTemplates_export_collision_witness :
    ∃ e ∈ ValidateInstallationTemplates [PathElem.name "b"]
        [ImportDefinition.mk "myimportref" (some "type: string") "" none none []]
        [testTemplate "" ⟨[], []⟩
          ⟨[⟨"myimport", "myimportref"⟩, ⟨"mysecondexport", "mysecondexportref"⟩], []⟩,
         testTemplate "" ⟨[], []⟩ ⟨[⟨"mysecondexport", "mysecondexportref"⟩], []⟩],
      e.ErrType = ErrorType.Forbidden ∧
      e.Field = [PathElem.index "mysecondexport/mysecondexportref", PathElem.index "0",
        PathElem.name "data", PathElem.name "exports", PathElem.index "1", PathElem.name "b"] :=
  (validateInstallationTemplates_export_collision [PathElem.name "b"]
    [ImportDefinition.mk "myimportref" (some "type: string") "" none none []]
    [testTemplate "" ⟨[], []⟩
      ⟨[⟨"myimport", "myimportref"⟩, ⟨"mysecondexport", "mysecondexportref"⟩], []⟩,
     testTemplate "" ⟨[], []⟩ ⟨[⟨"mysecondexport", "mysecondexportref"⟩], []⟩]
    1 0 (testTemplate "" ⟨[], []⟩ ⟨[⟨"mysecondexport", "mysecondexportref"⟩], []⟩) rfl).1
    ⟨"mysecondexport", "mysecondexportref"⟩ rfl
    (Or.inr ⟨0, _, by decide, rfl, ⟨"mysecondexport", "mysecondexportref"⟩, by decide, rfl⟩)

/-- Counterexample to C21 as stated: a name that is in scope with another kind is no
collision.  The data export `n` of the dataRef `r` by the second template, after the first
template has exported `r` as a target, gets no violation; neither does the data export of
`myimportref` where `myimportref` is the name of a parent import of kind Target. -/
theorem validateInstallationTemplates_export_collision_counterexample :
    ValidateInstallationTemplates [PathElem.name "b"] []
        [testTemplate "" ⟨[], []⟩ ⟨[], [⟨"t", "r"⟩]⟩,
         testTemplate "" ⟨[], []⟩ ⟨[⟨"n", "r"⟩], []⟩] = [] ∧
    (¬ ∃ e ∈ ValidateInstallationTemplates [PathElem.name "b"] []
        [testTemplate "" ⟨[], []⟩ ⟨[], [⟨"t", "r"⟩]⟩,
         testTemplate "" ⟨[], []⟩ ⟨[⟨"n", "r"⟩], []⟩],
      e.ErrType = ErrorType.Forbidden ∧
      e.Field = Path.Key (Path.Index (Path.Child (Path.Child
        (Path.Index [PathElem.name "b"] 1) "exports") "data") 0) "n/r") ∧
    ValidateInstallationTemplates [PathElem.name "b"]
        [ImportDefinition.mk "myimportref" none "mytype" none none []]
        [testTemplate "" ⟨[], []⟩ ⟨[⟨"myimport", "myimportref"⟩], []⟩] = [] ∧
    (¬ ∃ e ∈ ValidateInstallationTemplates [PathElem.name "b"]
        [ImportDefinition.mk "myimportref" none "mytype" none none []]
        [testTemplate "" ⟨[], []⟩ ⟨[⟨"myimport", "myimportref"⟩], []⟩],
      e.ErrType = ErrorType.Forbidden ∧
      e.Field = Path.Key (Path.Index (Path.Child (Path.Child
        (Path.Index [PathElem.name "b"] 0) "exports") "data") 0) "myimport/myimportref") := by
  decide

/-! ## The definition validator -/

/-- Two element paths of one list that lie above the same path are the same element. -/
theorem index_suffix_inj {p F : Path} {i k : Nat} (hi : p.Index i <:+ F)
    (hk : p.Index k <:+ F) : i = k := by
  have h : p.Index i = p.Index k := by
    rcases List.suffix_or_suffix_of_suffix hi hk with h | h
    · exact h.eq_of_length (by simp [Path.Index])
    · exact (h.eq_of_length (by simp [Path.Index])).symm
  simpa [Path.Index] using h

/-- In a loop without state whose iteration `i` reports at `p[i]` or below, the violations
at `p[i]` or below are those of iteration `i`. -/
theorem violationsUnder_rangeLoop {α : Type} (f : Nat → α → ErrorList) (p : Path)
    (hf : ∀ i x, ∀ e ∈ f i x, p.Index i <:+ e.Field)
    (xs : List α) (i : Nat) (x : α) (hi : xs[i]? = some x) :
    violationsUnder (p.Index i) (rangeLoop (fun i x (_ : Unit) => (f i x, ())) xs 0 ()).1 =
      f i x := by
  rw [rangeLoop_split _ xs i x hi ()]
  simp only [violationsUnder, List.filter_append]
  have h1 : List.filter (fun e => decide (p.Index i <:+ e.Field))
      (rangeLoop (fun i x (_ : Unit) => (f i x, ())) (xs.take i) 0 ()).1 = [] := by
    rw [List.filter_eq_nil_iff]
    intro e he hs
    obtain ⟨k, y, _, hk, hek⟩ := mem_rangeLoop _ he
    have hlt : k < i := by
      rcases Nat.lt_or_ge k (xs.take i).length with h | h
      · rw [List.length_take] at h; omega
      · rw [List.getElem?_eq_none h] at hk; cases hk
    have := index_suffix_inj (of_decide_eq_true hs) (hf _ _ e hek)
    omega
  have h2 : List.filter (fun e => decide (p.Index i <:+ e.Field))
      (rangeLoop (fun i x (_ : Unit) => (f i x, ())) (xs.drop (i + 1)) (i + 1) ()).1 = [] := by
    rw [List.filter_eq_nil_iff]
    intro e he hs
    obtain ⟨k, y, _, hk, hek⟩ := mem_rangeLoop _ he
    have := index_suffix_inj (of_decide_eq_true hs) (hf _ _ e hek)
    omega
  have h3 : List.filter (fun e => decide (p.Index i <:+ e.Field)) (f i x) = f i x := by
    rw [List.filter_eq_self]
    intro e he
    exact decide_eq_true (hf i x e he)
  rw [h1, h2, h3]
  simp

/-- The violations of the kind checks are located at the path of the definition. -/
theorem validateDefinitionKind_field (q : Path) (n : String) (s : Option String) (t : String)
    (ty : Option ImportType) : ∀ e ∈ validateDefinitionKind q n s t ty, e.Field = q := by
  intro e he
  unfold validateDefinitionKind at he
  split at he
  · split_ifs at he <;> simp at he <;> subst he <;> rfl
  · simp only [List.mem_append] at he
    rcases he with he | he <;> split_ifs at he <;> simp at he <;> subst he <;> rfl
  · simp only [List.mem_append] at he
    rcases he with he | he <;> split_ifs at he <;> simp at he <;> subst he <;> rfl

/-- The violations of an import definition are located at its element path or below. -/
theorem importDefinitions_body_under (p : Path) (i : Nat) (d : ImportDefinition) :
    ∀ e ∈ ValidateBlueprintImportDefinitions.body p i d, p.Index i <:+ e.Field := by
  intro e he
  unfold ValidateBlueprintImportDefinitions.body at he
  split_ifs at he with h1 h2
  · simp at he; subst he; exact List.suffix_cons _ _
  · simp only [List.mem_append, List.mem_singleton] at he
    rcases he with he | he
    · rw [validateDefinitionKind_field _ _ _ _ _ e he]; exact List.suffix_cons _ _
    · subst he; exact List.suffix_cons _ _
  · simp only [List.append_nil] at he
    rw [validateDefinitionKind_field _ _ _ _ _ e he]; exact List.suffix_cons _ _

/-- The violations of an export definition are located at its element path or below. -/
theorem exportDefinitions_body_under (p : Path) (i : Nat) (d : ExportDefinition) :
    ∀ e ∈ ValidateBlueprintExportDefinitions.body p i d, p.Index i <:+ e.Field := by
  intro e he
  unfold ValidateBlueprintExportDefinitions.body at he
  split_ifs at he with h1
  · simp at he; subst he; exact List.suffix_cons _ _
  · rw [validateDefinitionKind_field _ _ _ _ _ e he]; exact List.suffix_cons _ _

/-- The violations the import definition validator reports for the definition at index `i`
are those of its own checks. -/
theorem importDefinitions_under (p : Path) (imports : List ImportDefinition) (i : Nat)
    (d : ImportDefinition) (hi : imports[i]? = some d) :
    violationsUnder (p.Index i) (ValidateBlueprintImportDefinitions p imports) =
      ValidateBlueprintImportDefinitions.body p i d :=
  violationsUnder_rangeLoop _ p (importDefinitions_body_under p) imports i d hi

/-- The violations the export definition validator reports for the definition at index `i`
are those of its own checks. -/
theorem exportDefinitions_under (p : Path) (exports : List ExportDefinition) (i : Nat)
    (d : ExportDefinition) (hi : exports[i]? = some d) :
    violationsUnder (p.Index i) (ValidateBlueprintExportDefinitions p exports) =
      ValidateBlueprintExportDefinitions.body p i d :=
  violationsUnder_rangeLoop _ p (exportDefinitions_body_under p) exports i d hi

/-! ## The scenarios of `blueprint_test.go` for definitions and single templates -/

theorem test_import_definitions_valid :
    ValidateBlueprintImportDefinitions [PathElem.name ""]
      [ImportDefinition.mk "my-import1" none "test" (some ImportType.Target) none [],
       ImportDefinition.mk "my-import2" none "test" (some ImportType.TargetList) none [],
       ImportDefinition.mk "my-import3" (some "") "" (some ImportType.Data) none []] = [] := by
  decide

theorem test_import_definition_name_empty :
    ValidateBlueprintImportDefinitions [PathElem.name "b"]
      [ImportDefinition.mk "" none "" none none []] =
      [field.Required [PathElem.name "name", PathElem.index "0", PathElem.name "b"] ""] := by
  decide

theorem test_import_definition_no_type :
    ValidateBlueprintImportDefinitions [PathElem.name "b"]
      [ImportDefinition.mk "myimport" none "" none none []] =
      [field.Required [PathElem.index "myimport", PathElem.index "0", PathElem.name "b"]
        ""] := by
  decide

theorem test_import_definition_legacy_conflict :
    ValidateBlueprintImportDefinitions [PathElem.name "x"]
      [ImportDefinition.mk "myimport" (some "") "test" none none []] =
      [field.Invalid [PathElem.index "myimport", PathElem.index "0", PathElem.name "x"]
        (BadValue.str "myimport") ""] := by
  decide

theorem test_import_definitions_config_empty :
    ValidateBlueprintImportDefinitions [PathElem.name "x"]
      [ImportDefinition.mk "myimport1" none "" (some ImportType.Data) none [],
       ImportDefinition.mk "myimport2" none "" (some ImportType.Target) none [],
       ImportDefinition.mk "myimport3" none "" (some ImportType.TargetList) none []] =
      [field.Required [PathElem.index "myimport1", PathElem.index "0", PathElem.name "x"]
        "Schema",
       field.Required [PathElem.index "myimport2", PathElem.index "1", PathElem.name "x"]
        "TargetType",
       field.Required [PathElem.index "myimport3", PathElem.index "2", PathElem.name "x"]
        "TargetType"] := by
  decide

theorem test_import_definitions_wrong_config :
    ValidateBlueprintImportDefinitions [PathElem.name "x"]
      [ImportDefinition.mk "myimport1" (some "") "test" (some ImportType.Data) none [],
       ImportDefinition.mk "myimport2" (some "") "test" (some ImportType.Target) none [],
       ImportDefinition.mk "myimport3" (some "") "test" (some ImportType.TargetList) none []] =
      [field.Invalid [PathElem.index "myimport1", PathElem.index "0", PathElem.name "x"]
        (BadValue.str "myimport1") "TargetType",
       field.Invalid [PathElem.index "myimport2", PathElem.index "1", PathElem.name "x"]
        (BadValue.str "myimport2") "Schema",
       field.Invalid [PathElem.index "myimport3", PathElem.index "2", PathElem.name "x"]
        (BadValue.str "myimport3") "Schema"] := by
  decide

theorem test_import_definition_conditional :
    ValidateBlueprintImportDefinitions [PathElem.name "x"]
      [ImportDefinition.mk "myimport" none "test" none none
        [ImportDefinition.mk "myConditionalImport" none "test" none none []]] =
      [field.Invalid [PathElem.index "myimport", PathElem.index "0", PathElem.name "x"]
        (BadValue.str "myimport") "conditional imports on required import"] := by
  decide

theorem test_import_definition_targetMap :
    ValidateBlueprintImportDefinitions [PathElem.name "x"]
      [ImportDefinition.mk "myimport" none "test" (some ImportType.TargetMap) none []] =
      [] := by
  decide

theorem test_export_definitions_valid :
    ValidateBlueprintExportDefinitions [PathElem.name ""]
      [⟨"my-export1", none, "test", some ImportType.Target⟩,
       ⟨"my-export3", some "", "", some ImportType.Data⟩] = [] := by
  decide

theorem test_export_definition_name_empty :
    ValidateBlueprintExportDefinitions [PathElem.name "b"] [⟨"", none, "", none⟩] =
      [field.Required [PathElem.name "name", PathElem.index "0", PathElem.name "b"] ""] := by
  decide

theorem test_export_definition_no_type :
    ValidateBlueprintExportDefinitions [PathElem.name "b"] [⟨"myimport", none, "", none⟩] =
      [field.Required [PathElem.index "myimport", PathElem.index "0", PathElem.name "b"]
        ""] := by
  decide

theorem test_template_valid (isDNSLabel : String → Bool) (h : isDNSLabel "myname" = true) :
    ValidateInstallationTemplate isDNSLabel [PathElem.name ""]
      ⟨"myname", ⟨"my-ref", none⟩, ⟨[], []⟩, ⟨[], []⟩⟩ = [] := by
  simp [ValidateInstallationTemplate, h, rangeLoop]

theorem test_template_name_missing (isDNSLabel : String → Bool) :
    field.Required [PathElem.name "name", PathElem.name "b"] "" ∈
      ValidateInstallationTemplate isDNSLabel [PathElem.name "b"]
        ⟨"", ⟨"", none⟩, ⟨[], []⟩, ⟨[], []⟩⟩ := by
  simp [ValidateInstallationTemplate, Path.Child]

theorem test_template_name_invalid (isDNSLabel : String → Bool)
    (h : isDNSLabel "%$.-" = false) :
    field.Invalid [PathElem.name "name", PathElem.name "b"] (BadValue.str "%$.-") "" ∈
      ValidateInstallationTemplate isDNSLabel [PathElem.name "b"]
        ⟨"%$.-", ⟨"", none⟩, ⟨[], []⟩, ⟨[], []⟩⟩ := by
  simp [ValidateInstallationTemplate, Path.Child, h]

theorem test_template_blueprint_missing (isDNSLabel : String → Bool) :
    field.Required [PathElem.name "blueprint", PathElem.name "b"] "" ∈
      ValidateInstallationTemplate isDNSLabel [PathElem.name "b"]
        ⟨"myname", ⟨"", none⟩, ⟨[], []⟩, ⟨[], []⟩⟩ := by
  simp [ValidateInstallationTemplate, Path.Child]

theorem test_template_secret_configmap :
    ValidateInstallationTemplate (fun _ => true) [PathElem.name "b"]
      ⟨"", ⟨"", none⟩,
        ⟨[⟨"myimport", "", "", some ⟨"mysecret", ""⟩, none⟩,
          ⟨"mysecondimport", "", "", none, some ⟨"mycm", ""⟩⟩], []⟩, ⟨[], []⟩⟩ =
      [field.Required [PathElem.name "name", PathElem.name "b"] "",
       field.Required [PathElem.name "blueprint", PathElem.name "b"] "",
       field.Forbidden [PathElem.name "secretRef", PathElem.index "0", PathElem.name "data",
         PathElem.name "imports", PathElem.name "b"] "",
       field.Forbidden [PathElem.name "configMapRef", PathElem.index "1",
         PathElem.name "data", PathElem.name "imports", PathElem.name "b"] ""] := by
  decide

/-! ## Secret and config-map sources in a template -/

/-- C22. Secret and config-map sources are forbidden in nested templates: for every
installation template and data import at index `i`, `ValidateInstallationTemplate` reports
Forbidden at `p.imports.data[i].secretRef` when the data import has a SecretRef and Forbidden
at `p.imports.data[i].configMapRef` when it has a ConfigMapRef. -/
theorem validateInstallationTemplate_forbidden_sources (isDNSLabel : String → Bool)
    (p : Path) (template : InstallationTemplate) (i : Nat) (imp : DataImport)
    (hi : template.Imports.Data[i]? = some imp) :
    (imp.SecretRef.isSome →
      ∃ e ∈ ValidateInstallationTemplate isDNSLabel p template,
        e.ErrType = ErrorType.Forbidden ∧
        e.Field = Path.Child (Path.Index (Path.Child (Path.Child p "imports") "data") i)
          "secretRef") ∧
    (imp.ConfigMapRef.isSome →
      ∃ e ∈ ValidateInstallationTemplate isDNSLabel p template,
        e.ErrType = ErrorType.Forbidden ∧
        e.Field = Path.Child (Path.Index (Path.Child (Path.Child p "imports") "data") i)
          "configMapRef") := by
  constructor
  · intro hs
    refine ⟨field.Forbidden (Path.Child (Path.Index (Path.Child (Path.Child p "imports")
      "data") i) "secretRef") "", ?_, rfl, rfl⟩
    unfold ValidateInstallationTemplate
    refine List.mem_append_right _ ((mem_rangeLoop_unit _ _ _).2 ⟨i, imp, hi, ?_⟩)
    simp [hs]
  · intro hs
    refine ⟨field.Forbidden (Path.Child (Path.Index (Path.Child (Path.Child p "imports")
      "data") i) "configMapRef") "", ?_, rfl, rfl⟩
    unfold ValidateInstallationTemplate
    refine List.mem_append_right _ ((mem_rangeLoop_unit _ _ _).2 ⟨i, imp, hi, ?_⟩)
    simp [hs]

/-- Witness for C22: the second data import of the test, sourced by the config map `mycm`. -/
theorem validateInstallationTemplate_forbidden_sources_witness :
    ∃ e ∈ ValidateInstallationTemplate (fun _ => true) [PathElem.name "b"]
        ⟨"", ⟨"", none⟩,
          ⟨[⟨"myimport", "", "", some ⟨"mysecret", ""⟩, none⟩,
            ⟨"mysecondimport", "", "", none, some ⟨"mycm", ""⟩⟩], []⟩, ⟨[], []⟩⟩,
      e.ErrType = ErrorType.Forbidden ∧
      e.Field = [PathElem.name "configMapRef", PathElem.index "1", PathElem.name "data",
        PathElem.name "imports", PathElem.name "b"] :=
  (validateInstallationTemplate_forbidden_sources (fun _ => true) [PathElem.name "b"]
    ⟨"", ⟨"", none⟩,
      ⟨[⟨"myimport", "", "", some ⟨"mysecret", ""⟩, none⟩,
        ⟨"mysecondimport", "", "", none, some ⟨"mycm", ""⟩⟩], []⟩, ⟨[], []⟩⟩
    1 ⟨"mysecondimport", "", "", none, some ⟨"mycm", ""⟩⟩ rfl).2 rfl

/-! ## Definitions: name and kind -/

/-- C23. A definition whose kind cannot be determined is rejected: for every list of import
definitions, and likewise of export definitions, and every path `p`, a definition at index
`i` with a non-empty name `n` and with neither Type, Schema nor TargetType set yields a
Required violation at `p[i][n]`. -/
theorem validateBlueprintDefinitions_no_kind (p : Path) (i : Nat) :
    (∀ (imports : List ImportDefinition) (d : ImportDefinition), imports[i]? = some d →
      d.Name ≠ "" → d.Typ = none → d.Schema = none → d.TargetType = "" →
      ∃ e ∈ ValidateBlueprintImportDefinitions p imports,
        e.ErrType = ErrorType.Required ∧ e.Field = Path.Key (Path.Index p i) d.Name) ∧
    (∀ (exports : List ExportDefinition) (d : ExportDefinition), exports[i]? = some d →
      d.Name ≠ "" → d.Typ = none → d.Schema = none → d.TargetType = "" →
      ∃ e ∈ ValidateBlueprintExportDefinitions p exports,
        e.ErrType = ErrorType.Required ∧ e.Field = Path.Key (Path.Index p i) d.Name) := by
  constructor
  · intro imports d hi hn ht hs htt
    refine ⟨field.Required (Path.Key (Path.Index p i) d.Name) "", ?_, rfl, rfl⟩
    refine (mem_rangeLoop_unit _ _ _).2 ⟨i, d, hi, ?_⟩
    simp [ValidateBlueprintImportDefinitions.body, validateDefinitionKind, hn, ht, hs, htt]
  · intro exports d hi hn ht hs htt
    refine ⟨field.Required (Path.Key (Path.Index p i) d.Name) "", ?_, rfl, rfl⟩
    refine (mem_rangeLoop_unit _ _ _).2 ⟨i, d, hi, ?_⟩
    simp [ValidateBlueprintExportDefinitions.body, validateDefinitionKind, hn, ht, hs, htt]

/-- Witness for C23: scenario 2 of the spec, the definition `myimport` without type, schema
and target type at path `b`, index 0. -/
theorem validateBlueprintDefinitions_no_kind_witness :
    ∃ e ∈ ValidateBlueprintImportDefinitions [PathElem.name "b"]
        [ImportDefinition.mk "myimport" none "" none none []],
      e.ErrType = ErrorType.Required ∧
      e.Field = [PathElem.index "myimport", PathElem.index "0", PathElem.name "b"] :=
  (validateBlueprintDefinitions_no_kind [PathElem.name "b"] 0).1
    [ImportDefinition.mk "myimport" none "" none none []]
    (ImportDefinition.mk "myimport" none "" none none []) rfl (by decide) rfl rfl rfl

/-- C27. Conditional imports are illegal on a required import: for every import definition
with a non-empty name `n` whose ConditionalImports is non-empty and whose Required flag is
true or unset, `ValidateBlueprintImportDefinitions` reports Invalid at `p[i][n]` with the
detail `conditional imports on required import`. -/
theorem validateBlueprintImportDefinitions_conditional (p : Path)
    (imports : List ImportDefinition) (i : Nat) (d : ImportDefinition)
    (hi : imports[i]? = some d) (hn : d.Name ≠ "") (hc : d.ConditionalImports ≠ [])
    (hr : d.Required = some true ∨ d.Required = none) :
    ∃ e ∈ ValidateBlueprintImportDefinitions p imports,
      e.ErrType = ErrorType.Invalid ∧ e.Field = Path.Key (Path.Index p i) d.Name ∧
      e.Detail = "conditional imports on required import" := by
  refine ⟨field.Invalid (Path.Key (Path.Index p i) d.Name) (BadValue.str d.Name)
    "conditional imports on required import", ?_, rfl, rfl, rfl⟩
  refine (mem_rangeLoop_unit _ _ _).2 ⟨i, d, hi, ?_⟩
  have hc' : d.ConditionalImports.isEmpty = false := by
    cases h : d.ConditionalImports with
    | nil => exact absurd h hc
    | cons a l => rfl
  have hr' : d.Required.getD true = true := by
    rcases hr with h | h <;> simp [h]
  simp [ValidateBlueprintImportDefinitions.body, hn, hc', hr']

/-- Witness for C27: the definition of the test, `myimport` with the conditional import
`myConditionalImport` and no Required flag. -/
theorem validateBlueprintImportDefinitions_conditional_witness :
    ∃ e ∈ ValidateBlueprintImportDefinitions [PathElem.name "x"]
        [ImportDefinition.mk "myimport" none "test" none none
          [ImportDefinition.mk "myConditionalImport" none "test" none none []]],
      e.ErrType = ErrorType.Invalid ∧
      e.Field = [PathElem.index "myimport", PathElem.index "0", PathElem.name "x"] ∧
      e.Detail = "conditional imports on required import" :=
  validateBlueprintImportDefinitions_conditional [PathElem.name "x"]
    [ImportDefinition.mk "myimport" none "test" none none
      [ImportDefinition.mk "myConditionalImport" none "test" none none []]]
    0 (ImportDefinition.mk "myimport" none "test" none none
      [ImportDefinition.mk "myConditionalImport" none "test" none none []])
    rfl (by decide) (by simp [ImportDefinition.ConditionalImports]) (Or.inr rfl)

/-! ## Definitions: how many violations one definition gets -/

/-- The conditional-import check reports nothing exactly for a definition without
conditional imports or with `Required` set to false. -/
theorem conditional_part_nil_iff (d : ImportDefinition) (x : Error) :
    (if !d.ConditionalImports.isEmpty && d.Required.getD true then [x] else []) = [] ↔
      (d.ConditionalImports = [] ∨ d.Required = some false) := by
  cases hc : d.ConditionalImports with
  | nil => simp
  | cons a l =>
    cases hr : d.Required with
    | none => simp
    | some b => cases b <;> simp

/-- The violations of the conditional-import check. -/
theorem mem_conditional_part (d : ImportDefinition) (x e : Error)
    (h : e ∈ (if !d.ConditionalImports.isEmpty && d.Required.getD true then [x] else [])) :
    e = x := by
  split_ifs at h <;> simp at h
  exact h

/-- C28. A definition without a name is reported once and not checked further: for every
list of import definitions, and likewise of export definitions, and every path `p`, the
violations reported at or below `p[i]` for a definition at index `i` with an empty name are
the one Required violation at `p[i].name`; the result as a whole is the concatenation of the
violations of the checks of every definition of the list, each at its own index, so the
other definitions are still checked. -/
theorem validateBlueprintDefinitions_empty_name (p : Path) (i : Nat) :
    (∀ (imports : List ImportDefinition) (d : ImportDefinition), imports[i]? = some d →
      d.Name = "" →
      (∃ e, e.ErrType = ErrorType.Required ∧ e.Field = Path.Child (Path.Index p i) "name" ∧
        violationsUnder (p.Index i) (ValidateBlueprintImportDefinitions p imports) = [e]) ∧
      ValidateBlueprintImportDefinitions p imports =
        imports.enum.flatMap
          (fun kd => ValidateBlueprintImportDefinitions.body p kd.1 kd.2)) ∧
    (∀ (exports : List ExportDefinition) (d : ExportDefinition), exports[i]? = some d →
      d.Name = "" →
      (∃ e, e.ErrType = ErrorType.Required ∧ e.Field = Path.Child (Path.Index p i) "name" ∧
        violationsUnder (p.Index i) (ValidateBlueprintExportDefinitions p exports) = [e]) ∧
      ValidateBlueprintExportDefinitions p exports =
        exports.enum.flatMap
          (fun kd => ValidateBlueprintExportDefinitions.body p kd.1 kd.2)) := by
  constructor
  · intro imports d hi hn
    refine ⟨⟨field.Required (Path.Child (Path.Index p i) "name") "", rfl, rfl, ?_⟩, ?_⟩
    · rw [importDefinitions_under p imports i d hi]
      simp [ValidateBlueprintImportDefinitions.body, hn]
    · exact rangeLoop_unit_eq_flatMap _ _ _
  · intro exports d hi hn
    refine ⟨⟨field.Required (Path.Child (Path.Index p i) "name") "", rfl, rfl, ?_⟩, ?_⟩
    · rw [exportDefinitions_under p exports i d hi]
      simp [ValidateBlueprintExportDefinitions.body, hn]
    · exact rangeLoop_unit_eq_flatMap _ _ _

/-- Witness for C28: a nameless definition followed by the definition `myimport` without a
kind; the nameless one gets its one violation and the second one is still checked. -/
theorem validateBlueprintDefinitions_empty_name_witness :
    (∃ e, e.ErrType = ErrorType.Required ∧
      e.Field = Path.Child (Path.Index [PathElem.name "b"] 0) "name" ∧
      violationsUnder (Path.Index [PathElem.name "b"] 0)
        (ValidateBlueprintImportDefinitions [PathElem.name "b"]
          [ImportDefinition.mk "" (some "") "test" none none [],
           ImportDefinition.mk "myimport" none "" none none []]) = [e]) ∧
    ValidateBlueprintImportDefinitions [PathElem.name "b"]
        [ImportDefinition.mk "" (some "") "test" none none [],
         ImportDefinition.mk "myimport" none "" none none []] =
      [field.Required [PathElem.name "name", PathElem.index "0", PathElem.name "b"] "",
       field.Required [PathElem.index "myimport", PathElem.index "1", PathElem.name "b"]
         ""] :=
  ⟨((validateBlueprintDefinitions_empty_name [PathElem.name "b"] 0).1
    [ImportDefinition.mk "" (some "") "test" none none [],
     ImportDefinition.mk "myimport" none "" none none []]
    (ImportDefinition.mk "" (some "") "test" none none []) rfl rfl).1, by decide⟩

/-- C24, amended. Conflicting legacy kind indicators are rejected once: for every import
definition with a non-empty name `n`, no explicit Type and both Schema and TargetType set,
the violations `ValidateBlueprintImportDefinitions` reports for that definition start with
one violation of kind Invalid at `p[i][n]`.  It is the only violation for the definition if
and only if the definition carries no conditional imports or is not required; otherwise the
Invalid violation `conditional imports on required import` at `p[i][n]` follows it. -/
theorem validateBlueprintImportDefinitions_legacy_conflict (p : Path)
    (imports : List ImportDefinition) (i : Nat) (d : ImportDefinition)
    (hi : imports[i]? = some d) (hn : d.Name ≠ "") (ht : d.Typ = none)
    (hs : d.Schema.isSome) (htt : d.TargetType ≠ "") :
    ∃ e rest,
      violationsUnder (p.Index i) (ValidateBlueprintImportDefinitions p imports) = e :: rest ∧
      e.ErrType = ErrorType.Invalid ∧ e.Field = Path.Key (Path.Index p i) d.Name ∧
      (rest = [] ↔ (d.ConditionalImports = [] ∨ d.Required = some false)) ∧
      (∀ e' ∈ rest, e'.ErrType = ErrorType.Invalid ∧
        e'.Field = Path.Key (Path.Index p i) d.Name ∧
        e'.Detail = "conditional imports on required import") := by
  refine ⟨field.Invalid (Path.Key (Path.Index p i) d.Name) (BadValue.str d.Name) "",
    (if !d.ConditionalImports.isEmpty && d.Required.getD true then
      [field.Invalid (Path.Key (Path.Index p i) d.Name) (BadValue.str d.Name)
        "conditional imports on required import"]
     else []), ?_, rfl, rfl, conditional_part_nil_iff d _, ?_⟩
  · rw [importDefinitions_under p imports i d hi]
    simp [ValidateBlueprintImportDefinitions.body, validateDefinitionKind, hn, ht, hs, htt]
  · intro e' he'
    rw [mem_conditional_part d _ e' he']
    exact ⟨rfl, rfl, rfl⟩

/-- Witness for C24: the definition of the test, `myimport` with a schema and the target type
`test`, at path `x`. -/
theorem validateBlueprintImportDefinitions_legacy_conflict_witness :
    ∃ e rest,
      violationsUnder (Path.Index [PathElem.name "x"] 0)
        (ValidateBlueprintImportDefinitions [PathElem.name "x"]
          [ImportDefinition.mk "myimport" (some "") "test" none none []]) = e :: rest ∧
      e.ErrType = ErrorType.Invalid ∧
      e.Field = Path.Key (Path.Index [PathElem.name "x"] 0) "myimport" ∧
      (rest = [] ↔ (([] : List ImportDefinition) = [] ∨ (none : Option Bool) = some false)) ∧
      (∀ e' ∈ rest, e'.ErrType = ErrorType.Invalid ∧
        e'.Field = Path.Key (Path.Index [PathElem.name "x"] 0) "myimport" ∧
        e'.Detail = "conditional imports on required import") :=
  validateBlueprintImportDefinitions_legacy_conflict [PathElem.name "x"]
    [ImportDefinition.mk "myimport" (some "") "test" none none []] 0
    (ImportDefinition.mk "myimport" (some "") "test" none none []) rfl (by decide) rfl rfl
    (by decide)

/-- Counterexample to C24 as stated: the definition `myimport` with a schema, the target
type `test`, no Type, and a conditional import while required gets two violations, the
Invalid one for the conflicting indicators and the Invalid one for the conditional
imports. -/
theorem validateBlueprintImportDefinitions_legacy_conflict_counterexample :
    ValidateBlueprintImportDefinitions [PathElem.name "x"]
        [ImportDefinition.mk "myimport" (some "") "test" none none
          [ImportDefinition.mk "myConditionalImport" none "test" none none []]] =
      [field.Invalid [PathElem.index "myimport", PathElem.index "0", PathElem.name "x"]
         (BadValue.str "myimport") "",
       field.Invalid [PathElem.index "myimport", PathElem.index "0", PathElem.name "x"]
         (BadValue.str "myimport") "conditional imports on required import"] ∧
    ¬ ∃ e, violationsUnder (Path.Index [PathElem.name "x"] 0)
        (ValidateBlueprintImportDefinitions [PathElem.name "x"]
          [ImportDefinition.mk "myimport" (some "") "test" none none
            [ImportDefinition.mk "myConditionalImport" none "test" none none []]]) = [e] := by
  refine ⟨by decide, ?_⟩
  rintro ⟨e, he⟩
  have h : (violationsUnder (Path.Index [PathElem.name "x"] 0)
      (ValidateBlueprintImportDefinitions [PathElem.name "x"]
        [ImportDefinition.mk "myimport" (some "") "test" none none
          [ImportDefinition.mk "myConditionalImport" none "test" none none []]])).length = 2 := by
    decide
  rw [he] at h
  simp at h

/-- C25, amended. Kind-specific required fields: for every import definition with a non-empty
name `n` and an explicit Type whose own field is missing (Schema for kind Data, TargetType
for the kinds Target, TargetList and TargetMap), the violations
`ValidateBlueprintImportDefinitions` reports for it start with a Required violation at
`p[i][n]` whose detail contains `Schema` for kind Data and `TargetType` for the other kinds.
It is the only violation for the definition if and only if the field of the other kind is
not set either and the definition carries no conditional imports or is not required. -/
theorem validateBlueprintImportDefinitions_kind_required (p : Path)
    (imports : List ImportDefinition) (i : Nat) (d : ImportDefinition) (k : ImportType)
    (hi : imports[i]? = some d) (hn : d.Name ≠ "") (ht : d.Typ = some k)
    (hmiss : (k = ImportType.Data ∧ d.Schema = none) ∨
      (k ≠ ImportType.Data ∧ d.TargetType = "")) :
    ∃ e rest,
      violationsUnder (p.Index i) (ValidateBlueprintImportDefinitions p imports) = e :: rest ∧
      e.ErrType = ErrorType.Required ∧ e.Field = Path.Key (Path.Index p i) d.Name ∧
      (k = ImportType.Data → "Schema".data <:+: e.Detail.data) ∧
      (k ≠ ImportType.Data → "TargetType".data <:+: e.Detail.data) ∧
      (rest = [] ↔
        ((k = ImportType.Data → d.TargetType = "") ∧ (k ≠ ImportType.Data → d.Schema = none) ∧
          (d.ConditionalImports = [] ∨ d.Required = some false))) := by
  have hbody := importDefinitions_under p imports i d hi
  have hc := conditional_part_nil_iff d
    (field.Invalid (Path.Key (Path.Index p i) d.Name) (BadValue.str d.Name)
      "conditional imports on required import")
  rcases hmiss with ⟨rfl, hs⟩ | ⟨hk, htt⟩
  · refine ⟨field.Required (Path.Key (Path.Index p i) d.Name) "Schema",
      (if d.TargetType != "" then
        [field.Invalid (Path.Key (Path.Index p i) d.Name) (BadValue.str d.Name) "TargetType"]
       else []) ++
      (if !d.ConditionalImports.isEmpty && d.Required.getD true then
        [field.Invalid (Path.Key (Path.Index p i) d.Name) (BadValue.str d.Name)
          "conditional imports on required import"]
       else []), ?_, rfl, rfl, fun _ => List.infix_refl _, fun h => absurd rfl h, ?_⟩
    · rw [hbody]
      simp [ValidateBlueprintImportDefinitions.body, validateDefinitionKind, hn, ht, hs]
    · rw [List.append_eq_nil, hc]
      by_cases h : d.TargetType = "" <;> simp [h]
  · refine ⟨field.Required (Path.Key (Path.Index p i) d.Name) "TargetType",
      (if d.Schema.isSome then
        [field.Invalid (Path.Key (Path.Index p i) d.Name) (BadValue.str d.Name) "Schema"]
       else []) ++
      (if !d.ConditionalImports.isEmpty && d.Required.getD true then
        [field.Invalid (Path.Key (Path.Index p i) d.Name) (BadValue.str d.Name)
          "conditional imports on required import"]
       else []), ?_, rfl, rfl, fun h => absurd h hk, fun _ => List.infix_refl _, ?_⟩
    · rw [hbody]
      cases k <;>
        simp [ValidateBlueprintImportDefinitions.body, validateDefinitionKind, hn, ht, htt]
          at hk ⊢
    · rw [List.append_eq_nil, hc]
      cases h : d.Schema <;> simp [hk]

/-- Witness for C25: the second definition of the test, `myimport2` of kind Target without a
target type, at index 1 of path `x`. -/
theorem validateBlueprintImportDefinitions_kind_required_witness :
    ∃ e rest,
      violationsUnder (Path.Index [PathElem.name "x"] 1)
        (ValidateBlueprintImportDefinitions [PathElem.name "x"]
          [ImportDefinition.mk "myimport1" none "" (some ImportType.Data) none [],
           ImportDefinition.mk "myimport2" none "" (some ImportType.Target) none [],
           ImportDefinition.mk "myimport3" none "" (some ImportType.TargetList) none []]) =
        e :: rest ∧
      e.ErrType = ErrorType.Required ∧
      e.Field = Path.Key (Path.Index [PathElem.name "x"] 1) "myimport2" ∧
      (ImportType.Target = ImportType.Data → "Schema".data <:+: e.Detail.data) ∧
      (ImportType.Target ≠ ImportType.Data → "TargetType".data <:+: e.Detail.data) ∧
      (rest = [] ↔
        ((ImportType.Target = ImportType.Data → "" = "") ∧
          (ImportType.Target ≠ ImportType.Data → (none : Option String) = none) ∧
          (([] : List ImportDefinition) = [] ∨ (none : Option Bool) = some false))) :=
  validateBlueprintImportDefinitions_kind_required [PathElem.name "x"]
    [ImportDefinition.mk "myimport1" none "" (some ImportType.Data) none [],
     ImportDefinition.mk "myimport2" none "" (some ImportType.Target) none [],
     ImportDefinition.mk "myimport3" none "" (some ImportType.TargetList) none []] 1
    (ImportDefinition.mk "myimport2" none "" (some ImportType.Target) none [])
    ImportType.Target rfl (by decide) rfl (Or.inr ⟨by decide, rfl⟩)

/-- Counterexample to C25 as stated: the definition `myimport1` of kind Data without a
schema and with the target type `test` gets two violations, the Required one for the schema
and the Invalid one for the target type. -/
theorem validateBlueprintImportDefinitions_kind_required_counterexample :
    ValidateBlueprintImportDefinitions [PathElem.name "x"]
        [ImportDefinition.mk "myimport1" none "test" (some ImportType.Data) none []] =
      [field.Required [PathElem.index "myimport1", PathElem.index "0", PathElem.name "x"]
         "Schema",
       field.Invalid [PathElem.index "myimport1", PathElem.index "0", PathElem.name "x"]
         (BadValue.str "myimport1") "TargetType"] ∧
    ¬ ∃ e, violationsUnder (Path.Index [PathElem.name "x"] 0)
        (ValidateBlueprintImportDefinitions [PathElem.name "x"]
          [ImportDefinition.mk "myimport1" none "test" (some ImportType.Data) none []]) =
        [e] := by
  refine ⟨by decide, ?_⟩
  rintro ⟨e, he⟩
  have h : (violationsUnder (Path.Index [PathElem.name "x"] 0)
      (ValidateBlueprintImportDefinitions [PathElem.name "x"]
        [ImportDefinition.mk "myimport1" none "test" (some ImportType.Data) none []])).length
      = 2 := by
    decide
  rw [he] at h
  simp at h

/-- C26, amended. A field that does not belong to the kind of the definition is rejected: for
every import definition with a non-empty name `n`, an explicit Type and both Schema and
TargetType set, the violations `ValidateBlueprintImportDefinitions` reports for it start
with an Invalid violation at `p[i][n]` whose detail names `TargetType` when the kind is Data
and `Schema` when the kind is Target, TargetList or TargetMap.  It is the only violation for
the definition if and only if the definition carries no conditional imports or is not
required; otherwise the Invalid violation `conditional imports on required import` at
`p[i][n]` follows it. -/
theorem validateBlueprintImportDefinitions_foreign_field (p : Path)
    (imports : List ImportDefinition) (i : Nat) (d : ImportDefinition) (k : ImportType)
    (hi : imports[i]? = some d) (hn : d.Name ≠ "") (ht : d.Typ = some k)
    (hs : d.Schema.isSome) (htt : d.TargetType ≠ "") :
    ∃ e rest,
      violationsUnder (p.Index i) (ValidateBlueprintImportDefinitions p imports) = e :: rest ∧
      e.ErrType = ErrorType.Invalid ∧ e.Field = Path.Key (Path.Index p i) d.Name ∧
      (k = ImportType.Data → "TargetType".data <:+: e.Detail.data) ∧
      (k ≠ ImportType.Data → "Schema".data <:+: e.Detail.data) ∧
      (rest = [] ↔ (d.ConditionalImports = [] ∨ d.Required = some false)) ∧
      (∀ e' ∈ rest, e'.ErrType = ErrorType.Invalid ∧
        e'.Field = Path.Key (Path.Index p i) d.Name ∧
        e'.Detail = "conditional imports on required import") := by
  have hbody := importDefinitions_under p imports i d hi
  have hs' : d.Schema ≠ none := by
    intro h
    rw [h] at hs
    cases hs
  by_cases hk : k = ImportType.Data
  · subst hk
    refine ⟨field.Invalid (Path.Key (Path.Index p i) d.Name) (BadValue.str d.Name)
        "TargetType",
      (if !d.ConditionalImports.isEmpty && d.Required.getD true then
        [field.Invalid (Path.Key (Path.Index p i) d.Name) (BadValue.str d.Name)
          "conditional imports on required import"]
       else []), ?_, rfl, rfl, fun _ => List.infix_refl _, fun h => absurd rfl h,
      conditional_part_nil_iff d _, ?_⟩
    · rw [hbody]
      simp [ValidateBlueprintImportDefinitions.body, validateDefinitionKind, hn, ht, hs, hs',
        htt]
    · intro e' he'
      rw [mem_conditional_part d _ e' he']
      exact ⟨rfl, rfl, rfl⟩
  · refine ⟨field.Invalid (Path.Key (Path.Index p i) d.Name) (BadValue.str d.Name) "Schema",
      (if !d.ConditionalImports.isEmpty && d.Required.getD true then
        [field.Invalid (Path.Key (Path.Index p i) d.Name) (BadValue.str d.Name)
          "conditional imports on required import"]
       else []), ?_, rfl, rfl, fun h => absurd h hk, fun _ => List.infix_refl _,
      conditional_part_nil_iff d _, ?_⟩
    · rw [hbody]
      cases k <;>
        simp [ValidateBlueprintImportDefinitions.body, validateDefinitionKind, hn, ht, hs,
          htt] at hk ⊢
    · intro e' he'
      rw [mem_conditional_part d _ e' he']
      exact ⟨rfl, rfl, rfl⟩

/-- Witness for C26: scenario 4 of the spec, the definition `myimport2` of kind Target that
also sets a schema, at index 1 of path `x`. -/
theorem validateBlueprintImportDefinitions_foreign_field_witness :
    ∃ e rest,
      violationsUnder (Path.Index [PathElem.name "x"] 1)
        (ValidateBlueprintImportDefinitions [PathElem.name "x"]
          [ImportDefinition.mk "myimport1" (some "") "test" (some ImportType.Data) none [],
           ImportDefinition.mk "myimport2" (some "") "test" (some ImportType.Target) none [],
           ImportDefinition.mk "myimport3" (some "") "test" (some ImportType.TargetList) none
             []]) = e :: rest ∧
      e.ErrType = ErrorType.Invalid ∧
      e.Field = Path.Key (Path.Index [PathElem.name "x"] 1) "myimport2" ∧
      (ImportType.Target = ImportType.Data → "TargetType".data <:+: e.Detail.data) ∧
      (ImportType.Target ≠ ImportType.Data → "Schema".data <:+: e.Detail.data) ∧
      (rest = [] ↔ (([] : List ImportDefinition) = [] ∨ (none : Option Bool) = some false)) ∧
      (∀ e' ∈ rest, e'.ErrType = ErrorType.Invalid ∧
        e'.Field = Path.Key (Path.Index [PathElem.name "x"] 1) "myimport2" ∧
        e'.Detail = "conditional imports on required import") :=
  validateBlueprintImportDefinitions_foreign_field [PathElem.name "x"]
    [ImportDefinition.mk "myimport1" (some "") "test" (some ImportType.Data) none [],
     ImportDefinition.mk "myimport2" (some "") "test" (some ImportType.Target) none [],
     ImportDefinition.mk "myimport3" (some "") "test" (some ImportType.TargetList) none []] 1
    (ImportDefinition.mk "myimport2" (some "") "test" (some ImportType.Target) none [])
    ImportType.Target rfl (by decide) rfl rfl (by decide)

/-- Counterexample to C26 as stated: the definition `myimport1` of kind Data with a schema,
the target type `test` and a conditional import while required gets two violations, the
Invalid one for the target type and the Invalid one for the conditional imports. -/
theorem validateBlueprintImportDefinitions_foreign_field_counterexample :
    ValidateBlueprintImportDefinitions [PathElem.name "x"]
        [ImportDefinition.mk "myimport1" (some "") "test" (some ImportType.Data) none
          [ImportDefinition.mk "myConditionalImport" none "test" none none []]] =
      [field.Invalid [PathElem.index "myimport1", PathElem.index "0", PathElem.name "x"]
         (BadValue.str "myimport1") "TargetType",
       field.Invalid [PathElem.index "myimport1", PathElem.index "0", PathElem.name "x"]
         (BadValue.str "myimport1") "conditional imports on required import"] ∧
    ¬ ∃ e, violationsUnder (Path.Index [PathElem.name "x"] 0)
        (ValidateBlueprintImportDefinitions [PathElem.name "x"]
          [ImportDefinition.mk "myimport1" (some "") "test" (some ImportType.Data) none
            [ImportDefinition.mk "myConditionalImport" none "test" none none []]]) = [e] := by
  refine ⟨by decide, ?_⟩
  rintro ⟨e, he⟩
  have h : (violationsUnder (Path.Index [PathElem.name "x"] 0)
      (ValidateBlueprintImportDefinitions [PathElem.name "x"]
        [ImportDefinition.mk "myimport1" (some "") "test" (some ImportType.Data) none
          [ImportDefinition.mk "myConditionalImport" none "test" none none []]])).length
      = 2 := by
    decide
  rw [he] at h
  simp at h

/-! ## Locking of the main controllers -/

/-- C34. `IsLockingEnabledForMainControllers` returns, without failing, true if and only if
the configuration is non-nil, its HPAMainConfiguration is non-nil and MaxReplicas is greater
than 1; for a nil configuration or a nil HPAMainConfiguration it returns false. -/
theorem isLockingEnabledForMainControllers_iff (config : Option LandscaperConfiguration) :
    (∃ b : Bool, IsLockingEnabledForMainControllers config = Except.ok b ∧
      (b = true ↔ ∃ c h, config = some c ∧ c.HPAMainConfiguration = some h ∧
        h.MaxReplicas > 1)) ∧
    IsLockingEnabledForMainControllers none = Except.ok false ∧
    (∀ c : LandscaperConfiguration, c.HPAMainConfiguration = none →
      IsLockingEnabledForMainControllers (some c) = Except.ok false) := by
  refine ⟨?_, rfl, ?_⟩
  · cases config with
    | none => exact ⟨false, rfl, by simp⟩
    | some c =>
      obtain ⟨h⟩ := c
      cases h with
      | none => exact ⟨false, rfl, by simp⟩
      | some h =>
        refine ⟨decide (h.MaxReplicas > 1), rfl, ?_⟩
        simp
  · intro c hc
    obtain ⟨h⟩ := c
    simp only at hc
    subst hc
    rfl

/-! ## The name set the import loops return -/

/-- C31. `ValidateInstallationDataImports` returns the name set it was given extended with
exactly the non-empty names of the data imports: every name of the given set is kept and the
empty name is in the result only if it was in the given set.
`ValidateInstallationTargetImports` returns the given set extended with the names of all
target imports, the empty name included. -/
theorem validateInstallationImports_names
    (visit : Nat → List (String × String) → List (String × String)) (p : Path)
    (names : Finset String) :
    (∀ imports : List DataImport,
      (ValidateInstallationDataImports imports p names).2 =
          names ∪ ((imports.map (fun d => d.Name)).filter (fun n => n ≠ "")).toFinset ∧
        names ⊆ (ValidateInstallationDataImports imports p names).2 ∧
        ("" ∈ (ValidateInstallationDataImports imports p names).2 ↔ "" ∈ names) ∧
        (∀ n, n ∈ (ValidateInstallationDataImports imports p names).2 ↔
          n ∈ names ∨ (n ≠ "" ∧ ∃ d ∈ imports, d.Name = n))) ∧
    (∀ imports : List TargetImport,
      (ValidateInstallationTargetImports visit imports p names).2 =
          names ∪ (imports.map (fun t => t.Name)).toFinset ∧
        (∀ n, n ∈ (ValidateInstallationTargetImports visit imports p names).2 ↔
          n ∈ names ∨ ∃ t ∈ imports, t.Name = n)) := by
  constructor
  · intro imports
    have h : (ValidateInstallationDataImports imports p names).2 =
        names ∪ ((imports.map (fun d => d.Name)).filter (fun n => n ≠ "")).toFinset := by
      unfold ValidateInstallationDataImports
      exact rangeLoop_names_nonempty _ (fun d : DataImport => d.Name)
        (dataImports_body_names _) imports 0 names
    refine ⟨h, ?_, ?_, ?_⟩
    · rw [h]; exact Finset.subset_union_left
    · rw [h]; simp
    · intro n
      rw [h]
      simp only [Finset.mem_union, List.mem_toFinset, List.mem_filter, List.mem_map,
        decide_eq_true_eq]
      tauto
  · intro imports
    have h : (ValidateInstallationTargetImports visit imports p names).2 =
        names ∪ (imports.map (fun t => t.Name)).toFinset := by
      unfold ValidateInstallationTargetImports
      exact rangeLoop_names_all _ (fun t : TargetImport => t.Name)
        (targetImports_body_names visit _) imports 0 names
    refine ⟨h, ?_⟩
    intro n
    rw [h]
    simp

/-- Witness for C31: a nameless data import and the data import `a` given the empty set; the
empty name is not in the returned set. -/
theorem validateInstallationImports_names_witness :
    "" ∉ (ValidateInstallationDataImports
      [⟨"", "r", "", none, none⟩, ⟨"a", "r", "", none, none⟩] [PathElem.name "data"] ∅).2 :=
  fun h => Finset.not_mem_empty ""
    ((((validateInstallationImports_names (fun _ m => m) [PathElem.name "data"] ∅).1
      [⟨"", "r", "", none, none⟩, ⟨"a", "r", "", none, none⟩]).2.2.1).1 h)

/-! ## Round trip of a v1alpha2 provider configuration -/

/-- C32. A round trip starting from v1alpha2 resets every policy: converting a v1alpha2
provider configuration `c` to v1alpha1 and the result back to v1alpha2 fails in neither
direction and yields the `UpdateStrategy` and the `ReadinessChecks` of `c` and the manifest
payloads of `c` in the same order (nil staying nil), each with the policy `ManagePolicy`.
The `Manifests` of the result equal those of `c` if and only if every manifest of `c`
already had the policy `ManagePolicy`. -/
theorem providerConfiguration_round_trip_v1alpha2 (ManagePolicy : String)
    (c : v1alpha2.ProviderConfiguration) (out1 : v1alpha1.ProviderConfiguration)
    (out2 : v1alpha2.ProviderConfiguration) :
    let r1 := Convert_v1alpha2_ProviderConfiguration_To_v1alpha1_ProviderConfiguration c out1
    let r2 := Convert_v1alpha1_ProviderConfiguration_To_v1alpha2_ProviderConfiguration
      ManagePolicy r1.1 out2
    r1.2 = none ∧ r2.2 = none ∧ r2.1.UpdateStrategy = c.UpdateStrategy ∧
      r2.1.ReadinessChecks = c.ReadinessChecks ∧
      r2.1.Manifests = c.Manifests.map
        (List.map (fun m : Manifest => ({ Policy := ManagePolicy, Manifest := m.Manifest } :
          Manifest))) ∧
      (r2.1.Manifests = c.Manifests ↔
        ∀ ms : List Manifest, c.Manifests = some ms → ∀ m ∈ ms, m.Policy = ManagePolicy) := by
  intro r1 r2
  obtain ⟨kc, us, rc, ms⟩ := c
  have hm : r2.1.Manifests = ms.map
      (List.map (fun m : Manifest => ({ Policy := ManagePolicy, Manifest := m.Manifest } :
        Manifest))) := by
    cases ms with
    | none => rfl
    | some ms =>
      simp only [r1, r2, Convert_v1alpha1_ProviderConfiguration_To_v1alpha2_ProviderConfiguration,
        Convert_v1alpha2_ProviderConfiguration_To_v1alpha1_ProviderConfiguration,
        makeAndAssign_eq_map, List.map_map, Option.map_some']
      rfl
  refine ⟨rfl, rfl, ?_, ?_, hm, ?_⟩
  · cases ms <;> rfl
  · cases ms <;> rfl
  · rw [hm]
    cases ms with
    | none => simp
    | some ms =>
      simp only [Option.map_some', Option.some.injEq, forall_eq']
      constructor
      · intro h m hmem
        have h2 := congrArg (List.map (fun m : Manifest => m.Policy)) h
        simp only [List.map_map] at h2
        have h3 : ∀ x ∈ ms, ManagePolicy = x.Policy := by
          intro x hx
          have := List.map_inj_left.1 h2 x hx
          simpa using this
        exact (h3 m hmem).symm
      · intro h
        conv_rhs => rw [← List.map_id ms]
        apply List.map_congr_left
        intro m hmem
        obtain ⟨pol, man⟩ := m
        have := h _ hmem
        simp only at this
        simp [this]

/-- An instance of C32: a manifest with the policy `keep` comes back with the policy
`manage`. -/
theorem providerConfiguration_round_trip_v1alpha2_witness :
    (Convert_v1alpha1_ProviderConfiguration_To_v1alpha2_ProviderConfiguration "manage"
      (Convert_v1alpha2_ProviderConfiguration_To_v1alpha1_ProviderConfiguration
        ⟨"k", "u", ⟨false, none⟩, some [⟨"keep", some ⟨[1]⟩⟩, ⟨"manage", none⟩]⟩
        ⟨"", "", ⟨false, none⟩, none⟩).1
      ⟨"", "", ⟨false, none⟩, none⟩).1.Manifests =
      some [⟨"manage", some ⟨[1]⟩⟩, ⟨"manage", none⟩] :=
  (providerConfiguration_round_trip_v1alpha2 "manage"
    ⟨"k", "u", ⟨false, none⟩, some [⟨"keep", some ⟨[1]⟩⟩, ⟨"manage", none⟩]⟩
    ⟨"", "", ⟨false, none⟩, none⟩ ⟨"", "", ⟨false, none⟩, none⟩).2.2.2.2.1

/-! ## The violations of one key of a target map -/

/-- The violations of the entry `(key, tg)` of a target map: the Invalid one for the key,
then the Required one for the empty target. -/
theorem targetMapLoop_single (q : Path) (key tg : String) :
    ValidateInstallationTargetImports.targetMapLoop q [(key, tg)] =
      (if !targetMapKeyRegExp.MatchString key then
        [field.Invalid ((q.Child "targetMap").Key key) (BadValue.str key) targetMapKeyDetail]
       else []) ++
      (if tg = "" then
        [field.Required ((q.Child "targetMap").Key key) "target must not be empty"]
       else []) := by
  simp [ValidateInstallationTargetImports.targetMapLoop]

/-- The violations of an entry are located at its key. -/
theorem targetMapLoop_single_field (q : Path) (key tg : String) :
    ∀ e ∈ ValidateInstallationTargetImports.targetMapLoop q [(key, tg)],
      e.Field = (q.Child "targetMap").Key key := by
  intro e he
  rw [targetMapLoop_single, List.mem_append] at he
  rcases he with he | he <;> split_ifs at he <;> simp at he <;> subst he <;> rfl

/-- The violations located at a key that the visited entries do not hold: none. -/
theorem targetMapLoop_filter_not_mem (q : Path) (key : String) (m : List (String × String))
    (h : key ∉ m.map Prod.fst) :
    (ValidateInstallationTargetImports.targetMapLoop q m).filter
      (fun e => decide (e.Field = (q.Child "targetMap").Key key)) = [] := by
  rw [List.filter_eq_nil_iff]
  intro e he hf
  rw [targetMapLoop_eq_flatMap, List.mem_flatMap] at he
  obtain ⟨⟨k, t⟩, hkt, hek⟩ := he
  have h1 := targetMapLoop_single_field q k t e hek
  have h2 : e.Field = (q.Child "targetMap").Key key := of_decide_eq_true hf
  rw [h1] at h2
  have hk : k = key := by simpa [Path.Key] using h2
  subst hk
  exact h (List.mem_map.2 ⟨(k, t), hkt, rfl⟩)

/-- The violations located at the key of an entry of a map visited in some order: those of
the entry. -/
theorem targetMapLoop_filter_mem (q : Path) (key tg : String) (m : List (String × String))
    (hn : (m.map Prod.fst).Nodup) (h : (key, tg) ∈ m) :
    (ValidateInstallationTargetImports.targetMapLoop q m).filter
      (fun e => decide (e.Field = (q.Child "targetMap").Key key)) =
      ValidateInstallationTargetImports.targetMapLoop q [(key, tg)] := by
  induction m with
  | nil => simp at h
  | cons kv rest ih =>
    obtain ⟨k, t⟩ := kv
    rw [targetMapLoop_eq_flatMap q ((k, t) :: rest), List.flatMap_cons,
      ← targetMapLoop_eq_flatMap, List.filter_append]
    simp only [List.map_cons, List.nodup_cons] at hn
    rcases List.mem_cons.1 h with h | h
    · cases h
      rw [targetMapLoop_filter_not_mem q key rest hn.1, List.append_nil, List.filter_eq_self]
      intro e he
      exact decide_eq_true (targetMapLoop_single_field q key tg e he)
    · have hne : k ≠ key := by
        rintro rfl
        exact hn.1 (List.mem_map.2 ⟨(k, tg), h, rfl⟩)
      rw [ih hn.2 h]
      have : (ValidateInstallationTargetImports.targetMapLoop q [(k, t)]).filter
          (fun e => decide (e.Field = (q.Child "targetMap").Key key)) = [] := by
        rw [List.filter_eq_nil_iff]
        intro e he hf
        have h1 := targetMapLoop_single_field q k t e he
        have h2 : e.Field = (q.Child "targetMap").Key key := of_decide_eq_true hf
        rw [h1] at h2
        exact hne (by simpa [Path.Key] using h2)
      rw [this, List.nil_append]

/-- C33. The violations reported for the TargetMap of a target import are independent of the
visiting order up to reordering.  For every TargetMap `m` (its keys are pairwise distinct)
and any two orders `m₁`, `m₂` of visiting its entries, the two violation lists are
permutations of each other, and in each of them the violations located at the key of an
entry `(key, tg)` are, in this order, the Invalid violation when the key does not match the
pattern and the Required violation when `tg` is empty: at most one of each, the Invalid one
first. -/
theorem validateInstallationTargetImports_targetMap_order (q : Path)
    (m m₁ m₂ : List (String × String)) (hn : (m.map Prod.fst).Nodup)
    (h₁ : m₁.Perm m) (h₂ : m₂.Perm m) :
    (ValidateInstallationTargetImports.targetMapLoop q m₁).Perm
        (ValidateInstallationTargetImports.targetMapLoop q m₂) ∧
      (∀ key tg, (key, tg) ∈ m →
        (ValidateInstallationTargetImports.targetMapLoop q m₁).filter
            (fun e => decide (e.Field = (q.Child "targetMap").Key key)) =
          (if !targetMapKeyRegExp.MatchString key then
            [field.Invalid ((q.Child "targetMap").Key key) (BadValue.str key)
              targetMapKeyDetail]
           else []) ++
          (if tg = "" then
            [field.Required ((q.Child "targetMap").Key key) "target must not be empty"]
           else [])) ∧
      (∀ e ∈ ValidateInstallationTargetImports.targetMapLoop q m₁,
        ∃ key tg, (key, tg) ∈ m ∧ e.Field = (q.Child "targetMap").Key key) ∧
      (∀ (visit₁ visit₂ : Nat → List (String × String) → List (String × String)),
        VisitOrder visit₁ → VisitOrder visit₂ →
        ∀ (imports : List TargetImport) (p : Path) (names : Finset String),
          (ValidateInstallationTargetImports visit₁ imports p names).1.Perm
            (ValidateInstallationTargetImports visit₂ imports p names).1) := by
  refine ⟨targetMapLoop_perm q (h₁.trans h₂.symm), ?_, ?_, ?_⟩
  · intro key tg hmem
    have hn₁ : (m₁.map Prod.fst).Nodup := ((h₁.map Prod.fst).nodup_iff).2 hn
    rw [targetMapLoop_filter_mem q key tg m₁ hn₁ (h₁.mem_iff.2 hmem), targetMapLoop_single]
  · intro e he
    rw [targetMapLoop_eq_flatMap, List.mem_flatMap] at he
    obtain ⟨⟨k, t⟩, hkt, hek⟩ := he
    exact ⟨k, t, h₁.mem_iff.1 hkt, targetMapLoop_single_field q k t e hek⟩
  · intro visit₁ visit₂ hv₁ hv₂ imports p names
    exact (rangeLoop_perm _ _
      (fun idx x s => ⟨targetImports_body_perm hv₁ hv₂ p idx x s, rfl⟩) imports 0 names).1

/-- Witness for C33: the map with the bad key `A` bound to the empty target and the good key
`b`, visited in the listed and in the reversed order. -/
theorem validateInstallationTargetImports_targetMap_order_witness :
    (ValidateInstallationTargetImports.targetMapLoop [PathElem.index "0"]
        [("A", ""), ("b", "")]).Perm
      (ValidateInstallationTargetImports.targetMapLoop [PathElem.index "0"]
        [("b", ""), ("A", "")]) :=
  (validateInstallationTargetImports_targetMap_order [PathElem.index "0"]
    [("A", ""), ("b", "")] [("A", ""), ("b", "")] [("b", ""), ("A", "")] (by decide)
    (List.Perm.refl _) (List.Perm.swap _ _ _)).1

end Landscaper
